import Mathlib

/-!
# ImageBitmap construction pipeline

A shallow embedding of `core/imagebitmap/ImageBitmap.cpp`: option parsing, the
destination-buffer overflow guard, and the construction entry points.

Conventions of the embedding:
* a C++ `int` is an `Int`, an `unsigned` is a `Nat`; conversions between the two
  and signed overflow are written out with `wrapInt` and `wrapUnsigned`;
* a nullable pointer is an `Option`.
-/

namespace blink

/-! ## Machine integers -/

/-- Largest value of a 32-bit `unsigned`. -/
def kUnsignedMax : Nat := 4294967295

/-- Largest value of a 32-bit `int`. -/
def kIntMax : Int := 2147483647

/-- Smallest value of a 32-bit `int`. -/
def kIntMin : Int := -2147483648

/-- Two's complement reduction of an integer to the range of a 32-bit `int`:
the value of a signed operation that leaves the range, and of
`static_cast<int>` applied to an `unsigned`. -/
def wrapInt (v : Int) : Int := (v + 2147483648) % 4294967296 - 2147483648

/-- Conversion of an integer to a 32-bit `unsigned` (reduction modulo 2^32). -/
def wrapUnsigned (v : Int) : Nat := (v % 4294967296).toNat

/-- The integer is a value of the type `int`. -/
def IsInt (v : Int) : Prop := kIntMin ≤ v ∧ v ≤ kIntMax

/-- The natural number is a value of the type `unsigned`. -/
def IsUnsigned (n : Nat) : Prop := n ≤ kUnsignedMax

instance (v : Int) : Decidable (IsInt v) := by unfold IsInt; infer_instance

instance (n : Nat) : Decidable (IsUnsigned n) := by unfold IsUnsigned; infer_instance

/-! ## Geometry -/

/-- Modelled from the spec: the size type `IntSize` of platform/geometry, a pair
of `int` dimensions (its header is not among the sources). -/
structure IntSize where
  width : Int
  height : Int
deriving DecidableEq, Repr

namespace IntSize

def Width (s : IntSize) : Int := s.width

def Height (s : IntSize) : Int := s.height

/-- The default-constructed size `IntSize()`. -/
def zero : IntSize := ⟨0, 0⟩

/-- The product of the two dimensions, as `Area()` returns it (an unsigned 64-bit value). -/
def Area (s : IntSize) : Nat := (s.width * s.height % 18446744073709551616).toNat

end IntSize

/-- Modelled from the spec: the rectangle type `IntRect` of platform/geometry, an
origin and a size, all `int` (its header is not among the sources). -/
structure IntRect where
  x : Int
  y : Int
  width : Int
  height : Int
deriving DecidableEq, Repr

namespace IntRect

def X (r : IntRect) : Int := r.x

def Y (r : IntRect) : Int := r.y

def Width (r : IntRect) : Int := r.width

def Height (r : IntRect) : Int := r.height

/-- The right edge `x + width`, an `int` addition. -/
def MaxX (r : IntRect) : Int := wrapInt (r.x + r.width)

/-- The bottom edge `y + height`, an `int` addition. -/
def MaxY (r : IntRect) : Int := wrapInt (r.y + r.height)

def Size (r : IntRect) : IntSize := ⟨r.width, r.height⟩

/-- A rectangle is empty when a dimension is zero or negative. -/
def IsEmpty (r : IntRect) : Bool := decide (r.width ≤ 0) || decide (r.height ≤ 0)

end IntRect

/-! ## Colour parameters -/

/-- The canvas colour spaces that `ParseOptions` assigns. -/
inductive CanvasColorSpace where
  | kSRGBCanvasColorSpace
  | kRec2020CanvasColorSpace
  | kP3CanvasColorSpace
deriving DecidableEq, Repr

/-- The canvas pixel formats that occur: the 8-bit default and the 16-bit float
format that `ParseOptions` assigns. -/
inductive CanvasPixelFormat where
  | kRGBA8CanvasPixelFormat
  | kF16CanvasPixelFormat
deriving DecidableEq, Repr

/-- The Skia colour types that occur in ImageBitmap.cpp. -/
inductive SkColorType where
  | kN32_SkColorType
  | kRGBA_8888_SkColorType
  | kRGBA_F16_SkColorType
deriving DecidableEq, Repr

/-- Modelled from the spec: `SkColorTypeBytesPerPixel` of Skia, which is not among
the sources: four bytes for the 8-bit four-channel formats, eight for the
16-bit float format. -/
def SkColorTypeBytesPerPixel : SkColorType → Nat
  | .kN32_SkColorType => 4
  | .kRGBA_8888_SkColorType => 4
  | .kRGBA_F16_SkColorType => 8

/-- Modelled from the spec: `CanvasColorParams` of platform/graphics, whose source
is not among the sources: a colour space and a pixel format. -/
structure CanvasColorParams where
  color_space : CanvasColorSpace
  pixel_format : CanvasPixelFormat
deriving DecidableEq, Repr

namespace CanvasColorParams

/-- Modelled from the spec: the default-constructed colour parameters, with the
8-bit pixel format; `ParseOptions` overwrites the colour space before any use. -/
def default : CanvasColorParams :=
  ⟨.kSRGBCanvasColorSpace, .kRGBA8CanvasPixelFormat⟩

def SetCanvasColorSpace (p : CanvasColorParams) (c : CanvasColorSpace) : CanvasColorParams :=
  { p with color_space := c }

def SetCanvasPixelFormat (p : CanvasColorParams) (f : CanvasPixelFormat) : CanvasColorParams :=
  { p with pixel_format := f }

def ColorSpace (p : CanvasColorParams) : CanvasColorSpace := p.color_space

def PixelFormat (p : CanvasColorParams) : CanvasPixelFormat := p.pixel_format

/-- Modelled from the spec: the Skia colour type of the parameters, the 16-bit
float type for the F16 pixel format and the native 32-bit type otherwise. -/
def GetSkColorType (p : CanvasColorParams) : SkColorType :=
  match p.pixel_format with
  | .kF16CanvasPixelFormat => .kRGBA_F16_SkColorType
  | .kRGBA8CanvasPixelFormat => .kN32_SkColorType

/-- Bytes per pixel of the colour type of the parameters. -/
def BytesPerPixel (p : CanvasColorParams) : Nat :=
  SkColorTypeBytesPerPixel p.GetSkColorType

end CanvasColorParams

/-! ## Checked arithmetic -/

/-- Modelled from the spec: `CheckedNumeric<unsigned>` of platform/wtf, the
overflow-checked unsigned number: `some v` is a valid value, `none` the invalid
state, which every later operation preserves. -/
abbrev CheckedNumeric := Option Nat

namespace CheckedNumeric

/-- Construction from an integer: valid when the integer is a value of `unsigned`. -/
def ofInt (v : Int) : CheckedNumeric :=
  if 0 ≤ v ∧ v ≤ (kUnsignedMax : Int) then some v.toNat else none

/-- The checked `*=`: valid when the number was valid and the exact product is a
value of `unsigned`. -/
def mul (c : CheckedNumeric) (rhs : Int) : CheckedNumeric :=
  match c with
  | none => none
  | some v => ofInt ((v : Int) * rhs)

def IsValid (c : CheckedNumeric) : Bool := c.isSome

end CheckedNumeric

/-! ## Single-precision arithmetic

`ParseOptions` computes an omitted resize dimension in `float`.  A `float` is
modelled by its sign, an integer significand and a binary exponent; every
operation is the exact operation followed by rounding to nearest, ties to even,
to 24 significant bits, with gradual underflow below 2^-126 and overflow to
infinity from 2^128. -/

/-- A single-precision value: `finite neg m e` stands for `(-1)^neg * m * 2^e`. -/
inductive F32 where
  | finite (negative : Bool) (significand : Nat) (exponent : Int)
  | infinite (negative : Bool)
  | nan
deriving DecidableEq, Repr

/-- Number of halvings that bring `n` below 2, at most `fuel` of them. -/
def log2Fuel : Nat → Nat → Nat
  | 0, _ => 0
  | fuel + 1, n => if n < 2 then 0 else log2Fuel fuel (n / 2) + 1

/-- The integer part of the binary logarithm of a positive natural number. -/
def floorLog2 (n : Nat) : Nat := log2Fuel n n

/-- The integer part of the binary logarithm of the positive ratio `n / d`. -/
def floorLog2Ratio (n d : Nat) : Int :=
  if d * 2 ^ floorLog2 n ≤ n * 2 ^ floorLog2 d then (floorLog2 n : Int) - (floorLog2 d : Int)
  else (floorLog2 n : Int) - (floorLog2 d : Int) - 1

/-- The integer nearest to `a / b`, the even one of the two on a tie. -/
def roundHalfEven (a b : Nat) : Nat :=
  if 2 * (a % b) < b then a / b
  else if b < 2 * (a % b) then a / b + 1
  else if a / b % 2 = 0 then a / b
  else a / b + 1

namespace F32

/-- Rounding of the exact value `(-1)^neg * (n / d) * 2^k`, with `0 < d`, to single precision. -/
def round (neg : Bool) (n d : Nat) (k : Int) : F32 :=
  if n = 0 then finite neg 0 0
  else
    let e : Int := floorLog2Ratio n d + k
    let s : Int := max e (-126) - 23
    let m : Nat :=
      if 0 ≤ k - s then roundHalfEven (n * 2 ^ (k - s).toNat) d
      else roundHalfEven n (d * 2 ^ (s - k).toNat)
    if 0 ≤ s ∧ 2 ^ 128 ≤ m * 2 ^ s.toNat then infinite neg else finite neg m s

/-- Conversion of an `unsigned` to `float`. -/
def ofNat (n : Nat) : F32 := round false n 1 0

/-- Conversion of an `int` to `float`. -/
def ofInt (i : Int) : F32 := round (decide (i < 0)) i.natAbs 1 0

/-- Single-precision division. -/
def div : F32 → F32 → F32
  | nan, _ => nan
  | _, nan => nan
  | infinite _, infinite _ => nan
  | infinite n1, finite n2 _ _ => infinite (xor n1 n2)
  | finite n1 _ _, infinite n2 => finite (xor n1 n2) 0 0
  | finite n1 m1 e1, finite n2 m2 e2 =>
    if m2 = 0 then
      if m1 = 0 then nan else infinite (xor n1 n2)
    else round (xor n1 n2) m1 m2 (e1 - e2)

/-- Single-precision multiplication. -/
def mul : F32 → F32 → F32
  | nan, _ => nan
  | _, nan => nan
  | infinite n1, infinite n2 => infinite (xor n1 n2)
  | infinite n1, finite n2 m2 _ => if m2 = 0 then nan else infinite (xor n1 n2)
  | finite n1 m1 _, infinite n2 => if m1 = 0 then nan else infinite (xor n1 n2)
  | finite n1 m1 e1, finite n2 m2 e2 => round (xor n1 n2) (m1 * m2) 1 (e1 + e2)

/-- The function `ceil`: the least integral value not below the argument. -/
def ceil : F32 → F32
  | finite neg m e =>
    if 0 ≤ e then finite neg m e
    else if neg then finite neg (m / 2 ^ (-e).toNat) 0
    else finite neg ((m + 2 ^ (-e).toNat - 1) / 2 ^ (-e).toNat) 0
  | v => v

/-- The magnitude of a finite value with its fraction discarded. -/
def truncMagnitude (m : Nat) (e : Int) : Nat :=
  if 0 ≤ e then m * 2 ^ e.toNat else m / 2 ^ (-e).toNat

/-- The conversion to `unsigned` is defined: the truncated value is a value of `unsigned`. -/
def toUnsignedDefined : F32 → Bool
  | finite neg m e =>
    if neg then decide (truncMagnitude m e = 0) else decide (truncMagnitude m e ≤ kUnsignedMax)
  | _ => false

/-- Conversion of a `float` to `unsigned`: the value with its fraction discarded
when that is a value of `unsigned`; otherwise the conversion is undefined in
C++ and yields what the platform produces, given by `ub`. -/
def toUnsigned (ub : F32 → Nat) (v : F32) : Nat :=
  match v with
  | finite _ m e => if toUnsignedDefined v then truncMagnitude m e else ub v % 4294967296
  | _ => ub v % 4294967296

end F32

/-! ## Options -/

/-- Modelled from the spec: the creation options dictionary `ImageBitmapOptions`
(generated from IDL, not among the sources): three option strings, the optional
unsigned resize dimensions, and the resize quality string. -/
structure ImageBitmapOptions where
  imageOrientation : String
  premultiplyAlpha : String
  colorSpaceConversion : String
  resizeWidth : Option Nat
  resizeHeight : Option Nat
  resizeQuality : String
deriving DecidableEq, Repr

namespace ImageBitmapOptions

def hasResizeWidth (o : ImageBitmapOptions) : Bool := o.resizeWidth.isSome

def hasResizeHeight (o : ImageBitmapOptions) : Bool := o.resizeHeight.isSome

/-- The options with every member at the default of the dictionary. -/
def defaults : ImageBitmapOptions :=
  ⟨ "none", "default", "default", none, none, "low"⟩

/-- The supplied resize dimensions are values of `unsigned`. -/
def WellFormed (o : ImageBitmapOptions) : Prop :=
  (∀ w, o.resizeWidth = some w → IsUnsigned w) ∧ (∀ h, o.resizeHeight = some h → IsUnsigned h)

end ImageBitmapOptions

def kImageOrientationFlipY : String := "flipY"

def kImageBitmapOptionNone : String := "none"

def kImageBitmapOptionDefault : String := "default"

def kImageBitmapOptionPremultiply : String := "premultiply"

def kImageBitmapOptionResizeQualityHigh : String := "high"

def kImageBitmapOptionResizeQualityMedium : String := "medium"

def kImageBitmapOptionResizeQualityPixelated : String := "pixelated"

def kSRGBImageBitmapColorSpaceConversion : String := "srgb"

def kLinearRGBImageBitmapColorSpaceConversion : String := "linear-rgb"

def kP3ImageBitmapColorSpaceConversion : String := "p3"

def kRec2020ImageBitmapColorSpaceConversion : String := "rec2020"

inductive SkFilterQuality where
  | kNone_SkFilterQuality
  | kLow_SkFilterQuality
  | kMedium_SkFilterQuality
  | kHigh_SkFilterQuality
deriving DecidableEq, Repr

/-- Modelled from the spec: `ImageBitmap::ParsedOptions`, declared in
ImageBitmap.h, which is not among the sources; `resize_width` and
`resize_height` are `unsigned`, the crop rectangle is an `IntRect`. -/
structure ParsedOptions where
  flip_y : Bool
  premultiply_alpha : Bool
  should_scale_input : Bool
  has_color_space_conversion : Bool
  source_is_unpremul : Bool
  resize_width : Nat
  resize_height : Nat
  crop_rect : IntRect
  resize_quality : SkFilterQuality
  color_params : CanvasColorParams
deriving DecidableEq, Repr

namespace ParsedOptions

/-- Modelled from the spec: the default member initialisers of `ParsedOptions`:
no flip, premultiplied, no scaling, no conversion, low resize quality. -/
def default : ParsedOptions :=
  { flip_y := false, premultiply_alpha := true, should_scale_input := false,
    has_color_space_conversion := false, source_is_unpremul := false,
    resize_width := 0, resize_height := 0, crop_rect := ⟨0, 0, 0, 0⟩,
    resize_quality := .kLow_SkFilterQuality, color_params := CanvasColorParams.default }

end ParsedOptions

/-- NormalizeRect: the rectangle with the smaller corner as origin and absolute
extents; the negations are `int` operations. -/
def NormalizeRect (rect : IntRect) : IntRect :=
  ⟨min rect.X rect.MaxX, min rect.Y rect.MaxY,
   max rect.Width (wrapInt (-rect.Width)), max rect.Height (wrapInt (-rect.Height))⟩

/-- The colour parameters `ParseOptions` derives from the `colorSpaceConversion` string. -/
def ParseColorParams (colorSpaceConversion : String) : CanvasColorParams :=
  let p := CanvasColorParams.default.SetCanvasColorSpace .kSRGBCanvasColorSpace
  if colorSpaceConversion ≠ kSRGBImageBitmapColorSpaceConversion ∧
      colorSpaceConversion ≠ kImageBitmapOptionNone ∧
      colorSpaceConversion ≠ kImageBitmapOptionDefault then
    let p := p.SetCanvasPixelFormat .kF16CanvasPixelFormat
    if colorSpaceConversion = kLinearRGBImageBitmapColorSpaceConversion then
      p.SetCanvasColorSpace .kSRGBCanvasColorSpace
    else if colorSpaceConversion = kP3ImageBitmapColorSpaceConversion then
      p.SetCanvasColorSpace .kP3CanvasColorSpace
    else if colorSpaceConversion = kRec2020ImageBitmapColorSpaceConversion then
      p.SetCanvasColorSpace .kRec2020CanvasColorSpace
    else p
  else p

/-- The expression `ceil(static_cast<float>(given) / crop_a * crop_b)` converted
to `unsigned`: the omitted resize dimension. -/
def AspectResize (ub : F32 → Nat) (given : Nat) (crop_a crop_b : Int) : Nat :=
  F32.toUnsigned ub
    (F32.ceil (F32.mul (F32.div (F32.ofNat given) (F32.ofInt crop_a)) (F32.ofInt crop_b)))

/-- The resize quality `ParseOptions` selects when the input is scaled. -/
def ParseResizeQuality (resizeQuality : String) : SkFilterQuality :=
  if resizeQuality = kImageBitmapOptionResizeQualityHigh then .kHigh_SkFilterQuality
  else if resizeQuality = kImageBitmapOptionResizeQualityMedium then .kMedium_SkFilterQuality
  else if resizeQuality = kImageBitmapOptionResizeQualityPixelated then .kNone_SkFilterQuality
  else .kLow_SkFilterQuality

/-- The crop rectangle of `ParseOptions`: the source bounds when none is
supplied, the normalized rectangle otherwise. -/
def ParseCropRect (crop_rect : Option IntRect) (source_size : IntSize) : IntRect :=
  match crop_rect with
  | none => ⟨0, 0, source_size.Width, source_size.Height⟩
  | some r => NormalizeRect r

/-- The resize dimensions of `ParseOptions`, in its four cases. -/
def ParseResize (ub : F32 → Nat) (options : ImageBitmapOptions) (crop : IntRect) : Nat × Nat :=
  match options.resizeWidth, options.resizeHeight with
  | none, none => (wrapUnsigned crop.Width, wrapUnsigned crop.Height)
  | some w, some h => (w, h)
  | some w, none => (w, AspectResize ub w crop.Width crop.Height)
  | none, some h => (AspectResize ub h crop.Height crop.Width, h)

/-- The test of `ParseOptions` that the resize dimensions, cast to `int`, are the
crop dimensions. -/
def ResizeEqualsCrop (resize : Nat × Nat) (crop : IntRect) : Bool :=
  decide (wrapInt (resize.1 : Int) = crop.Width) && decide (wrapInt (resize.2 : Int) = crop.Height)

/-- ParseOptions (release build: the `DCHECK`s and `NOTREACHED` do nothing).
`ub` gives the result of an out-of-range conversion from `float` to `unsigned`. -/
def ParseOptions (ub : F32 → Nat) (options : ImageBitmapOptions) (crop_rect : Option IntRect)
    (source_size : IntSize) : ParsedOptions :=
  let crop := ParseCropRect crop_rect source_size
  let resize := ParseResize ub options crop
  let parsed_options : ParsedOptions :=
    { ParsedOptions.default with
      flip_y := decide (options.imageOrientation = kImageOrientationFlipY),
      premultiply_alpha := !decide (options.premultiplyAlpha = kImageBitmapOptionNone),
      has_color_space_conversion := decide (options.colorSpaceConversion ≠ kImageBitmapOptionNone),
      color_params := ParseColorParams options.colorSpaceConversion,
      crop_rect := crop,
      resize_width := resize.1, resize_height := resize.2 }
  if ResizeEqualsCrop resize crop then
    { parsed_options with should_scale_input := false }
  else
    { parsed_options with
      should_scale_input := true,
      resize_quality := ParseResizeQuality options.resizeQuality }

/-- The `DCHECK` on the orientation in `ParseOptions` passes: the string is one
of the two values the function recognizes. -/
def ImageOrientationCheck (options : ImageBitmapOptions) : Bool :=
  decide (options.imageOrientation = kImageOrientationFlipY) ||
    decide (options.imageOrientation = kImageBitmapOptionNone)

/-- The `DCHECK` on the premultiply option in `ParseOptions` passes. -/
def PremultiplyAlphaCheck (options : ImageBitmapOptions) : Bool :=
  decide (options.premultiplyAlpha = kImageBitmapOptionNone) ||
    decide (options.premultiplyAlpha = kImageBitmapOptionDefault) ||
    decide (options.premultiplyAlpha = kImageBitmapOptionPremultiply)

/-- The `NOTREACHED` on the colour-space option in `ParseOptions` is not reached. -/
def ColorSpaceConversionCheck (options : ImageBitmapOptions) : Bool :=
  decide (options.colorSpaceConversion = kSRGBImageBitmapColorSpaceConversion) ||
    decide (options.colorSpaceConversion = kImageBitmapOptionNone) ||
    decide (options.colorSpaceConversion = kImageBitmapOptionDefault) ||
    decide (options.colorSpaceConversion = kLinearRGBImageBitmapColorSpaceConversion) ||
    decide (options.colorSpaceConversion = kP3ImageBitmapColorSpaceConversion) ||
    decide (options.colorSpaceConversion = kRec2020ImageBitmapColorSpaceConversion)

/-- The `DCHECK`s and `NOTREACHED` of `ParseOptions` all pass: each option string
is one of the values the function recognizes. -/
def ParseOptionsChecks (options : ImageBitmapOptions) : Bool :=
  ImageOrientationCheck options && PremultiplyAlphaCheck options &&
    ColorSpaceConversionCheck options

/-- DstBufferSizeHasOverflow: the checked products of the crop dimensions and of
the resize dimensions with the bytes per pixel. -/
def DstBufferSizeHasOverflow (options : ParsedOptions) : Bool :=
  let total_bytes := CheckedNumeric.ofInt options.crop_rect.Width
  let total_bytes := total_bytes.mul options.crop_rect.Height
  let total_bytes :=
    total_bytes.mul (SkColorTypeBytesPerPixel options.color_params.GetSkColorType : Nat)
  if !total_bytes.IsValid then true
  else if !options.should_scale_input then false
  else
    let total_bytes := CheckedNumeric.ofInt (options.resize_width : Int)
    let total_bytes := total_bytes.mul (options.resize_height : Int)
    let total_bytes :=
      total_bytes.mul (SkColorTypeBytesPerPixel options.color_params.GetSkColorType : Nat)
    if !total_bytes.IsValid then true else false

/-- The fields of the parsed options are values of their C++ types: the crop
dimensions of `int`, the resize dimensions of `unsigned`. -/
def ParsedOptions.InRange (p : ParsedOptions) : Prop :=
  IsInt p.crop_rect.width ∧ IsInt p.crop_rect.height ∧
    IsUnsigned p.resize_width ∧ IsUnsigned p.resize_height

instance (p : ParsedOptions) : Decidable p.InRange := by
  unfold ParsedOptions.InRange; infer_instance

/-- The dimensions are those of an image: non-negative values of `int`. -/
def IntSize.IsImageSize (s : IntSize) : Prop :=
  (0 ≤ s.width ∧ s.width ≤ kIntMax) ∧ (0 ≤ s.height ∧ s.height ≤ kIntMax)

instance (s : IntSize) : Decidable s.IsImageSize := by
  unfold IntSize.IsImageSize; infer_instance

/-- The extents of the rectangle and their negations are values of `int`: the
negations in `NormalizeRect` do not overflow. -/
def IntRect.HasIntExtents (r : IntRect) : Prop :=
  (IsInt r.width ∧ IsInt (-r.width)) ∧ (IsInt r.height ∧ IsInt (-r.height))

instance (r : IntRect) : Decidable r.HasIntExtents := by
  unfold IntRect.HasIntExtents; infer_instance

/-- Parsed options whose crop rectangle is 65536 x 65536, with the 4-byte pixel format. -/
def overflowOptions : ParsedOptions :=
  { ParsedOptions.default with crop_rect := ⟨0, 0, 65536, 65536⟩,
                               resize_width := 65536, resize_height := 65536 }

/-! ## Images and the graphics library

The raster library (Skia), the buffer allocator and the decoders are not part of
ImageBitmap.cpp.  An image is modelled by what the code observes of it: its
dimensions, alpha type, colour space and pixel bytes.  Every call into the
library that can fail or that produces pixels is a field of `Skia`, so that the
functions below are stated for every behaviour of these collaborators. -/

inductive SkAlphaType where
  | kOpaque_SkAlphaType
  | kPremul_SkAlphaType
  | kUnpremul_SkAlphaType
deriving DecidableEq, Repr

/-- A Skia colour space, identified by its gamut and by whether its transfer
function is linear. -/
structure SkColorSpace where
  gamut : Nat
  gammaIsLinear : Bool
deriving DecidableEq, Repr

/-- The colour space `SkColorSpace::MakeSRGB()`. -/
def SkColorSpace.MakeSRGB : SkColorSpace := ⟨0, false⟩

structure SkImageInfo where
  width : Int
  height : Int
  colorType : SkColorType
  alphaType : SkAlphaType
  colorSpace : Option SkColorSpace
deriving DecidableEq, Repr

namespace SkImageInfo

def Make (width height : Int) (colorType : SkColorType) (alphaType : SkAlphaType)
    (colorSpace : Option SkColorSpace) : SkImageInfo :=
  ⟨width, height, colorType, alphaType, colorSpace⟩

def makeAlphaType (i : SkImageInfo) (a : SkAlphaType) : SkImageInfo := { i with alphaType := a }

def makeColorSpace (i : SkImageInfo) (c : Option SkColorSpace) : SkImageInfo :=
  { i with colorSpace := c }

def makeWH (i : SkImageInfo) (w h : Int) : SkImageInfo := { i with width := w, height := h }

def isEmpty (i : SkImageInfo) : Bool := decide (i.width ≤ 0) || decide (i.height ≤ 0)

def bytesPerPixel (i : SkImageInfo) : Nat := SkColorTypeBytesPerPixel i.colorType

/-- The bytes of one row without padding. -/
def minRowBytes (i : SkImageInfo) : Nat := i.width.toNat * i.bytesPerPixel

/-- The bytes of the whole pixel array without padding. -/
def computeMinByteSize (i : SkImageInfo) : Nat := i.height.toNat * i.minRowBytes

end SkImageInfo

/-- An `SkImage` as the code observes it. -/
structure SkImage where
  width : Int
  height : Int
  alphaType : SkAlphaType
  colorSpace : Option SkColorSpace
  isTextureBacked : Bool
  /-- The pixels can be accessed in place (`peekPixels` succeeds). -/
  peekable : Bool
  pixels : List Nat
deriving DecidableEq, Repr

namespace SkImage

def isOpaque (i : SkImage) : Bool := decide (i.alphaType = .kOpaque_SkAlphaType)

/-- The bounds of the image are empty. -/
def boundsIsEmpty (i : SkImage) : Bool := decide (i.width ≤ 0) || decide (i.height ≤ 0)

/-- The raster image holding the given pixels in the given layout. -/
def ofPixels (info : SkImageInfo) (pixels : List Nat) : SkImage :=
  { width := info.width, height := info.height, alphaType := info.alphaType,
    colorSpace := info.colorSpace, isTextureBacked := false, peekable := true, pixels := pixels }

end SkImage

/-- An `Image` handle (`Image`, `StaticBitmapImage`): the current frame, the
encoded data when the image still has it, and the flags the code reads. -/
structure Image where
  skImage : SkImage
  /-- The encoded bytes `Data()`, when present. -/
  data : Option (List Nat)
  originClean : Bool
  hasMailbox : Bool
deriving DecidableEq, Repr

abbrev StaticBitmapImage := Image

namespace Image

def width (i : Image) : Int := i.skImage.width

def height (i : Image) : Int := i.skImage.height

def Size (i : Image) : IntSize := ⟨i.skImage.width, i.skImage.height⟩

def IsTextureBacked (i : Image) : Bool := i.skImage.isTextureBacked

def HasMailbox (i : Image) : Bool := i.hasMailbox

def OriginClean (i : Image) : Bool := i.originClean

def SetOriginClean (i : Image) (flag : Bool) : Image := { i with originClean := flag }

end Image

/-- `StaticBitmapImage::Create` from an `SkImage`: a handle without encoded data,
origin-clean until told otherwise. -/
def StaticBitmapImage.Create (image : SkImage) : StaticBitmapImage :=
  { skImage := image, data := none, originClean := true, hasMailbox := false }

/-- `StaticBitmapImage::Create` from a pixel array and its layout. -/
def StaticBitmapImage.CreateFromPixels (pixels : List Nat) (info : SkImageInfo) :
    StaticBitmapImage :=
  StaticBitmapImage.Create (SkImage.ofPixels info pixels)

inductive AlphaDisposition where
  | kPremultiplyAlpha
  | kUnpremultiplyAlpha
  | kDontChangeAlpha
deriving DecidableEq, Repr

inductive SkTransferFunctionBehavior where
  | kRespect
  | kIgnore
deriving DecidableEq, Repr

/-- The collaborators of ImageBitmap.cpp: each field is one call into the raster
library, the allocator or a decoder, with its possible failure. -/
structure Skia where
  /-- `ArrayBuffer::CreateOrNull(count, size)` returns a buffer. -/
  allocArrayBuffer : Nat → Nat → Bool
  /-- `SkImage::readPixels` into the given layout from the given offset. -/
  readPixels : SkImage → SkImageInfo → Nat → Nat → Option (List Nat)
  /-- `SkSurface::MakeRaster` returns a surface. -/
  makeRaster : SkImageInfo → Bool
  /-- The pixels of a surface of the given layout after `drawImage` with the
  source blend mode. -/
  drawImage : SkImageInfo → SkImage → List Nat
  /-- The same under the transform `scale(1, -1)`, `translate(0, -height)`. -/
  drawImageFlipped : SkImageInfo → SkImage → List Nat
  /-- The pixels `scalePixels` writes into a pixmap of the given layout. -/
  scalePixels : SkImage → SkImageInfo → SkFilterQuality → List Nat
  /-- `SkImage::MakeFromRaster` returns an image. -/
  makeFromRaster : SkImageInfo → List Nat → Bool
  /-- `SkImage::MakeRasterCopy` returns an image. -/
  makeRasterCopy : SkImageInfo → List Nat → Bool
  /-- `SkImage::makeSubset`. -/
  makeSubset : SkImage → IntRect → SkImage
  /-- `ImageDecoder::Create` followed by `GetSkImageFromDecoder`, for the encoded
  data, the premultiply flag and the colour behaviour (tag or ignore). -/
  decode : List Nat → Bool → Bool → Option SkImage
  /-- `StaticBitmapImage::ConvertToColorSpace`. -/
  convertToColorSpace :
    StaticBitmapImage → Option SkColorSpace → SkTransferFunctionBehavior → Option StaticBitmapImage
  /-- `CanvasColorParams::GetSkColorSpaceForSkSurfaces`. -/
  colorSpaceForSkSurfaces : CanvasColorParams → Option SkColorSpace

/-- The image a surface of the given layout yields as snapshot, with the given pixels. -/
def makeImageSnapshot (info : SkImageInfo) (pixels : List Nat) : SkImage :=
  SkImage.ofPixels info pixels

/-- GetSkImageInfo: the native 32-bit colour type, or the 16-bit float type for
a linear colour space. -/
def GetSkImageInfo (skia_image : SkImage) : SkImageInfo :=
  let color_type : SkColorType :=
    match skia_image.colorSpace with
    | some cs => if cs.gammaIsLinear then .kRGBA_F16_SkColorType else .kN32_SkColorType
    | none => .kN32_SkColorType
  SkImageInfo.Make skia_image.width skia_image.height color_type skia_image.alphaType
    skia_image.colorSpace

/-- CopyImageData with an explicit layout and offset. -/
def CopyImageDataWithInfo (sk : Skia) (input : StaticBitmapImage) (info : SkImageInfo)
    (x y : Nat) : Option (List Nat) :=
  if info.isEmpty then none
  else if input.skImage.boundsIsEmpty then none
  else if !sk.allocArrayBuffer info.computeMinByteSize 1 then none
  else sk.readPixels input.skImage info x y

/-- CopyImageData in the layout of the image itself. -/
def CopyImageData (sk : Skia) (input : StaticBitmapImage) : Option (List Nat) :=
  CopyImageDataWithInfo sk input (GetSkImageInfo input.skImage) 0 0

def ShouldAvoidPremul (options : ParsedOptions) : Bool :=
  options.source_is_unpremul && !options.premultiply_alpha

/-- Exchange of the bytes at two positions of a buffer. -/
def swapBytes (buf : List Nat) (a b : Nat) : List Nat :=
  (buf.set a (buf.getD b 0)).set b (buf.getD a 0)

/-- The call `std::swap_ranges(data + first1, data + last1, data + first2)`. -/
def swap_ranges (buf : List Nat) (first1 last1 first2 : Nat) : List Nat :=
  (List.range (last1 - first1)).foldl (fun acc j => swapBytes acc (first1 + j) (first2 + j)) buf

/-- The row-swap loop of `FlipImageVertically`; the element offsets are `unsigned`. -/
def FlipRows (image_pixels : List Nat) (image_row_bytes : Nat) (height : Int) : List Nat :=
  (List.range (height / 2).toNat).foldl
    (fun acc i =>
      swap_ranges acc (i * image_row_bytes % 4294967296) ((i + 1) * image_row_bytes % 4294967296)
        (wrapUnsigned (height - 1 - (i : Int)) * image_row_bytes % 4294967296))
    image_pixels

/-- FlipImageVertically. -/
def FlipImageVertically (sk : Skia) (input : StaticBitmapImage) (parsed_options : ParsedOptions) :
    Option StaticBitmapImage :=
  if ShouldAvoidPremul parsed_options then
    match CopyImageData sk input with
    | none => none
    | some image_pixels =>
      let info := GetSkImageInfo input.skImage
      let image_row_bytes := wrapUnsigned (info.width * (info.bytesPerPixel : Int))
      some (StaticBitmapImage.CreateFromPixels (FlipRows image_pixels image_row_bytes info.height)
        info)
  else
    let info := GetSkImageInfo input.skImage
    if !sk.makeRaster info then none
    else
      some (StaticBitmapImage.Create
        (makeImageSnapshot info (sk.drawImageFlipped info input.skImage)))

/-- GetImageWithAlphaDisposition. -/
def GetImageWithAlphaDisposition (sk : Skia) (image : StaticBitmapImage)
    (alpha_disposition : AlphaDisposition) : Option StaticBitmapImage :=
  if alpha_disposition = .kDontChangeAlpha then some image
  else
    let alpha_type : SkAlphaType :=
      if alpha_disposition = .kPremultiplyAlpha then .kPremul_SkAlphaType
      else .kUnpremul_SkAlphaType
    if image.skImage.alphaType = alpha_type then some image
    else
      let info := (GetSkImageInfo image.skImage).makeAlphaType alpha_type
      if alpha_type = .kUnpremul_SkAlphaType ∨ wrapInt (image.width * image.height) < 16384 then
        match CopyImageDataWithInfo sk image (info.makeColorSpace none) 0 0 with
        | none => none
        | some dst_pixels => some (StaticBitmapImage.CreateFromPixels dst_pixels info)
      else
        let info :=
          if info.colorSpace = some SkColorSpace.MakeSRGB then info.makeColorSpace none else info
        if !sk.makeRaster info then none
        else
          some (StaticBitmapImage.Create
            (makeImageSnapshot info (sk.drawImage info image.skImage)))

/-- ScaleImage. -/
def ScaleImage (sk : Skia) (image : StaticBitmapImage) (parsed_options : ParsedOptions) :
    Option StaticBitmapImage :=
  let image_info := GetSkImageInfo image.skImage
  let image_info :=
    if image_info.colorSpace = some SkColorSpace.MakeSRGB then image_info.makeColorSpace none
    else image_info
  let resized_info := image_info.makeWH (wrapInt (parsed_options.resize_width : Int))
    (wrapInt (parsed_options.resize_height : Int))
  if !sk.allocArrayBuffer resized_info.computeMinByteSize 1 then none
  else
    let resized_pixels :=
      sk.scalePixels image.skImage resized_info parsed_options.resize_quality
    let tagged_info := resized_info.makeColorSpace (GetSkImageInfo image.skImage).colorSpace
    if !sk.makeFromRaster tagged_info resized_pixels then none
    else some (StaticBitmapImage.Create (SkImage.ofPixels tagged_info resized_pixels))

/-- The transfer-function behaviour `ApplyColorSpaceConversion` selects. -/
def TransferFunctionBehaviorFor (skia_image : SkImage) : SkTransferFunctionBehavior :=
  if skia_image.colorSpace = none ∨ skia_image.alphaType = .kUnpremul_SkAlphaType then .kIgnore
  else .kRespect

/-- ApplyColorSpaceConversion. -/
def ApplyColorSpaceConversion (sk : Skia) (image : StaticBitmapImage) (options : ParsedOptions) :
    Option StaticBitmapImage :=
  sk.convertToColorSpace image (sk.colorSpaceForSkSurfaces options.color_params)
    (TransferFunctionBehaviorFor image.skImage)

/-- MakeBlankImage: the snapshot of a fresh raster surface, whose pixels are all zero. -/
def MakeBlankImage (sk : Skia) (parsed_options : ParsedOptions) : Option StaticBitmapImage :=
  let info := SkImageInfo.Make parsed_options.crop_rect.Width parsed_options.crop_rect.Height
    parsed_options.color_params.GetSkColorType .kPremul_SkAlphaType
    (sk.colorSpaceForSkSurfaces parsed_options.color_params)
  let info :=
    if parsed_options.should_scale_input then
      info.makeWH (wrapInt (parsed_options.resize_width : Int))
        (wrapInt (parsed_options.resize_height : Int))
    else info
  if !sk.makeRaster info then none
  else
    some (StaticBitmapImage.Create
      (makeImageSnapshot info (List.replicate info.computeMinByteSize 0)))

/-- Modelled from the spec: `Intersection` of platform/geometry (not among the
sources): the overlap of two rectangles, and the empty rectangle at the origin
when they do not overlap. -/
def Intersection (a b : IntRect) : IntRect :=
  let left := max a.X b.X
  let top := max a.Y b.Y
  let right := min a.MaxX b.MaxX
  let bottom := min a.MaxY b.MaxY
  if right ≤ left ∨ bottom ≤ top then ⟨0, 0, 0, 0⟩
  else ⟨left, top, wrapInt (right - left), wrapInt (bottom - top)⟩

/-! ## The pipeline -/

/-- The stages of the construction pipeline, as recorded in the order of their
invocation. -/
inductive Stage where
  | blank
  | decode
  | crop
  | scale
  | flip
  | colorConversion
  | alphaConversion
  | pixelCopy
deriving DecidableEq, Repr

/-- One checked step: when the previous stage left an image, invoke the stage on
it and record the invocation; after a null result nothing more is invoked. -/
def pipelineStep (s : Option StaticBitmapImage × List Stage) (stage : Stage)
    (f : StaticBitmapImage → Option StaticBitmapImage) : Option StaticBitmapImage × List Stage :=
  match s.1 with
  | none => s
  | some image => (f image, s.2 ++ [stage])

/-- One unchecked step: the stage is invoked whatever the previous result was;
on a null image it dereferences null, which yields no image. -/
def pipelineStepUnchecked (s : Option StaticBitmapImage × List Stage) (stage : Stage)
    (f : StaticBitmapImage → Option StaticBitmapImage) : Option StaticBitmapImage × List Stage :=
  match s.1 with
  | none => (none, s.2 ++ [stage])
  | some image => (f image, s.2 ++ [stage])

/-- The scaling decision: down-scaling when the input is scaled and the unsigned
product of the resize dimensions is below the area of the image. -/
def IsDownScaling (parsed_options : ParsedOptions) (size : IntSize) : Bool :=
  parsed_options.should_scale_input &&
    decide (parsed_options.resize_width * parsed_options.resize_height % 4294967296 < size.Area)

/-- The steps of `CropImageAndApplyColorSpaceConversion` after the cropped image
has been created. A null result of the down-scale, the flip or the colour
conversion returns at once; the alpha conversion and the up-scale are reached
only past them (`reached`), and the result of the alpha conversion is not
checked before the up-scale. -/
def ApplyStages (sk : Skia) (result : StaticBitmapImage) (trace : List Stage)
    (parsed_options : ParsedOptions) : Option StaticBitmapImage × List Stage :=
  let down_scaling := IsDownScaling parsed_options result.Size
  let up_scaling := parsed_options.should_scale_input && !down_scaling
  let s : Option StaticBitmapImage × List Stage := (some result, trace)
  let s := if down_scaling then pipelineStep s .scale (fun i => ScaleImage sk i parsed_options)
    else s
  let s := if parsed_options.flip_y then
      pipelineStep s .flip (fun i => FlipImageVertically sk i parsed_options)
    else s
  let s := if parsed_options.has_color_space_conversion then
      pipelineStep s .colorConversion (fun i => ApplyColorSpaceConversion sk i parsed_options)
    else s
  let reached := s.1.isSome
  let s := pipelineStep s .alphaConversion (fun i =>
    GetImageWithAlphaDisposition sk i
      (if parsed_options.premultiply_alpha then .kPremultiplyAlpha else .kUnpremultiplyAlpha))
  if up_scaling && reached then
    pipelineStepUnchecked s .scale (fun i => ScaleImage sk i parsed_options)
  else s

/-- The frame the pipeline works on: the current frame, or, for a premultiplied
non-opaque image that still has its encoded data, the frame decoded anew in the
requested alpha disposition (drawn onto a surface when it is lazily decoded;
the code uses that surface unchecked, and a surface that could not be made
yields no image here). -/
def DecodeIfNeeded (sk : Skia) (image : Image) (parsed_options : ParsedOptions) :
    Option SkImage × List Stage :=
  match image.data with
  | some data =>
    if !image.skImage.isOpaque ∧ image.skImage.alphaType = .kPremul_SkAlphaType then
      match sk.decode data parsed_options.premultiply_alpha
          parsed_options.has_color_space_conversion with
      | none => (none, [.decode])
      | some skia_image =>
        if !skia_image.isTextureBacked ∧ !skia_image.peekable then
          let info := GetSkImageInfo skia_image
          if sk.makeRaster info then
            (some (makeImageSnapshot info (sk.drawImage info skia_image)), [.decode])
          else (none, [.decode])
        else (some skia_image, [.decode])
    else (some image.skImage, [])
  | none => (some image.skImage, [])

/-- CropImageAndApplyColorSpaceConversion, with the stages it invokes. -/
def CropImageAndApplyColorSpaceConversion (sk : Skia) (image : Image)
    (parsed_options : ParsedOptions) : Option StaticBitmapImage × List Stage :=
  let img_rect : IntRect := ⟨0, 0, image.width, image.height⟩
  let src_rect := Intersection img_rect parsed_options.crop_rect
  if src_rect.IsEmpty then (MakeBlankImage sk parsed_options, [.blank])
  else
    match DecodeIfNeeded sk image parsed_options with
    | (none, trace) => (none, trace)
    | (some skia_image, trace) =>
      if src_rect ≠ img_rect then
        ApplyStages sk (StaticBitmapImage.Create (sk.makeSubset skia_image src_rect))
          (trace ++ [.crop]) parsed_options
      else ApplyStages sk (StaticBitmapImage.Create skia_image) trace parsed_options

/-! ## The bitmap and its construction entry points -/

/-- The `ImageBitmap` object: the image it holds, if any, and the neutered flag. -/
structure ImageBitmap where
  image_ : Option StaticBitmapImage
  is_neutered_ : Bool
deriving DecidableEq, Repr

namespace ImageBitmap

/-- The state of a bitmap before its constructor body runs. -/
def empty : ImageBitmap := ⟨none, false⟩

def BitmapImage (b : ImageBitmap) : Option StaticBitmapImage := b.image_

def IsNeutered (b : ImageBitmap) : Bool := b.is_neutered_

/-- The accessor `width()`, an `unsigned long`. -/
def width (b : ImageBitmap) : Nat :=
  match b.image_ with
  | none => 0
  | some image => (image.width % 18446744073709551616).toNat

/-- The accessor `height()`, an `unsigned long`. -/
def height (b : ImageBitmap) : Nat :=
  match b.image_ with
  | none => 0
  | some image => (image.height % 18446744073709551616).toNat

def IsAccelerated (b : ImageBitmap) : Bool :=
  match b.image_ with
  | none => false
  | some image => image.IsTextureBacked || image.HasMailbox

def Size (b : ImageBitmap) : IntSize :=
  match b.image_ with
  | none => IntSize.zero
  | some image => ⟨image.width, image.height⟩

def OriginClean (b : ImageBitmap) : Bool :=
  match b.image_ with
  | none => true
  | some image => image.OriginClean

end ImageBitmap

/-- An image element as the constructor reads it. -/
structure ImageElementBase where
  /-- The image `CachedImage()->GetImage()`. -/
  cachedImage : Image
  bitmapSourceSize : IntSize
  /-- The result of `WouldTaintOrigin` for the security origin of the document. -/
  wouldTaintOrigin : Bool

/-- A video element as the constructor reads it. -/
structure HTMLVideoElement where
  bitmapSourceSize : IntSize
  /-- The snapshot of the current frame painted into a resource provider of the
  video size; none when the provider cannot be created. -/
  snapshot : Option StaticBitmapImage
  wouldTaintOrigin : Bool

/-- A canvas or offscreen canvas as the constructor reads it. -/
structure CanvasSource where
  /-- `GetSourceImageForCanvas` reported the normal status. -/
  statusIsNormal : Bool
  sourceImage : StaticBitmapImage
  originClean : Bool

/-- An `ImageData` as the constructor reads it. -/
structure ImageData where
  bitmapSourceSize : IntSize
  size : IntSize
  /-- `ImageDataInCanvasColorSettings`: the converted pixels of the source
  rectangle, none when the conversion fails. -/
  inCanvasColorSettings :
    CanvasColorSpace → CanvasPixelFormat → IntRect → AlphaDisposition → Option (List Nat)

/-- The result of a constructor body that ran the pipeline: the image tagged with
the origin-clean flag, or the empty bitmap. -/
def finishWith (r : Option StaticBitmapImage × List Stage) (origin_clean : Bool) :
    ImageBitmap × List Stage :=
  match r.1 with
  | none => (ImageBitmap.empty, r.2)
  | some image => (⟨some (image.SetOriginClean origin_clean), false⟩, r.2)

/-- The parsed options of the image-element constructor. -/
def ImageElementParsedOptions (ub : F32 → Nat) (image : ImageElementBase)
    (crop_rect : Option IntRect) (options : ImageBitmapOptions) : ParsedOptions :=
  { ParseOptions ub options crop_rect image.bitmapSourceSize with
    source_is_unpremul := decide (image.cachedImage.skImage.alphaType = .kUnpremul_SkAlphaType) }

/-- `ImageBitmap(ImageElementBase*, crop_rect, document, options)`. -/
def ImageBitmap.ofImageElement (sk : Skia) (ub : F32 → Nat) (image : ImageElementBase)
    (crop_rect : Option IntRect) (options : ImageBitmapOptions) : ImageBitmap × List Stage :=
  let parsed_options := ImageElementParsedOptions ub image crop_rect options
  if DstBufferSizeHasOverflow parsed_options then (ImageBitmap.empty, [])
  else
    finishWith (CropImageAndApplyColorSpaceConversion sk image.cachedImage parsed_options)
      (!image.wouldTaintOrigin)

/-- The parsed options of the video constructor. -/
def VideoParsedOptions (ub : F32 → Nat) (video : HTMLVideoElement)
    (crop_rect : Option IntRect) (options : ImageBitmapOptions) : ParsedOptions :=
  ParseOptions ub options crop_rect video.bitmapSourceSize

/-- `ImageBitmap(HTMLVideoElement*, crop_rect, document, options)`. -/
def ImageBitmap.ofVideo (sk : Skia) (ub : F32 → Nat) (video : HTMLVideoElement)
    (crop_rect : Option IntRect) (options : ImageBitmapOptions) : ImageBitmap × List Stage :=
  let parsed_options := VideoParsedOptions ub video crop_rect options
  if DstBufferSizeHasOverflow parsed_options then (ImageBitmap.empty, [])
  else
    match video.snapshot with
    | none => (ImageBitmap.empty, [])
    | some input =>
      finishWith (CropImageAndApplyColorSpaceConversion sk input parsed_options)
        (!video.wouldTaintOrigin)

/-- The parsed options of the canvas and offscreen-canvas constructors. -/
def CanvasParsedOptions (ub : F32 → Nat) (canvas : CanvasSource)
    (crop_rect : Option IntRect) (options : ImageBitmapOptions) : ParsedOptions :=
  ParseOptions ub options crop_rect ⟨canvas.sourceImage.width, canvas.sourceImage.height⟩

/-- `ImageBitmap(HTMLCanvasElement*, crop_rect, options)` and
`ImageBitmap(OffscreenCanvas*, crop_rect, options)`, which differ in the
acceleration hint passed to `GetSourceImageForCanvas` only. -/
def ImageBitmap.ofCanvas (sk : Skia) (ub : F32 → Nat) (canvas : CanvasSource)
    (crop_rect : Option IntRect) (options : ImageBitmapOptions) : ImageBitmap × List Stage :=
  if !canvas.statusIsNormal then (ImageBitmap.empty, [])
  else
    let parsed_options := CanvasParsedOptions ub canvas crop_rect options
    if DstBufferSizeHasOverflow parsed_options then (ImageBitmap.empty, [])
    else
      finishWith (CropImageAndApplyColorSpaceConversion sk canvas.sourceImage parsed_options)
        canvas.originClean

/-- `ImageBitmap(const void* pixel_data, width, height, premultiplied,
origin_clean, color_params)`: no options are parsed and the overflow guard is
not called. -/
def ImageBitmap.ofPixelData (sk : Skia) (pixel_data : List Nat) (width height : Nat)
    (is_image_bitmap_premultiplied is_image_bitmap_origin_clean : Bool)
    (color_params : CanvasColorParams) : ImageBitmap × List Stage :=
  let info := SkImageInfo.Make (wrapInt (width : Int)) (wrapInt (height : Int))
    color_params.GetSkColorType
    (if is_image_bitmap_premultiplied then .kPremul_SkAlphaType else .kUnpremul_SkAlphaType)
    (sk.colorSpaceForSkSurfaces color_params)
  if !sk.makeRasterCopy info pixel_data then (ImageBitmap.empty, [])
  else
    (⟨some ((StaticBitmapImage.Create (SkImage.ofPixels info pixel_data)).SetOriginClean
        is_image_bitmap_origin_clean), false⟩, [])

/-- The parsed options of the `ImageData` constructor. -/
def ImageDataParsedOptions (ub : F32 → Nat) (data : ImageData)
    (crop_rect : Option IntRect) (options : ImageBitmapOptions) : ParsedOptions :=
  { ParseOptions ub options crop_rect data.bitmapSourceSize with source_is_unpremul := true }

/-- The steps of the `ImageData` constructor after the image has been created. -/
def ImageDataStages (sk : Skia) (image : StaticBitmapImage) (parsed_options : ParsedOptions) :
    Option StaticBitmapImage × List Stage :=
  let down_scaling := IsDownScaling parsed_options image.Size
  let up_scaling := parsed_options.should_scale_input && !down_scaling
  let s : Option StaticBitmapImage × List Stage := (some image, [.pixelCopy])
  let s := if down_scaling then pipelineStep s .scale (fun i => ScaleImage sk i parsed_options)
    else s
  let s := if parsed_options.flip_y then
      pipelineStep s .flip (fun i => FlipImageVertically sk i parsed_options)
    else s
  if up_scaling then pipelineStep s .scale (fun i => ScaleImage sk i parsed_options) else s

/-- `ImageBitmap(ImageData*, crop_rect, options)`. -/
def ImageBitmap.ofImageData (sk : Skia) (ub : F32 → Nat) (data : ImageData)
    (crop_rect : Option IntRect) (options : ImageBitmapOptions) : ImageBitmap × List Stage :=
  let parsed_options := ImageDataParsedOptions ub data crop_rect options
  if DstBufferSizeHasOverflow parsed_options then (ImageBitmap.empty, [])
  else
    let data_src_rect : IntRect := ⟨0, 0, data.size.width, data.size.height⟩
    let src_rect :=
      match crop_rect with
      | some _ => Intersection parsed_options.crop_rect data_src_rect
      | none => data_src_rect
    if src_rect.IsEmpty then (⟨MakeBlankImage sk parsed_options, false⟩, [.blank])
    else if !sk.allocArrayBuffer src_rect.Size.Area parsed_options.color_params.BytesPerPixel then
      (ImageBitmap.empty, [])
    else
      match data.inCanvasColorSettings parsed_options.color_params.ColorSpace
          parsed_options.color_params.PixelFormat src_rect
          (if parsed_options.premultiply_alpha then .kPremultiplyAlpha
            else .kUnpremultiplyAlpha) with
      | none => (ImageBitmap.empty, [.pixelCopy])
      | some image_pixels =>
        let info := SkImageInfo.Make src_rect.Width src_rect.Height
          parsed_options.color_params.GetSkColorType
          (if parsed_options.premultiply_alpha then .kPremul_SkAlphaType
            else .kUnpremul_SkAlphaType)
          (sk.colorSpaceForSkSurfaces parsed_options.color_params)
        let r := ImageDataStages sk (StaticBitmapImage.CreateFromPixels image_pixels info)
          parsed_options
        (⟨r.1, false⟩, r.2)

/-- The parsed options of the constructors from an image handle. -/
def StaticBitmapImageParsedOptions (ub : F32 → Nat) (image : StaticBitmapImage)
    (crop_rect : Option IntRect) (options : ImageBitmapOptions) : ParsedOptions :=
  { ParseOptions ub options crop_rect image.Size with
    source_is_unpremul := decide (image.skImage.alphaType = .kUnpremul_SkAlphaType) }

/-- `ImageBitmap(scoped_refptr<StaticBitmapImage>, crop_rect, options)`. -/
def ImageBitmap.ofStaticBitmapImage (sk : Skia) (ub : F32 → Nat) (image : StaticBitmapImage)
    (crop_rect : Option IntRect) (options : ImageBitmapOptions) : ImageBitmap × List Stage :=
  let origin_clean := image.OriginClean
  let parsed_options := StaticBitmapImageParsedOptions ub image crop_rect options
  if DstBufferSizeHasOverflow parsed_options then (ImageBitmap.empty, [])
  else
    finishWith (CropImageAndApplyColorSpaceConversion sk image parsed_options) origin_clean

/-- `ImageBitmap(ImageBitmap*, crop_rect, options)`. -/
def ImageBitmap.ofImageBitmap (sk : Skia) (ub : F32 → Nat) (bitmap : ImageBitmap)
    (crop_rect : Option IntRect) (options : ImageBitmapOptions) : ImageBitmap × List Stage :=
  match bitmap.BitmapImage with
  | none => (ImageBitmap.empty, [])
  | some input =>
    let parsed_options := StaticBitmapImageParsedOptions ub input crop_rect options
    if DstBufferSizeHasOverflow parsed_options then (ImageBitmap.empty, [])
    else
      finishWith (CropImageAndApplyColorSpaceConversion sk input parsed_options)
        bitmap.OriginClean

/-- `ImageBitmap(scoped_refptr<StaticBitmapImage>)`: the handle is taken as it is. -/
def ImageBitmap.ofImage (image : Option StaticBitmapImage) : ImageBitmap × List Stage :=
  (⟨image, false⟩, [])

/-- The sources of the constructors that take creation options. -/
inductive BitmapSource where
  | imageElement (image : ImageElementBase)
  | video (video : HTMLVideoElement)
  | canvas (canvas : CanvasSource)
  | offscreenCanvas (canvas : CanvasSource)
  | imageData (data : ImageData)
  | imageBitmap (bitmap : ImageBitmap)
  | staticBitmapImage (image : StaticBitmapImage)

/-- The `ImageBitmap::Create` overloads with creation options. -/
def ImageBitmap.Create (sk : Skia) (ub : F32 → Nat) (source : BitmapSource)
    (crop_rect : Option IntRect) (options : ImageBitmapOptions) : ImageBitmap × List Stage :=
  match source with
  | .imageElement image => ImageBitmap.ofImageElement sk ub image crop_rect options
  | .video video => ImageBitmap.ofVideo sk ub video crop_rect options
  | .canvas canvas => ImageBitmap.ofCanvas sk ub canvas crop_rect options
  | .offscreenCanvas canvas => ImageBitmap.ofCanvas sk ub canvas crop_rect options
  | .imageData data => ImageBitmap.ofImageData sk ub data crop_rect options
  | .imageBitmap bitmap => ImageBitmap.ofImageBitmap sk ub bitmap crop_rect options
  | .staticBitmapImage image => ImageBitmap.ofStaticBitmapImage sk ub image crop_rect options

/-- The parsed options a constructor computes from its source, when it gets as
far as parsing them. -/
def BitmapSource.parsedOptions (ub : F32 → Nat) (source : BitmapSource)
    (crop_rect : Option IntRect) (options : ImageBitmapOptions) : Option ParsedOptions :=
  match source with
  | .imageElement e => some (ImageElementParsedOptions ub e crop_rect options)
  | .video v => some (VideoParsedOptions ub v crop_rect options)
  | .canvas c =>
    if c.statusIsNormal then some (CanvasParsedOptions ub c crop_rect options) else none
  | .offscreenCanvas c =>
    if c.statusIsNormal then some (CanvasParsedOptions ub c crop_rect options) else none
  | .imageData d => some (ImageDataParsedOptions ub d crop_rect options)
  | .imageBitmap b =>
    match b.BitmapImage with
    | none => none
    | some input => some (StaticBitmapImageParsedOptions ub input crop_rect options)
  | .staticBitmapImage i => some (StaticBitmapImageParsedOptions ub i crop_rect options)

/-- A graphics library in which every allocation succeeds, drawing yields blank
pixels and no decoder is available. -/
def sampleSkia : Skia :=
  { allocArrayBuffer := fun _ _ => true
    readPixels := fun _ info _ _ => some (List.replicate info.computeMinByteSize 0)
    makeRaster := fun _ => true
    drawImage := fun info _ => List.replicate info.computeMinByteSize 0
    drawImageFlipped := fun info _ => List.replicate info.computeMinByteSize 0
    scalePixels := fun _ info _ => List.replicate info.computeMinByteSize 0
    makeFromRaster := fun _ _ => true
    makeRasterCopy := fun _ _ => true
    makeSubset := fun image rect => { image with width := rect.width, height := rect.height }
    decode := fun _ _ _ => none
    convertToColorSpace := fun image _ _ => some image
    colorSpaceForSkSurfaces := fun _ => some SkColorSpace.MakeSRGB }

/-- A premultiplied 100 x 100 sRGB raster image. -/
def sampleImage : StaticBitmapImage :=
  StaticBitmapImage.CreateFromPixels (List.replicate 40000 0)
    (SkImageInfo.Make 100 100 .kN32_SkColorType .kPremul_SkAlphaType (some SkColorSpace.MakeSRGB))

/-- The value is the finite non-negative `float` that stands for the rational `x`. -/
def F32.Represents (v : F32) (x : ℚ) : Prop :=
  ∃ m e, v = F32.finite false m e ∧ (m : ℚ) * (2 : ℚ) ^ e = x

/-- The value is a finite positive `float` between the two powers of two. -/
def F32.Within (v : F32) (lo hi : Int) : Prop :=
  ∃ m e, v = F32.finite false m e ∧
    (2 : ℚ) ^ lo ≤ (m : ℚ) * (2 : ℚ) ^ e ∧ (m : ℚ) * (2 : ℚ) ^ e ≤ (2 : ℚ) ^ hi

/-- The conversion from `float` to `unsigned` in `AspectResize` is defined: the
value converted is within the range of `unsigned`. -/
def AspectResizeDefined (given : Nat) (crop_a crop_b : Int) : Bool :=
  F32.toUnsignedDefined
    (F32.ceil (F32.mul (F32.div (F32.ofNat given) (F32.ofInt crop_a)) (F32.ofInt crop_b)))

/-! ## Lifecycle of the bitmap -/

/-- ImageBitmap::close: nothing happens on a bitmap without image or already
neutered; otherwise the image is released and the bitmap neutered. -/
def ImageBitmap.close (b : ImageBitmap) : ImageBitmap :=
  if b.image_.isNone ∨ b.is_neutered_ = true then b
  else { image_ := none, is_neutered_ := true }

/-- ImageBitmap::Transfer: the bitmap is neutered and its image moved out to the
caller, which leaves the member null. The code dereferences the image, so the
call is meaningful on a bitmap that holds one. -/
def ImageBitmap.Transfer (b : ImageBitmap) : Option StaticBitmapImage × ImageBitmap :=
  (b.image_, { image_ := none, is_neutered_ := true })

/-- One lifecycle step of a bitmap: `Transfer()` on a bitmap that is not
neutered and holds an image, or `close()`. -/
inductive ImageBitmap.Step : ImageBitmap → ImageBitmap → Prop where
  | transfer (b : ImageBitmap) (hn : b.is_neutered_ = false) (hi : b.image_.isSome = true) :
      ImageBitmap.Step b b.Transfer.2
  | close (b : ImageBitmap) : ImageBitmap.Step b b.close

/-- The states a bitmap reaches by any sequence of lifecycle steps. -/
def ImageBitmap.Reachable (b0 b : ImageBitmap) : Prop :=
  Relation.ReflTransGen ImageBitmap.Step b0 b

/-- The sample image marked as not origin-clean. -/
def taintedSampleImage : StaticBitmapImage := sampleImage.SetOriginClean false

/-- A blank premultiplied 10 x 10 sRGB image, not origin-clean. -/
def taintedBlankImage : StaticBitmapImage :=
  (StaticBitmapImage.CreateFromPixels (List.replicate 400 0)
    (SkImageInfo.Make 10 10 .kN32_SkColorType .kPremul_SkAlphaType
      (some SkColorSpace.MakeSRGB))).SetOriginClean false

/-! ## The asynchronous entry point -/

/-- A call on the promise resolver: `Resolve(bitmap)` or `Reject` with the null value. -/
inductive ResolverCall where
  | Resolve (bitmap : ImageBitmap)
  | RejectNull
deriving DecidableEq, Repr

/-- The work posted to the background thread: the arguments bound for
`RasterizeImageOnBackgroundThread`. The paint record is given by the pixels its
playback leaves on a surface of a given layout. -/
structure RasterTask where
  playback : SkImageInfo → List Nat
  dst_rect : IntRect
  origin_clean : Bool
  parsed_options : ParsedOptions

/-- The unpremultiply step of `ResolvePromiseOnOriginalThread`: applied when the
options do not ask for premultiplied alpha. -/
def AsyncAlphaStep (sk : Skia) (skia_image : SkImage) (parsed_options : ParsedOptions) :
    Option StaticBitmapImage :=
  if !parsed_options.premultiply_alpha then
    GetImageWithAlphaDisposition sk (StaticBitmapImage.Create skia_image) .kUnpremultiplyAlpha
  else some (StaticBitmapImage.Create skia_image)

/-- ImageBitmap::ResolvePromiseOnOriginalThread: the calls it makes on the resolver. -/
def ResolvePromiseOnOriginalThread (sk : Skia) (skia_image : Option SkImage)
    (origin_clean : Bool) (parsed_options : ParsedOptions) : List ResolverCall :=
  match skia_image with
  | none => [.RejectNull]
  | some skia_image =>
    match AsyncAlphaStep sk skia_image parsed_options with
    | none => [.RejectNull]
    | some image =>
      match ApplyColorSpaceConversion sk image parsed_options with
      | none => [.RejectNull]
      | some image => [.Resolve ⟨some (image.SetOriginClean origin_clean), false⟩]

/-- ImageBitmap::RasterizeImageOnBackgroundThread: the image handed to
`ResolvePromiseOnOriginalThread`, null when the surface cannot be made. -/
def RasterizeImageOnBackgroundThread (sk : Skia) (task : RasterTask) : Option SkImage :=
  let info := SkImageInfo.Make task.dst_rect.Width task.dst_rect.Height .kN32_SkColorType
    .kPremul_SkAlphaType (some SkColorSpace.MakeSRGB)
  if sk.makeRaster info then some (makeImageSnapshot info (task.playback info)) else none

/-- ImageBitmap::CreateAsync: the calls made on the resolver before it returns,
and the task posted to the background thread, if any. `paint` stands for
`PaintRecordForContainer` of the source image. -/
def CreateAsync (sk : Skia) (ub : F32 → Nat) (image : ImageElementBase)
    (paint : IntRect → IntRect → Bool → SkImageInfo → List Nat)
    (crop_rect : Option IntRect) (options : ImageBitmapOptions) :
    List ResolverCall × Option RasterTask :=
  let parsed_options := ParseOptions ub options crop_rect image.bitmapSourceSize
  if DstBufferSizeHasOverflow parsed_options then ([.RejectNull], none)
  else
    let input_rect : IntRect := ⟨0, 0, image.cachedImage.Size.width, image.cachedImage.Size.height⟩
    let src_rect := Intersection input_rect parsed_options.crop_rect
    if src_rect.IsEmpty then
      match MakeBlankImage sk parsed_options with
      | some blank =>
        ([.Resolve ⟨some (blank.SetOriginClean (!image.wouldTaintOrigin)), false⟩], none)
      | none => ([.RejectNull], none)
    else
      let draw_dst_rect : IntRect :=
        ⟨0, 0, wrapInt (parsed_options.resize_width : Int),
          wrapInt (parsed_options.resize_height : Int)⟩
      ([], some
        { playback := paint parsed_options.crop_rect draw_dst_rect parsed_options.flip_y
          dst_rect := draw_dst_rect
          origin_clean := !image.wouldTaintOrigin
          parsed_options := parsed_options })

/-- A graphics library in which no buffer can be allocated; everything else is
as in `sampleSkia`. -/
def noBufferSkia : Skia := { sampleSkia with allocArrayBuffer := fun _ _ => false }

/-- A premultiplied 1 x 1 sRGB raster image. -/
def samplePixel : StaticBitmapImage :=
  StaticBitmapImage.CreateFromPixels [0, 0, 0, 0]
    (SkImageInfo.Make 1 1 .kN32_SkColorType .kPremul_SkAlphaType (some SkColorSpace.MakeSRGB))

/-- Parsed options that ask for an unpremultiplied 2 x 2 result: an up-scale of
a 1 x 1 image. -/
def upscaleUnpremulOptions : ParsedOptions :=
  { ParsedOptions.default with
    premultiply_alpha := false, should_scale_input := true,
    resize_width := 2, resize_height := 2, crop_rect := ⟨0, 0, 1, 1⟩ }

/-- Creation options that ask for an unpremultiplied 2 x 2 result. -/
def upscaleUnpremulRequest : ImageBitmapOptions :=
  ⟨ "none", "none", "default", some 2, some 2, "low"⟩

/-- The parsed options for the sample image with the crop rectangle
(50, 50, 100, 100), which extends past the 100 x 100 source. -/
def overhangCropOptions : ParsedOptions :=
  StaticBitmapImageParsedOptions (fun _ => 0) sampleImage (some ⟨50, 50, 100, 100⟩)
    ImageBitmapOptions.defaults

/-! ## The two strategies of the flip and of the alpha conversion -/

/-- The readback branch of `FlipImageVertically`: `CopyImageData`, the row-swap
loop, and an image made of the swapped buffer. -/
def FlipByRowSwap (sk : Skia) (input : StaticBitmapImage) : Option StaticBitmapImage :=
  (CopyImageData sk input).map (fun image_pixels =>
    StaticBitmapImage.CreateFromPixels
      (FlipRows image_pixels
        (wrapUnsigned ((GetSkImageInfo input.skImage).width *
          ((GetSkImageInfo input.skImage).bytesPerPixel : Int)))
        (GetSkImageInfo input.skImage).height)
      (GetSkImageInfo input.skImage))

/-- The draw branch of `FlipImageVertically`: a raster surface of the layout of
the input, the image drawn under `scale(1, -1)`, `translate(0, -height)` with
the source blend mode, and the snapshot of the surface. -/
def FlipByDraw (sk : Skia) (input : StaticBitmapImage) : Option StaticBitmapImage :=
  if sk.makeRaster (GetSkImageInfo input.skImage) then
    some (StaticBitmapImage.Create (makeImageSnapshot (GetSkImageInfo input.skImage)
      (sk.drawImageFlipped (GetSkImageInfo input.skImage) input.skImage)))
  else none

/-- The readback branch of `GetImageWithAlphaDisposition`: the pixels read in
the requested alpha type with the colour space left out, and an image made of them. -/
def AlphaByReadback (sk : Skia) (image : StaticBitmapImage) (alpha_type : SkAlphaType) :
    Option StaticBitmapImage :=
  (CopyImageDataWithInfo sk image
    (((GetSkImageInfo image.skImage).makeAlphaType alpha_type).makeColorSpace none) 0 0).map
    (fun dst_pixels => StaticBitmapImage.CreateFromPixels dst_pixels
      ((GetSkImageInfo image.skImage).makeAlphaType alpha_type))

/-- The layout of the surface in the draw branch of `GetImageWithAlphaDisposition`:
the sRGB colour space is left out. -/
def AlphaDrawInfo (image : StaticBitmapImage) (alpha_type : SkAlphaType) : SkImageInfo :=
  if ((GetSkImageInfo image.skImage).makeAlphaType alpha_type).colorSpace =
      some SkColorSpace.MakeSRGB then
    ((GetSkImageInfo image.skImage).makeAlphaType alpha_type).makeColorSpace none
  else (GetSkImageInfo image.skImage).makeAlphaType alpha_type

/-- The draw branch of `GetImageWithAlphaDisposition`: the image drawn on a
raster surface with the source blend mode, and the snapshot of the surface. -/
def AlphaByDraw (sk : Skia) (image : StaticBitmapImage) (alpha_type : SkAlphaType) :
    Option StaticBitmapImage :=
  if sk.makeRaster (AlphaDrawInfo image alpha_type) then
    some (StaticBitmapImage.Create (makeImageSnapshot (AlphaDrawInfo image alpha_type)
      (sk.drawImage (AlphaDrawInfo image alpha_type) image.skImage)))
  else none

/-- A graphics library whose readback yields the byte 1 and whose draw yields
the byte 2; everything else is as in `sampleSkia`. -/
def markingSkia : Skia :=
  { sampleSkia with
    readPixels := fun _ _ _ _ => some [1]
    drawImage := fun _ _ => [2]
    drawImageFlipped := fun _ _ => [2] }

/-- An unpremultiplied sRGB raster image of the given extents. -/
def unpremulImage (width height : Int) : StaticBitmapImage :=
  StaticBitmapImage.CreateFromPixels []
    (SkImageInfo.Make width height .kN32_SkColorType .kUnpremul_SkAlphaType
      (some SkColorSpace.MakeSRGB))

/-! ## The completion handoff of the asynchronous path -/

/-- The promise resolver as the asynchronous path reaches it: whether the
execution context it belongs to has been destroyed, and the calls made on it. -/
structure ScriptPromiseResolver where
  contextDestroyed : Bool
  calls : List ResolverCall
deriving DecidableEq, Repr

/-- The completion handoff on a resolver: the calls of
`ResolvePromiseOnOriginalThread` are made on it. The function does not read the
state of the context. -/
def ScriptPromiseResolver.handoff (resolver : ScriptPromiseResolver) (sk : Skia)
    (skia_image : Option SkImage) (origin_clean : Bool) (parsed_options : ParsedOptions) :
    ScriptPromiseResolver :=
  { resolver with
    calls := resolver.calls ++
      ResolvePromiseOnOriginalThread sk skia_image origin_clean parsed_options }

/-- The background task and the handoff it posts, on the resolver as it is when
the handoff runs. -/
def RunRasterTask (sk : Skia) (resolver : ScriptPromiseResolver) (task : RasterTask) :
    ScriptPromiseResolver :=
  resolver.handoff sk (RasterizeImageOnBackgroundThread sk task) task.origin_clean
    task.parsed_options

/-- A graphics library in which no raster surface can be made; everything else
is as in `sampleSkia`. -/
def noSurfaceSkia : Skia := { sampleSkia with makeRaster := fun _ => false }

/-- The task `CreateAsync` posts for a 2 x 2 result with default options. -/
def sampleRasterTask : RasterTask :=
  { playback := fun info => List.replicate info.computeMinByteSize 0
    dst_rect := ⟨0, 0, 2, 2⟩
    origin_clean := true
    parsed_options := { ParsedOptions.default with
      crop_rect := ⟨0, 0, 2, 2⟩, resize_width := 2, resize_height := 2 } }

/-- Parsed options for a flipped 50 x 50 result of a 100 x 100 source: a down-scale. -/
def downscaleFlipOptions : ParsedOptions :=
  { ParsedOptions.default with
    flip_y := true, should_scale_input := true, resize_width := 50, resize_height := 50,
    crop_rect := ⟨0, 0, 100, 100⟩ }

/-- Parsed options for a flipped 200 x 200 result of a 100 x 100 source: an up-scale. -/
def upscaleFlipOptions : ParsedOptions :=
  { ParsedOptions.default with
    flip_y := true, should_scale_input := true, resize_width := 200, resize_height := 200,
    crop_rect := ⟨0, 0, 100, 100⟩ }

/-- Parsed options for a flipped 200 x 50 result of a 100 x 100 source: the same area. -/
def equalAreaFlipOptions : ParsedOptions :=
  { ParsedOptions.default with
    flip_y := true, should_scale_input := true, resize_width := 200, resize_height := 50,
    crop_rect := ⟨0, 0, 100, 100⟩ }

/-- Creation options that ask for a flipped 200 x 200 result. -/
def upscaleFlipRequest : ImageBitmapOptions :=
  ⟨ "flipY", "default", "default", some 200, some 200, "low"⟩

/-- The parsed options for the sample image with the crop rectangle
(50, 50, 100, 100), which extends past the source, and a 20 x 20 result. -/
def overhangResizeOptions : ParsedOptions :=
  StaticBitmapImageParsedOptions (fun _ => 0) sampleImage (some ⟨50, 50, 100, 100⟩)
    ⟨ "none", "default", "default", some 20, some 20, "low"⟩

/-! ## CSS value keywords, shared by the two files below -/

/-- The value keywords the code below names (`CSSValueKeywords`, generated, not
among the sources); `CSSValueInvalid` is the identifier of a token that is not
a keyword. -/
inductive CSSValueID where
  | CSSValueInvalid
  | CSSValueNone
  | CSSValueAuto
  | CSSValueSolid
  | keyword (id : Nat)
deriving DecidableEq, Repr

/-! ## CSSPropertyAPIQuotes.cpp -/

/-- A token of a `CSSParserTokenRange`, by the two things the parser of `quotes`
asks of it: the keyword of an identifier and the value of a string. -/
inductive CSSParserToken where
  | ident (id : CSSValueID)
  | string (value : String)
  | other (kind : Nat)
deriving DecidableEq, Repr

/-- The accessor `CSSParserToken::id()`: the keyword of an identifier token. -/
def CSSParserToken.id : CSSParserToken → CSSValueID
  | .ident id => id
  | _ => .CSSValueInvalid

/-- The token is a string token. -/
def CSSParserToken.isStringToken : CSSParserToken → Bool
  | .string _ => true
  | _ => false

/-- The value of a string token. -/
def CSSParserToken.stringValue : CSSParserToken → String
  | .string value => value
  | _ => ""

abbrev CSSParserTokenRange := List CSSParserToken

namespace CSSParserTokenRange

def atEnd (range : CSSParserTokenRange) : Bool := range.isEmpty

/-- The identifier of `peek()`: at the end of the range `peek()` is the
end-of-file token, which is not a keyword. -/
def peekId (range : CSSParserTokenRange) : CSSValueID :=
  match range with
  | [] => .CSSValueInvalid
  | token :: _ => token.id

end CSSParserTokenRange

/-- The CSS values the parser of `quotes` builds. -/
inductive CSSValue where
  | identifier (id : CSSValueID)
  | string (value : String)
  | spaceSeparatedList (values : List String)
deriving DecidableEq, Repr

/-- The helpers of `CSSPropertyParserHelpers` that `parseSingleValue` calls; they
are not among the sources and are parameters. Each returns its value, or null,
and the range it leaves. -/
structure CSSPropertyParserHelpers where
  consumeIdent : CSSParserTokenRange → Option CSSValue × CSSParserTokenRange
  consumeString : CSSParserTokenRange → Option String × CSSParserTokenRange

/-- The `while (!range.atEnd())` loop of `parseSingleValue`, with fuel for its
iterations: `none` when the fuel runs out, `some none` when a `consumeString`
returned null (the function returns null), `some (some values)` when the range
is at its end. -/
def CSSPropertyAPIQuotes.consumeStrings (helpers : CSSPropertyParserHelpers) :
    Nat → CSSParserTokenRange → List String → Option (Option (List String))
  | 0, _, _ => none
  | fuel + 1, range, values =>
    if range.atEnd then some (some values)
    else
      match helpers.consumeString range with
      | (none, _) => some none
      | (some parsedValue, rest) =>
        CSSPropertyAPIQuotes.consumeStrings helpers fuel rest (values ++ [parsedValue])

/-- CSSPropertyAPIQuotes::parseSingleValue: `none` when the fuel runs out,
otherwise the value returned, null or not. -/
def CSSPropertyAPIQuotes.parseSingleValue (helpers : CSSPropertyParserHelpers) (fuel : Nat)
    (range : CSSParserTokenRange) : Option (Option CSSValue) :=
  if range.peekId = .CSSValueNone then some (helpers.consumeIdent range).1
  else
    match CSSPropertyAPIQuotes.consumeStrings helpers fuel range [] with
    | none => none
    | some none => some none
    | some (some values) =>
      if values.length ≠ 0 ∧ values.length % 2 = 0 then some (some (.spaceSeparatedList values))
      else some none

/-- Helpers that consume exactly one leading token of the kind they look for. -/
def sampleHelpers : CSSPropertyParserHelpers :=
  { consumeIdent := fun range =>
      match range with
      | .ident id :: rest => (some (.identifier id), rest)
      | _ => (none, range)
    consumeString := fun range =>
      match range with
      | .string value :: rest => (some value, rest)
      | _ => (none, range) }

/-! ## HTMLHRElement.cpp -/

/-- The attribute names `CollectStyleForPresentationAttribute` compares with. -/
inductive QualifiedName where
  | alignAttr
  | widthAttr
  | colorAttr
  | noshadeAttr
  | sizeAttr
  | attr (name : String)
deriving DecidableEq, Repr

/-- The properties `CollectStyleForPresentationAttribute` sets. -/
inductive CSSPropertyID where
  | CSSPropertyMarginLeft
  | CSSPropertyMarginRight
  | CSSPropertyWidth
  | CSSPropertyBorderStyle
  | CSSPropertyBorderColor
  | CSSPropertyBackgroundColor
  | CSSPropertyBorderBottomWidth
  | CSSPropertyHeight
deriving DecidableEq, Repr

/-- One call that adds to the presentation attribute style. -/
inductive StyleAddition where
  /-- `AddPropertyToPresentationAttributeStyle(style, property, value, kPixels)`. -/
  | pixels (property : CSSPropertyID) (value : Int)
  /-- `AddPropertyToPresentationAttributeStyle(style, property, keyword)`. -/
  | keyword (property : CSSPropertyID) (value : CSSValueID)
  /-- `AddHTMLLengthToStyle(style, property, value)`. -/
  | htmlLength (property : CSSPropertyID) (value : String)
  /-- `AddHTMLColorToStyle(style, property, value)`. -/
  | htmlColor (property : CSSPropertyID) (value : String)
  /-- `style->SetProperty(property, dark_gray_value)`. -/
  | darkGray (property : CSSPropertyID)
  /-- `HTMLElement::CollectStyleForPresentationAttribute(name, value, style)`. -/
  | inherited (name : QualifiedName) (value : String)
deriving DecidableEq, Repr

/-- The string functions `CollectStyleForPresentationAttribute` calls; they are
not among the sources and are parameters. `ToInt` gives the integer and the
`ok` flag of `AtomicString::ToInt(&ok)`. -/
structure AtomicStringFunctions where
  ToInt : String → Int × Bool
  DeprecatedEqualIgnoringCase : String → String → Bool

/-- The `hr` element as the function reads it. -/
structure HTMLHRElement where
  /-- The result of `hasAttribute(colorAttr)`. -/
  hasColorAttr : Bool

/-- HTMLHRElement::CollectStyleForPresentationAttribute: the style with the
additions the call makes, in order. -/
def HTMLHRElement.CollectStyleForPresentationAttribute (fns : AtomicStringFunctions)
    (element : HTMLHRElement) (name : QualifiedName) (value : String)
    (style : List StyleAddition) : List StyleAddition :=
  if name = .alignAttr then
    if fns.DeprecatedEqualIgnoringCase value "left" then
      style ++ [.pixels .CSSPropertyMarginLeft 0, .keyword .CSSPropertyMarginRight .CSSValueAuto]
    else if fns.DeprecatedEqualIgnoringCase value "right" then
      style ++ [.keyword .CSSPropertyMarginLeft .CSSValueAuto, .pixels .CSSPropertyMarginRight 0]
    else
      style ++ [.keyword .CSSPropertyMarginLeft .CSSValueAuto,
        .keyword .CSSPropertyMarginRight .CSSValueAuto]
  else if name = .widthAttr then
    let ok := (fns.ToInt value).2
    let v := (fns.ToInt value).1
    if ok ∧ v = 0 then style ++ [.pixels .CSSPropertyWidth 1]
    else style ++ [.htmlLength .CSSPropertyWidth value]
  else if name = .colorAttr then
    style ++ [.keyword .CSSPropertyBorderStyle .CSSValueSolid,
      .htmlColor .CSSPropertyBorderColor value, .htmlColor .CSSPropertyBackgroundColor value]
  else if name = .noshadeAttr then
    if !element.hasColorAttr then
      style ++ [.keyword .CSSPropertyBorderStyle .CSSValueSolid,
        .darkGray .CSSPropertyBorderColor, .darkGray .CSSPropertyBackgroundColor]
    else style
  else if name = .sizeAttr then
    let size := (fns.ToInt value).1
    if size ≤ 1 then style ++ [.pixels .CSSPropertyBorderBottomWidth 0]
    else style ++ [.pixels .CSSPropertyHeight (wrapInt (size - 2))]
  else style ++ [.inherited name value]

/-- String functions that know the decimal strings "0", "1", "2" and "5" and
compare without regard to case through `String.toLower`. -/
def sampleStringFunctions : AtomicStringFunctions :=
  { ToInt := fun value =>
      if value = "0" then (0, true)
      else if value = "1" then (1, true)
      else if value = "2" then (2, true)
      else if value = "5" then (5, true)
      else (0, false)
    DeprecatedEqualIgnoringCase := fun a b => decide (a.toLower = b.toLower) }

/-! ## The blank image as the specification words it -/

end blink

/-! # Properties -/

namespace blink

/-! ## Checked arithmetic: lemmas -/

theorem CheckedNumeric.ofInt_isValid (v : Int) :
    (CheckedNumeric.ofInt v).IsValid = true ↔ 0 ≤ v ∧ v ≤ (kUnsignedMax : Int) := by
  unfold CheckedNumeric.ofInt CheckedNumeric.IsValid
  split <;> simp_all

theorem CheckedNumeric.triple_isValid (a b : Int) (c : Nat) (ha : 0 ≤ a)
    (ha2 : a ≤ (kUnsignedMax : Int)) (hb : 0 ≤ b) (hc : 0 < c) :
    (((CheckedNumeric.ofInt a).mul b).mul (c : Int)).IsValid = true ↔
      a * b * (c : Int) ≤ (kUnsignedMax : Int) := by
  have hab : 0 ≤ a * b := Int.mul_nonneg ha hb
  have hc1 : (1 : Int) ≤ (c : Int) := by exact_mod_cast hc
  have hle : a * b ≤ a * b * (c : Int) := by nlinarith
  have h0 : CheckedNumeric.ofInt a = some a.toNat := by
    unfold CheckedNumeric.ofInt
    rw [if_pos ⟨ha, ha2⟩]
  have hcast : ((a.toNat : Nat) : Int) = a := Int.toNat_of_nonneg ha
  rw [h0]
  simp only [CheckedNumeric.mul, hcast]
  by_cases h1 : a * b ≤ (kUnsignedMax : Int)
  · have h2 : CheckedNumeric.ofInt (a * b) = some (a * b).toNat := by
      unfold CheckedNumeric.ofInt
      rw [if_pos ⟨hab, h1⟩]
    have hcast2 : (((a * b).toNat : Nat) : Int) = a * b := Int.toNat_of_nonneg hab
    rw [h2]
    simp only [hcast2]
    rw [CheckedNumeric.ofInt_isValid]
    constructor
    · intro h; exact h.2
    · intro h; exact ⟨by nlinarith, h⟩
  · have h2 : CheckedNumeric.ofInt (a * b) = none := by
      unfold CheckedNumeric.ofInt
      rw [if_neg (fun h => h1 h.2)]
    rw [h2]
    simp only [CheckedNumeric.IsValid, Option.isSome_none]
    constructor
    · intro h; exact absurd h (by decide)
    · intro h; exact absurd (le_trans hle h) h1

theorem CanvasColorParams.BytesPerPixel_pos (p : CanvasColorParams) : 0 < p.BytesPerPixel := by
  unfold CanvasColorParams.BytesPerPixel CanvasColorParams.GetSkColorType SkColorTypeBytesPerPixel
  cases p.pixel_format <;> decide

/-! ## The overflow guard -/

/-- C1: for parsed options with non-negative crop width and height,
`DstBufferSizeHasOverflow` returns true exactly when the exact product
crop_width * crop_height * bytes_per_pixel exceeds the largest 32-bit unsigned
value, or `should_scale_input` is set and the exact product
resize_width * resize_height * bytes_per_pixel exceeds it. -/
theorem DstBufferSizeHasOverflow_iff (p : ParsedOptions) (hr : p.InRange)
    (hw : 0 ≤ p.crop_rect.Width) (hh : 0 ≤ p.crop_rect.Height) :
    DstBufferSizeHasOverflow p = true ↔
      ((kUnsignedMax : Int) <
          p.crop_rect.Width * p.crop_rect.Height * (p.color_params.BytesPerPixel : Int) ∨
        (p.should_scale_input = true ∧
          kUnsignedMax < p.resize_width * p.resize_height * p.color_params.BytesPerPixel)) := by
  obtain ⟨hcw, -, hrw, -⟩ := hr
  have hb := p.color_params.BytesPerPixel_pos
  have hcw2 : p.crop_rect.Width ≤ (kUnsignedMax : Int) := by
    have := hcw.2
    simp only [IntRect.Width, kIntMax, kUnsignedMax] at *
    omega
  have hcrop := CheckedNumeric.triple_isValid p.crop_rect.Width p.crop_rect.Height
    p.color_params.BytesPerPixel hw hcw2 hh hb
  have hres := CheckedNumeric.triple_isValid (p.resize_width : Int) (p.resize_height : Int)
    p.color_params.BytesPerPixel (Int.ofNat_nonneg _) (by exact_mod_cast hrw)
    (Int.ofNat_nonneg _) hb
  have hres2 : ((p.resize_width : Int) * (p.resize_height : Int) *
      (p.color_params.BytesPerPixel : Int) ≤ (kUnsignedMax : Int)) ↔
      p.resize_width * p.resize_height * p.color_params.BytesPerPixel ≤ kUnsignedMax := by
    constructor <;> intro h <;> exact_mod_cast h
  rw [hres2] at hres
  unfold DstBufferSizeHasOverflow
  simp only [CanvasColorParams.BytesPerPixel] at hcrop hres ⊢
  by_cases h1 : p.crop_rect.Width * p.crop_rect.Height *
      ((SkColorTypeBytesPerPixel p.color_params.GetSkColorType : Nat) : Int) ≤ (kUnsignedMax : Int)
  · have hv := hcrop.mpr h1
    by_cases h2 : p.should_scale_input = true
    · by_cases h3 : p.resize_width * p.resize_height *
          SkColorTypeBytesPerPixel p.color_params.GetSkColorType ≤ kUnsignedMax
      · have hv2 := hres.mpr h3
        simp [hv, h2, hv2]
        exact ⟨h1, h3⟩
      · have hv2 : CheckedNumeric.IsValid (CheckedNumeric.mul (CheckedNumeric.mul
            (CheckedNumeric.ofInt (p.resize_width : Int)) (p.resize_height : Int))
            ((SkColorTypeBytesPerPixel p.color_params.GetSkColorType : Nat) : Int)) = false := by
          rw [Bool.eq_false_iff]
          exact fun h => h3 (hres.mp h)
        simp [hv, h2, hv2]
        exact Or.inr (not_le.mp h3)
    · simp [hv, h2]
      exact h1
  · have hv : CheckedNumeric.IsValid (CheckedNumeric.mul (CheckedNumeric.mul
        (CheckedNumeric.ofInt p.crop_rect.Width) p.crop_rect.Height)
        ((SkColorTypeBytesPerPixel p.color_params.GetSkColorType : Nat) : Int)) = false := by
      rw [Bool.eq_false_iff]
      exact fun h => h1 (hcrop.mp h)
    simp [hv]
    exact Or.inl (not_le.mp h1)

/-- Witness of C1: a 65536 x 65536 crop with a 4-byte pixel format overflows. -/
theorem DstBufferSizeHasOverflow_iff_witness :
    DstBufferSizeHasOverflow overflowOptions = true :=
  (DstBufferSizeHasOverflow_iff overflowOptions (by decide) (by decide) (by decide)).mpr
    (Or.inl (by decide))

/-! ## Fields of the result of ParseOptions -/

theorem wrapInt_of_isInt (v : Int) (h : IsInt v) : wrapInt v = v := by
  unfold IsInt kIntMin kIntMax at h
  unfold wrapInt
  omega

theorem wrapInt_natCast_eq_iff (n : Nat) (c : Int) (hn : IsUnsigned n) (hc0 : 0 ≤ c)
    (hc : c ≤ kIntMax) : wrapInt (n : Int) = c ↔ (n : Int) = c := by
  unfold IsUnsigned kUnsignedMax at hn
  unfold kIntMax at hc
  unfold wrapInt
  omega

theorem wrapUnsigned_isUnsigned (v : Int) : IsUnsigned (wrapUnsigned v) := by
  unfold IsUnsigned wrapUnsigned kUnsignedMax
  omega

theorem wrapUnsigned_of_nonneg (v : Int) (h0 : 0 ≤ v) (h : v ≤ kIntMax) :
    (wrapUnsigned v : Int) = v := by
  unfold kIntMax at h
  unfold wrapUnsigned
  omega

theorem wrapInt_wrapUnsigned (v : Int) (h : IsInt v) : wrapInt (wrapUnsigned v : Int) = v := by
  unfold IsInt kIntMin kIntMax at h
  unfold wrapInt wrapUnsigned
  omega

theorem ParseOptions_flip_y (ub : F32 → Nat) (options : ImageBitmapOptions)
    (crop_rect : Option IntRect) (source_size : IntSize) :
    (ParseOptions ub options crop_rect source_size).flip_y =
      decide (options.imageOrientation = kImageOrientationFlipY) := by
  simp only [ParseOptions, apply_ite ParsedOptions.flip_y, ite_self]

theorem ParseOptions_has_color_space_conversion (ub : F32 → Nat) (options : ImageBitmapOptions)
    (crop_rect : Option IntRect) (source_size : IntSize) :
    (ParseOptions ub options crop_rect source_size).has_color_space_conversion =
      decide (options.colorSpaceConversion ≠ kImageBitmapOptionNone) := by
  simp only [ParseOptions, apply_ite ParsedOptions.has_color_space_conversion, ite_self]

theorem ParseOptions_color_params (ub : F32 → Nat) (options : ImageBitmapOptions)
    (crop_rect : Option IntRect) (source_size : IntSize) :
    (ParseOptions ub options crop_rect source_size).color_params =
      ParseColorParams options.colorSpaceConversion := by
  simp only [ParseOptions, apply_ite ParsedOptions.color_params, ite_self]

theorem ParseOptions_crop_rect (ub : F32 → Nat) (options : ImageBitmapOptions)
    (crop_rect : Option IntRect) (source_size : IntSize) :
    (ParseOptions ub options crop_rect source_size).crop_rect =
      ParseCropRect crop_rect source_size := by
  simp only [ParseOptions, apply_ite ParsedOptions.crop_rect, ite_self]

theorem ParseOptions_resize_width (ub : F32 → Nat) (options : ImageBitmapOptions)
    (crop_rect : Option IntRect) (source_size : IntSize) :
    (ParseOptions ub options crop_rect source_size).resize_width =
      (ParseResize ub options (ParseCropRect crop_rect source_size)).1 := by
  simp only [ParseOptions, apply_ite ParsedOptions.resize_width, ite_self]

theorem ParseOptions_resize_height (ub : F32 → Nat) (options : ImageBitmapOptions)
    (crop_rect : Option IntRect) (source_size : IntSize) :
    (ParseOptions ub options crop_rect source_size).resize_height =
      (ParseResize ub options (ParseCropRect crop_rect source_size)).2 := by
  simp only [ParseOptions, apply_ite ParsedOptions.resize_height, ite_self]

theorem ParseOptions_should_scale_input (ub : F32 → Nat) (options : ImageBitmapOptions)
    (crop_rect : Option IntRect) (source_size : IntSize) :
    (ParseOptions ub options crop_rect source_size).should_scale_input =
      !ResizeEqualsCrop (ParseResize ub options (ParseCropRect crop_rect source_size))
        (ParseCropRect crop_rect source_size) := by
  simp only [ParseOptions, apply_ite ParsedOptions.should_scale_input]
  cases ResizeEqualsCrop (ParseResize ub options (ParseCropRect crop_rect source_size))
    (ParseCropRect crop_rect source_size) <;> rfl

theorem F32.toUnsigned_isUnsigned (ub : F32 → Nat) (v : F32) :
    IsUnsigned (F32.toUnsigned ub v) := by
  have hub : ub v % 4294967296 ≤ kUnsignedMax := by
    unfold kUnsignedMax
    omega
  unfold IsUnsigned
  cases v with
  | finite neg m e =>
    simp only [F32.toUnsigned]
    split
    · next h =>
      simp only [F32.toUnsignedDefined] at h
      split at h
      · have h0 := of_decide_eq_true h
        rw [h0]
        exact Nat.zero_le _
      · exact of_decide_eq_true h
    · exact hub
  | infinite neg => exact hub
  | nan => exact hub

theorem NormalizeRect_width (r : IntRect) (h : IsInt r.width ∧ IsInt (-r.width)) :
    (NormalizeRect r).width = |r.width| := by
  simp only [NormalizeRect, IntRect.Width, wrapInt_of_isInt _ h.2]
  rcases abs_cases r.width with ⟨h1, h2⟩ | ⟨h1, h2⟩ <;> rw [h1] <;> omega

theorem NormalizeRect_height (r : IntRect) (h : IsInt r.height ∧ IsInt (-r.height)) :
    (NormalizeRect r).height = |r.height| := by
  simp only [NormalizeRect, IntRect.Height, wrapInt_of_isInt _ h.2]
  rcases abs_cases r.height with ⟨h1, h2⟩ | ⟨h1, h2⟩ <;> rw [h1] <;> omega

theorem abs_isInt_bounds (w : Int) (h : IsInt w ∧ IsInt (-w)) : 0 ≤ |w| ∧ |w| ≤ kIntMax := by
  obtain ⟨h1, h2⟩ := h
  unfold IsInt kIntMin kIntMax at h1 h2
  unfold kIntMax
  rcases abs_cases w with ⟨h3, h4⟩ | ⟨h3, h4⟩ <;> rw [h3] <;> omega

/-- The crop rectangle `ParseOptions` computes has non-negative `int` extents,
for an image-sized source and a supplied rectangle whose extents can be negated. -/
theorem ParseCropRect_extents (crop_rect : Option IntRect) (source_size : IntSize)
    (hs : source_size.IsImageSize) (hc : ∀ r, crop_rect = some r → r.HasIntExtents) :
    (0 ≤ (ParseCropRect crop_rect source_size).width ∧
      (ParseCropRect crop_rect source_size).width ≤ kIntMax) ∧
    (0 ≤ (ParseCropRect crop_rect source_size).height ∧
      (ParseCropRect crop_rect source_size).height ≤ kIntMax) := by
  cases crop_rect with
  | none => exact hs
  | some r =>
    have h := hc r rfl
    simp only [ParseCropRect]
    rw [NormalizeRect_width r h.1, NormalizeRect_height r h.2]
    exact ⟨abs_isInt_bounds _ h.1, abs_isInt_bounds _ h.2⟩

/-- The resize dimensions `ParseOptions` computes are values of `unsigned`. -/
theorem ParseResize_isUnsigned (ub : F32 → Nat) (options : ImageBitmapOptions) (crop : IntRect)
    (ho : options.WellFormed) :
    IsUnsigned (ParseResize ub options crop).1 ∧ IsUnsigned (ParseResize ub options crop).2 := by
  obtain ⟨how, hoh⟩ := ho
  unfold ParseResize
  cases hw : options.resizeWidth with
  | none =>
    cases hh : options.resizeHeight with
    | none => exact ⟨wrapUnsigned_isUnsigned _, wrapUnsigned_isUnsigned _⟩
    | some b => exact ⟨F32.toUnsigned_isUnsigned _ _, hoh b hh⟩
  | some a =>
    cases hh : options.resizeHeight with
    | none => exact ⟨how a hw, F32.toUnsigned_isUnsigned _ _⟩
    | some b => exact ⟨how a hw, hoh b hh⟩

theorem ResizeEqualsCrop_iff (resize : Nat × Nat) (crop : IntRect)
    (hr : IsUnsigned resize.1 ∧ IsUnsigned resize.2)
    (hc : (0 ≤ crop.width ∧ crop.width ≤ kIntMax) ∧ (0 ≤ crop.height ∧ crop.height ≤ kIntMax)) :
    ResizeEqualsCrop resize crop = true ↔
      (resize.1 : Int) = crop.width ∧ (resize.2 : Int) = crop.height := by
  unfold ResizeEqualsCrop
  rw [Bool.and_eq_true, decide_eq_true_eq, decide_eq_true_eq]
  simp only [IntRect.Width, IntRect.Height]
  rw [wrapInt_natCast_eq_iff _ _ hr.1 hc.1.1 hc.1.2, wrapInt_natCast_eq_iff _ _ hr.2 hc.2.1 hc.2.2]

/-! ## ParseOptions: crop rectangle -/

/-- C4: without a supplied crop rectangle `ParseOptions` returns the source
bounds (0, 0, source_width, source_height); for a supplied rectangle
(x, y, w, h) whose sums x + w, y + h and negations -w, -h stay within `int` it
returns (min(x, x+w), min(y, y+h), |w|, |h|), which has non-negative width and
height and the same corners as the supplied rectangle. -/
theorem ParseOptions_crop_rect_normalized (ub : F32 → Nat) (options : ImageBitmapOptions)
    (source_size : IntSize) (x y w h : Int) (hw : IsInt w) (hh : IsInt h)
    (hxw : IsInt (x + w)) (hyh : IsInt (y + h)) (hnw : IsInt (-w)) (hnh : IsInt (-h)) :
    (ParseOptions ub options none source_size).crop_rect =
        ⟨0, 0, source_size.width, source_size.height⟩ ∧
      (ParseOptions ub options (some ⟨x, y, w, h⟩) source_size).crop_rect =
        ⟨min x (x + w), min y (y + h), |w|, |h|⟩ ∧
      0 ≤ (ParseOptions ub options (some ⟨x, y, w, h⟩) source_size).crop_rect.width ∧
      0 ≤ (ParseOptions ub options (some ⟨x, y, w, h⟩) source_size).crop_rect.height ∧
      (ParseOptions ub options (some ⟨x, y, w, h⟩) source_size).crop_rect.x +
          (ParseOptions ub options (some ⟨x, y, w, h⟩) source_size).crop_rect.width =
        max x (x + w) ∧
      (ParseOptions ub options (some ⟨x, y, w, h⟩) source_size).crop_rect.y +
          (ParseOptions ub options (some ⟨x, y, w, h⟩) source_size).crop_rect.height =
        max y (y + h) := by
  have hrect : (ParseOptions ub options (some ⟨x, y, w, h⟩) source_size).crop_rect =
      ⟨min x (x + w), min y (y + h), |w|, |h|⟩ := by
    rw [ParseOptions_crop_rect]
    have e1 := NormalizeRect_width ⟨x, y, w, h⟩ ⟨hw, hnw⟩
    have e2 := NormalizeRect_height ⟨x, y, w, h⟩ ⟨hh, hnh⟩
    simp only [ParseCropRect]
    simp only [NormalizeRect, IntRect.X, IntRect.Y, IntRect.MaxX, IntRect.MaxY, IntRect.Width,
      IntRect.Height, wrapInt_of_isInt _ hxw, wrapInt_of_isInt _ hyh] at e1 e2 ⊢
    rw [e1, e2]
  refine ⟨?_, hrect, ?_⟩
  · rw [ParseOptions_crop_rect]
    rfl
  · rw [hrect]
    simp only
    refine ⟨abs_nonneg w, abs_nonneg h, ?_, ?_⟩
    · rcases abs_cases w with ⟨h1, h2⟩ | ⟨h1, h2⟩ <;> rw [h1] <;> omega
    · rcases abs_cases h with ⟨h1, h2⟩ | ⟨h1, h2⟩ <;> rw [h1] <;> omega

/-- Witness of C4: the backwards rectangle (10, 20, -5, -8) on a 100 x 100 source. -/
theorem ParseOptions_crop_rect_normalized_witness :
    (ParseOptions (fun _ => 0) ImageBitmapOptions.defaults (some ⟨10, 20, -5, -8⟩)
        ⟨100, 100⟩).crop_rect = ⟨5, 12, 5, 8⟩ :=
  (ParseOptions_crop_rect_normalized (fun _ => 0) ImageBitmapOptions.defaults ⟨100, 100⟩
    10 20 (-5) (-8) (by decide) (by decide) (by decide) (by decide) (by decide)
    (by decide)).2.1

/-! ## ParseOptions: resize dimensions and the scaling flag -/

/-- C5: for well-formed options, an image-sized source and a crop rectangle
whose extents can be negated, `ParseOptions` returns `should_scale_input = false`
exactly when resize_width equals the crop width and resize_height equals the
crop height, and `should_scale_input = true` otherwise. -/
theorem ParseOptions_should_scale_input_iff (ub : F32 → Nat) (options : ImageBitmapOptions)
    (crop_rect : Option IntRect) (source_size : IntSize) (ho : options.WellFormed)
    (hs : source_size.IsImageSize) (hc : ∀ r, crop_rect = some r → r.HasIntExtents) :
    ((ParseOptions ub options crop_rect source_size).should_scale_input = false ↔
        (((ParseOptions ub options crop_rect source_size).resize_width : Int) =
            (ParseOptions ub options crop_rect source_size).crop_rect.width ∧
          ((ParseOptions ub options crop_rect source_size).resize_height : Int) =
            (ParseOptions ub options crop_rect source_size).crop_rect.height)) ∧
      ((ParseOptions ub options crop_rect source_size).should_scale_input = true ↔
        ¬ (((ParseOptions ub options crop_rect source_size).resize_width : Int) =
            (ParseOptions ub options crop_rect source_size).crop_rect.width ∧
          ((ParseOptions ub options crop_rect source_size).resize_height : Int) =
            (ParseOptions ub options crop_rect source_size).crop_rect.height)) := by
  have hiff := ResizeEqualsCrop_iff (ParseResize ub options (ParseCropRect crop_rect source_size))
    (ParseCropRect crop_rect source_size) (ParseResize_isUnsigned ub options _ ho)
    (ParseCropRect_extents crop_rect source_size hs hc)
  rw [ParseOptions_should_scale_input, ParseOptions_resize_width, ParseOptions_resize_height,
    ParseOptions_crop_rect, ← hiff]
  cases ResizeEqualsCrop (ParseResize ub options (ParseCropRect crop_rect source_size))
    (ParseCropRect crop_rect source_size) <;> simp

/-- Witness of C5: a 200 x 100 source resized to width 100 is scaled. -/
theorem ParseOptions_should_scale_input_iff_witness :
    (ParseOptions (fun _ => 0) { ImageBitmapOptions.defaults with resizeWidth := some 100 } none
        ⟨200, 100⟩).should_scale_input = true ↔
      ¬ (((ParseOptions (fun _ => 0) { ImageBitmapOptions.defaults with resizeWidth := some 100 }
            none ⟨200, 100⟩).resize_width : Int) =
          (ParseOptions (fun _ => 0) { ImageBitmapOptions.defaults with resizeWidth := some 100 }
            none ⟨200, 100⟩).crop_rect.width ∧
        ((ParseOptions (fun _ => 0) { ImageBitmapOptions.defaults with resizeWidth := some 100 }
            none ⟨200, 100⟩).resize_height : Int) =
          (ParseOptions (fun _ => 0) { ImageBitmapOptions.defaults with resizeWidth := some 100 }
            none ⟨200, 100⟩).crop_rect.height) :=
  (ParseOptions_should_scale_input_iff (fun _ => 0)
    { ImageBitmapOptions.defaults with resizeWidth := some 100 } none ⟨200, 100⟩
    ⟨fun w hw => by
        have hw2 : w = 100 := (Option.some.inj hw).symm
        rw [hw2]
        decide,
      fun h hh => by cases hh⟩
    (by decide) (fun r hr => by cases hr)).2

/-- C6: when neither resizeWidth nor resizeHeight is given, the resize
dimensions are the crop dimensions and `should_scale_input` is false (for an
image-sized source and a crop rectangle whose extents can be negated); when
both are given, the resize dimensions are exactly the supplied values. -/
theorem ParseOptions_resize_explicit (ub : F32 → Nat) (options : ImageBitmapOptions)
    (crop_rect : Option IntRect) (source_size : IntSize)
    (hs : source_size.IsImageSize) (hc : ∀ r, crop_rect = some r → r.HasIntExtents) :
    (options.resizeWidth = none → options.resizeHeight = none →
        ((ParseOptions ub options crop_rect source_size).resize_width : Int) =
            (ParseOptions ub options crop_rect source_size).crop_rect.width ∧
          ((ParseOptions ub options crop_rect source_size).resize_height : Int) =
            (ParseOptions ub options crop_rect source_size).crop_rect.height ∧
          (ParseOptions ub options crop_rect source_size).should_scale_input = false) ∧
      (∀ w h, options.resizeWidth = some w → options.resizeHeight = some h →
        (ParseOptions ub options crop_rect source_size).resize_width = w ∧
          (ParseOptions ub options crop_rect source_size).resize_height = h) := by
  have hext := ParseCropRect_extents crop_rect source_size hs hc
  constructor
  · intro hw hh
    have hres : ParseResize ub options (ParseCropRect crop_rect source_size) =
        (wrapUnsigned (ParseCropRect crop_rect source_size).width,
          wrapUnsigned (ParseCropRect crop_rect source_size).height) := by
      simp only [ParseResize, hw, hh, IntRect.Width, IntRect.Height]
    have e1 := wrapUnsigned_of_nonneg _ hext.1.1 hext.1.2
    have e2 := wrapUnsigned_of_nonneg _ hext.2.1 hext.2.2
    rw [ParseOptions_should_scale_input, ParseOptions_resize_width, ParseOptions_resize_height,
      ParseOptions_crop_rect, hres]
    refine ⟨e1, e2, ?_⟩
    have hiff := (ResizeEqualsCrop_iff
      (wrapUnsigned (ParseCropRect crop_rect source_size).width,
        wrapUnsigned (ParseCropRect crop_rect source_size).height)
      (ParseCropRect crop_rect source_size)
      ⟨wrapUnsigned_isUnsigned _, wrapUnsigned_isUnsigned _⟩ hext).mpr ⟨e1, e2⟩
    rw [hiff]
    rfl
  · intro w h hw hh
    rw [ParseOptions_resize_width, ParseOptions_resize_height]
    simp only [ParseResize, hw, hh, and_self]

/-- Witness of C6: a 200 x 100 source with both resize dimensions supplied. -/
theorem ParseOptions_resize_explicit_witness :
    (ParseOptions (fun _ => 0)
        { ImageBitmapOptions.defaults with resizeWidth := some 30, resizeHeight := some 40 } none
        ⟨200, 100⟩).resize_width = 30 ∧
      (ParseOptions (fun _ => 0)
        { ImageBitmapOptions.defaults with resizeWidth := some 30, resizeHeight := some 40 } none
        ⟨200, 100⟩).resize_height = 40 :=
  (ParseOptions_resize_explicit (fun _ => 0)
    { ImageBitmapOptions.defaults with resizeWidth := some 30, resizeHeight := some 40 } none
    ⟨200, 100⟩ (by decide) (fun r hr => by cases hr)).2 30 40 rfl rfl

/-! ## ParseOptions: orientation and colour space -/

/-- Counterexample to C9 as stated: for the orientation string "flip-y" the
parsed `flip_y` is false, and the string is not one `ParseOptions` recognizes. -/
theorem ParseOptions_flip_y_hyphen_counterexample :
    (ParseOptions (fun _ => 0) { ImageBitmapOptions.defaults with imageOrientation := "flip-y" }
        none ⟨100, 100⟩).flip_y = false ∧
      ImageOrientationCheck
        { ImageBitmapOptions.defaults with imageOrientation := "flip-y" } = false := by
  decide

/-- C9 (amended): the orientation strings `ParseOptions` recognizes are "none"
and "flipY"; `flip_y` is true exactly when the orientation is "flipY", so it is
true for "flipY" and false for "none". -/
theorem ParseOptions_flip_y_recognized (ub : F32 → Nat) (options : ImageBitmapOptions)
    (crop_rect : Option IntRect) (source_size : IntSize) :
    (ImageOrientationCheck options = true ↔
        (options.imageOrientation = "none" ∨ options.imageOrientation = "flipY")) ∧
      ((ParseOptions ub options crop_rect source_size).flip_y = true ↔
        options.imageOrientation = "flipY") ∧
      (ParseOptions ub { options with imageOrientation := "flipY" } crop_rect
        source_size).flip_y = true ∧
      (ParseOptions ub { options with imageOrientation := "none" } crop_rect
        source_size).flip_y = false := by
  refine ⟨?_, ?_, ?_, ?_⟩
  · simp only [ImageOrientationCheck, kImageOrientationFlipY, kImageBitmapOptionNone,
      Bool.or_eq_true, decide_eq_true_eq]
    exact Or.comm
  · rw [ParseOptions_flip_y, decide_eq_true_eq, kImageOrientationFlipY]
  · rw [ParseOptions_flip_y]
    rfl
  · rw [ParseOptions_flip_y]
    rfl

/-- Counterexample to C10 as stated: for the colour-space option "default", and
likewise for "srgb", `has_color_space_conversion` is true. -/
theorem ParseOptions_default_conversion_counterexample :
    (ParseOptions (fun _ => 0) { ImageBitmapOptions.defaults with colorSpaceConversion := "default" }
        none ⟨100, 100⟩).has_color_space_conversion = true ∧
      (ParseOptions (fun _ => 0) { ImageBitmapOptions.defaults with colorSpaceConversion := "srgb" }
        none ⟨100, 100⟩).has_color_space_conversion = true := by
  decide

/-- C10 (amended): `has_color_space_conversion` is false for the colour-space
option "none" and true for "default" and "srgb"; for all three the colour
parameters are the sRGB colour space with the 8-bit pixel format. -/
theorem ParseOptions_no_conversion_cases (ub : F32 → Nat) (options : ImageBitmapOptions)
    (crop_rect : Option IntRect) (source_size : IntSize) :
    ((ParseOptions ub { options with colorSpaceConversion := "none" } crop_rect
          source_size).has_color_space_conversion = false ∧
        (ParseOptions ub { options with colorSpaceConversion := "none" } crop_rect
          source_size).color_params = ⟨.kSRGBCanvasColorSpace, .kRGBA8CanvasPixelFormat⟩) ∧
      ((ParseOptions ub { options with colorSpaceConversion := "default" } crop_rect
          source_size).has_color_space_conversion = true ∧
        (ParseOptions ub { options with colorSpaceConversion := "default" } crop_rect
          source_size).color_params = ⟨.kSRGBCanvasColorSpace, .kRGBA8CanvasPixelFormat⟩) ∧
      ((ParseOptions ub { options with colorSpaceConversion := "srgb" } crop_rect
          source_size).has_color_space_conversion = true ∧
        (ParseOptions ub { options with colorSpaceConversion := "srgb" } crop_rect
          source_size).color_params = ⟨.kSRGBCanvasColorSpace, .kRGBA8CanvasPixelFormat⟩) := by
  simp only [ParseOptions_has_color_space_conversion, ParseOptions_color_params]
  exact ⟨⟨rfl, rfl⟩, ⟨rfl, rfl⟩, ⟨rfl, rfl⟩⟩

/-! ## The overflow guard in the construction entry points -/

theorem ImageBitmap.empty_accessors :
    ImageBitmap.empty.image_ = none ∧ ImageBitmap.empty.width = 0 ∧
      ImageBitmap.empty.height = 0 ∧ ImageBitmap.empty.Size = IntSize.zero :=
  ⟨rfl, rfl, rfl, rfl⟩

/-- C2: for each constructor that takes creation options (image element, video,
canvas, offscreen canvas, ImageData, another bitmap, image handle), when
`DstBufferSizeHasOverflow` is true for the options the constructor parsed, the
bitmap holds no image, `width()` and `height()` are 0, `Size()` is the empty
size, and no pipeline stage has been invoked. -/
theorem ImageBitmap.Create_overflow_empty (sk : Skia) (ub : F32 → Nat) (source : BitmapSource)
    (crop_rect : Option IntRect) (options : ImageBitmapOptions) (parsed_options : ParsedOptions)
    (hparsed : source.parsedOptions ub crop_rect options = some parsed_options)
    (hoverflow : DstBufferSizeHasOverflow parsed_options = true) :
    (ImageBitmap.Create sk ub source crop_rect options).1.image_ = none ∧
      (ImageBitmap.Create sk ub source crop_rect options).1.width = 0 ∧
      (ImageBitmap.Create sk ub source crop_rect options).1.height = 0 ∧
      (ImageBitmap.Create sk ub source crop_rect options).1.Size = IntSize.zero ∧
      (ImageBitmap.Create sk ub source crop_rect options).2 = [] := by
  have hempty : ImageBitmap.Create sk ub source crop_rect options = (ImageBitmap.empty, []) := by
    cases source with
    | imageElement e =>
      simp only [BitmapSource.parsedOptions, Option.some.injEq] at hparsed
      simp only [ImageBitmap.Create, ImageBitmap.ofImageElement, hparsed, hoverflow, if_true]
    | video v =>
      simp only [BitmapSource.parsedOptions, Option.some.injEq] at hparsed
      simp only [ImageBitmap.Create, ImageBitmap.ofVideo, hparsed, hoverflow, if_true]
    | canvas c =>
      cases hst : c.statusIsNormal with
      | false => simp [BitmapSource.parsedOptions, hst] at hparsed
      | true =>
        simp only [BitmapSource.parsedOptions, hst, if_true, Option.some.injEq] at hparsed
        simp [ImageBitmap.Create, ImageBitmap.ofCanvas, hst, hparsed, hoverflow]
    | offscreenCanvas c =>
      cases hst : c.statusIsNormal with
      | false => simp [BitmapSource.parsedOptions, hst] at hparsed
      | true =>
        simp only [BitmapSource.parsedOptions, hst, if_true, Option.some.injEq] at hparsed
        simp [ImageBitmap.Create, ImageBitmap.ofCanvas, hst, hparsed, hoverflow]
    | imageData d =>
      simp only [BitmapSource.parsedOptions, Option.some.injEq] at hparsed
      simp only [ImageBitmap.Create, ImageBitmap.ofImageData, hparsed, hoverflow, if_true]
    | imageBitmap b =>
      cases hb : b.BitmapImage with
      | none => simp [BitmapSource.parsedOptions, hb] at hparsed
      | some input =>
        simp only [BitmapSource.parsedOptions, hb, Option.some.injEq] at hparsed
        simp only [ImageBitmap.Create, ImageBitmap.ofImageBitmap, hb, hparsed, hoverflow,
          if_true]
    | staticBitmapImage i =>
      simp only [BitmapSource.parsedOptions, Option.some.injEq] at hparsed
      simp only [ImageBitmap.Create, ImageBitmap.ofStaticBitmapImage, hparsed, hoverflow,
        if_true]
  rw [hempty]
  exact ⟨rfl, rfl, rfl, rfl, rfl⟩

/-- Witness of C2: a crop of 65536 x 65536 of an image handle with the 4-byte
pixel format. -/
theorem ImageBitmap.Create_overflow_empty_witness :
    (ImageBitmap.Create sampleSkia (fun _ => 0) (.staticBitmapImage sampleImage)
        (some ⟨0, 0, 65536, 65536⟩) ImageBitmapOptions.defaults).1.width = 0 ∧
      (ImageBitmap.Create sampleSkia (fun _ => 0) (.staticBitmapImage sampleImage)
        (some ⟨0, 0, 65536, 65536⟩) ImageBitmapOptions.defaults).2 = [] :=
  have h := ImageBitmap.Create_overflow_empty sampleSkia (fun _ => 0)
    (.staticBitmapImage sampleImage) (some ⟨0, 0, 65536, 65536⟩) ImageBitmapOptions.defaults
    (StaticBitmapImageParsedOptions (fun _ => 0) sampleImage (some ⟨0, 0, 65536, 65536⟩)
      ImageBitmapOptions.defaults) rfl (by decide)
  ⟨h.2.1, h.2.2.2.2⟩

/-- C3, evaluation at the failing input: the raw pixel buffer entry point called
with width 65536, height 65536 and the 4-byte pixel format, whose byte count
exceeds the unsigned range, does not run the overflow guard: when the raster
copy succeeds the bitmap holds a 65536 x 65536 image. -/
theorem ImageBitmap.ofPixelData_skips_overflow_guard :
    kUnsignedMax < 65536 * 65536 * CanvasColorParams.default.BytesPerPixel ∧
      (ImageBitmap.ofPixelData sampleSkia (List.replicate (65536 * 65536 * 4) 0) 65536 65536
        true true CanvasColorParams.default).1.image_.isSome = true ∧
      (ImageBitmap.ofPixelData sampleSkia (List.replicate (65536 * 65536 * 4) 0) 65536 65536
        true true CanvasColorParams.default).1.width = 65536 ∧
      (ImageBitmap.ofPixelData sampleSkia (List.replicate (65536 * 65536 * 4) 0) 65536 65536
        true true CanvasColorParams.default).1.height = 65536 := by
  refine ⟨by decide, ?_, ?_, ?_⟩
  · simp only [ImageBitmap.ofPixelData, sampleSkia]
    rfl
  · simp only [ImageBitmap.ofPixelData, sampleSkia]
    rfl
  · simp only [ImageBitmap.ofPixelData, sampleSkia]
    rfl

/-! ## Single-precision arithmetic: lemmas -/

theorem log2Fuel_spec (fuel : Nat) : ∀ n : Nat, 0 < n → n ≤ fuel →
    2 ^ log2Fuel fuel n ≤ n ∧ n < 2 ^ (log2Fuel fuel n + 1) := by
  induction fuel with
  | zero => intro n h0 h1; omega
  | succ fuel ih =>
    intro n h0 h1
    unfold log2Fuel
    by_cases h2 : n < 2
    · rw [if_pos h2]
      have : n = 1 := by omega
      subst this
      exact ⟨by decide, by decide⟩
    · rw [if_neg h2]
      obtain ⟨ih1, ih2⟩ := ih (n / 2) (by omega) (by omega)
      rw [pow_succ] at ih2
      rw [pow_succ, pow_succ, pow_succ]
      generalize 2 ^ log2Fuel fuel (n / 2) = P at ih1 ih2
      omega

theorem floorLog2_spec (n : Nat) (hn : 0 < n) :
    2 ^ floorLog2 n ≤ n ∧ n < 2 ^ (floorLog2 n + 1) :=
  log2Fuel_spec n n hn (le_refl n)

theorem floorLog2Ratio_spec (n d : Nat) (hn : 0 < n) (hd : 0 < d) :
    (2 : ℚ) ^ floorLog2Ratio n d ≤ (n : ℚ) / (d : ℚ) ∧
      (n : ℚ) / (d : ℚ) < (2 : ℚ) ^ (floorLog2Ratio n d + 1) := by
  obtain ⟨hn1, hn2⟩ := floorLog2_spec n hn
  obtain ⟨hd1, hd2⟩ := floorLog2_spec d hd
  have hdq : (0 : ℚ) < (d : ℚ) := by exact_mod_cast hd
  have hn1q : (2 : ℚ) ^ floorLog2 n ≤ (n : ℚ) := by exact_mod_cast hn1
  have hn2q : (n : ℚ) < (2 : ℚ) ^ (floorLog2 n + 1) := by exact_mod_cast hn2
  have hd1q : (2 : ℚ) ^ floorLog2 d ≤ (d : ℚ) := by exact_mod_cast hd1
  have hd2q : (d : ℚ) < (2 : ℚ) ^ (floorLog2 d + 1) := by exact_mod_cast hd2
  have hpa : (0 : ℚ) < (2 : ℚ) ^ floorLog2 n := by positivity
  have hpb : (0 : ℚ) < (2 : ℚ) ^ floorLog2 d := by positivity
  have hnq : (0 : ℚ) < (n : ℚ) := by exact_mod_cast hn
  have e1 : (2 : ℚ) ^ ((floorLog2 n : Int) - (floorLog2 d : Int)) =
      (2 : ℚ) ^ floorLog2 n / (2 : ℚ) ^ floorLog2 d := by
    rw [zpow_sub₀ (by norm_num : (2 : ℚ) ≠ 0), zpow_natCast, zpow_natCast]
  have e2 : (2 : ℚ) ^ ((floorLog2 n : Int) - (floorLog2 d : Int) + 1) =
      (2 : ℚ) ^ (floorLog2 n + 1) / (2 : ℚ) ^ floorLog2 d := by
    rw [zpow_add₀ (by norm_num : (2 : ℚ) ≠ 0), e1, zpow_one, pow_succ]
    ring
  have e3 : (2 : ℚ) ^ ((floorLog2 n : Int) - (floorLog2 d : Int) - 1) =
      (2 : ℚ) ^ floorLog2 n / (2 : ℚ) ^ (floorLog2 d + 1) := by
    rw [zpow_sub₀ (by norm_num : (2 : ℚ) ≠ 0), e1, zpow_one, pow_succ]
    field_simp
  unfold floorLog2Ratio
  by_cases hc : d * 2 ^ floorLog2 n ≤ n * 2 ^ floorLog2 d
  · rw [if_pos hc]
    have hcq : (d : ℚ) * (2 : ℚ) ^ floorLog2 n ≤ (n : ℚ) * (2 : ℚ) ^ floorLog2 d := by
      exact_mod_cast hc
    rw [e1, e2]
    constructor
    · rw [div_le_div_iff₀ hpb hdq]
      linarith
    · rw [div_lt_div_iff₀ hdq hpb]
      have : (n : ℚ) * (2 : ℚ) ^ floorLog2 d < (2 : ℚ) ^ (floorLog2 n + 1) * (2 : ℚ) ^ floorLog2 d :=
        mul_lt_mul_of_pos_right hn2q hpb
      have h2 : (2 : ℚ) ^ (floorLog2 n + 1) * (2 : ℚ) ^ floorLog2 d ≤
          (2 : ℚ) ^ (floorLog2 n + 1) * (d : ℚ) :=
        mul_le_mul_of_nonneg_left hd1q (by positivity)
      linarith
  · rw [if_neg hc]
    have hcq : (n : ℚ) * (2 : ℚ) ^ floorLog2 d < (d : ℚ) * (2 : ℚ) ^ floorLog2 n := by
      exact_mod_cast not_le.mp hc
    have e4 : (floorLog2 n : Int) - (floorLog2 d : Int) - 1 + 1 =
        (floorLog2 n : Int) - (floorLog2 d : Int) := by ring
    rw [e4, e1, e3]
    constructor
    · rw [div_le_div_iff₀ (by positivity) hdq]
      have h1 : (2 : ℚ) ^ floorLog2 n * (d : ℚ) ≤ (n : ℚ) * (d : ℚ) :=
        mul_le_mul_of_nonneg_right hn1q (le_of_lt hdq)
      have h2 : (n : ℚ) * (d : ℚ) ≤ (n : ℚ) * (2 : ℚ) ^ (floorLog2 d + 1) :=
        mul_le_mul_of_nonneg_left (le_of_lt hd2q) (le_of_lt hnq)
      linarith
    · rw [div_lt_div_iff₀ hdq hpb]
      linarith

theorem roundHalfEven_mul (N d : Nat) (hd : 0 < d) : roundHalfEven (N * d) d = N := by
  unfold roundHalfEven
  have h1 : N * d % d = 0 := Nat.mul_mod_left N d
  have h2 : N * d / d = N := Nat.mul_div_cancel N hd
  rw [h1, h2, if_pos (by omega)]

theorem two_zpow_toNat (z : Int) (hz : 0 ≤ z) : ((2 ^ z.toNat : Nat) : ℚ) = (2 : ℚ) ^ z := by
  have h : ((z.toNat : Nat) : Int) = z := Int.toNat_of_nonneg hz
  push_cast
  rw [← zpow_natCast, h]

/-- Rounding is exact on a value with at most 24 significant bits that lies
within the range of `float`. -/
theorem F32.round_exact (n d : Nat) (k : Int) (hn : 0 < n) (hd : 0 < d) (j : Nat) (i : Int)
    (hj : j < 2 ^ 24) (hi : -149 ≤ i) (hx : (n : ℚ) / (d : ℚ) * (2 : ℚ) ^ k = (j : ℚ) * (2 : ℚ) ^ i)
    (hlt : (n : ℚ) / (d : ℚ) * (2 : ℚ) ^ k < (2 : ℚ) ^ (128 : Nat)) :
    (F32.round false n d k).Represents ((n : ℚ) / (d : ℚ) * (2 : ℚ) ^ k) := by
  have h2 : (2 : ℚ) ≠ 0 := by norm_num
  have h21 : (1 : ℚ) < 2 := by norm_num
  have hdq : (0 : ℚ) < (d : ℚ) := by exact_mod_cast hd
  obtain ⟨hL1, -⟩ := floorLog2Ratio_spec n d hn hd
  have hkpos : (0 : ℚ) < (2 : ℚ) ^ k := by positivity
  have hipos : (0 : ℚ) < (2 : ℚ) ^ i := by positivity
  have hxe : (2 : ℚ) ^ (floorLog2Ratio n d + k) ≤ (n : ℚ) / (d : ℚ) * (2 : ℚ) ^ k := by
    rw [zpow_add₀ h2]
    exact mul_le_mul_of_nonneg_right hL1 (le_of_lt hkpos)
  have hjq : (j : ℚ) < (2 : ℚ) ^ (24 : Int) := by
    have : (j : ℚ) < ((2 ^ 24 : Nat) : ℚ) := by exact_mod_cast hj
    rw [show ((24 : Int)) = ((24 : Nat) : Int) from rfl, zpow_natCast]
    exact_mod_cast this
  have hub : (n : ℚ) / (d : ℚ) * (2 : ℚ) ^ k < (2 : ℚ) ^ (24 + i) := by
    rw [hx, zpow_add₀ h2]
    exact mul_lt_mul_of_pos_right hjq hipos
  have hei : floorLog2Ratio n d + k < 24 + i :=
    (zpow_lt_zpow_iff_right₀ h21).mp (lt_of_le_of_lt hxe hub)
  have hs : max (floorLog2Ratio n d + k) (-126) - 23 ≤ i := by
    have : max (floorLog2Ratio n d + k) (-126) ≤ i + 23 := max_le (by omega) (by omega)
    omega
  obtain ⟨s, hsdef⟩ : ∃ s, s = max (floorLog2Ratio n d + k) (-126) - 23 := ⟨_, rfl⟩
  rw [← hsdef] at hs
  have hN : ((j * 2 ^ (i - s).toNat : Nat) : ℚ) * (2 : ℚ) ^ s = (j : ℚ) * (2 : ℚ) ^ i := by
    rw [Nat.cast_mul, two_zpow_toNat (i - s) (by omega), mul_assoc, ← zpow_add₀ h2]
    congr 2
    ring
  have hspos : (0 : ℚ) < (2 : ℚ) ^ s := by positivity
  have hm : (if 0 ≤ k - s then roundHalfEven (n * 2 ^ (k - s).toNat) d
      else roundHalfEven n (d * 2 ^ (s - k).toNat)) = j * 2 ^ (i - s).toNat := by
    by_cases hks : 0 ≤ k - s
    · rw [if_pos hks]
      have e : n * 2 ^ (k - s).toNat = j * 2 ^ (i - s).toNat * d := by
        have eq : ((n * 2 ^ (k - s).toNat : Nat) : ℚ) = ((j * 2 ^ (i - s).toNat * d : Nat) : ℚ) := by
          rw [Nat.cast_mul, two_zpow_toNat (k - s) hks, Nat.cast_mul (j * 2 ^ (i - s).toNat) d,
            zpow_sub₀ h2]
          have hx2 := hx
          rw [← hN] at hx2
          field_simp at hx2 ⊢
          linarith
        exact_mod_cast eq
      rw [e]
      exact roundHalfEven_mul _ d hd
    · rw [if_neg hks]
      have e : n = j * 2 ^ (i - s).toNat * (d * 2 ^ (s - k).toNat) := by
        have eq : (n : ℚ) = ((j * 2 ^ (i - s).toNat * (d * 2 ^ (s - k).toNat) : Nat) : ℚ) := by
          rw [Nat.cast_mul (j * 2 ^ (i - s).toNat), Nat.cast_mul d,
            two_zpow_toNat (s - k) (by omega), zpow_sub₀ h2]
          have hx2 := hx
          rw [← hN] at hx2
          field_simp at hx2 ⊢
          linarith
        exact_mod_cast eq
      have hpos : 0 < d * 2 ^ (s - k).toNat := Nat.mul_pos hd (by positivity)
      conv_lhs => rw [e]
      exact roundHalfEven_mul _ _ hpos
  have hov : ¬ (0 ≤ s ∧ 2 ^ 128 ≤ j * 2 ^ (i - s).toNat * 2 ^ s.toNat) := by
    rintro ⟨h0, hbig⟩
    have hq : ((2 ^ 128 : Nat) : ℚ) ≤ ((j * 2 ^ (i - s).toNat * 2 ^ s.toNat : Nat) : ℚ) := by
      exact_mod_cast hbig
    rw [Nat.cast_mul, two_zpow_toNat s h0, hN, ← hx] at hq
    have : ((2 ^ 128 : Nat) : ℚ) = (2 : ℚ) ^ (128 : Nat) := by norm_num
    rw [this] at hq
    exact absurd hlt (not_lt.mpr hq)
  refine ⟨j * 2 ^ (i - s).toNat, s, ?_, by rw [hN, hx]⟩
  unfold F32.round
  rw [if_neg (by omega)]
  simp only []
  rw [← hsdef, hm, if_neg hov]

theorem F32.round_zero (d : Nat) (k : Int) : (F32.round false 0 d k).Represents 0 := by
  refine ⟨0, 0, ?_, by simp⟩
  unfold F32.round
  rw [if_pos rfl]

theorem F32.Represents.nonneg {v : F32} {x : ℚ} (h : v.Represents x) : 0 ≤ x := by
  obtain ⟨m, e, -, rfl⟩ := h
  positivity

theorem F32.ofNat_represents (r : Nat) (hr : r < 2 ^ 24) : (F32.ofNat r).Represents (r : ℚ) := by
  unfold F32.ofNat
  rcases Nat.eq_zero_or_pos r with h0 | hpos
  · subst h0
    simpa using F32.round_zero 1 0
  · have h := F32.round_exact r 1 0 hpos Nat.one_pos r 0 hr (by norm_num) (by simp)
      (by
        have : (r : ℚ) < ((2 ^ 24 : Nat) : ℚ) := by exact_mod_cast hr
        have h2 : ((2 ^ 24 : Nat) : ℚ) < (2 : ℚ) ^ (128 : Nat) := by norm_num
        simp only [Nat.cast_one, div_one, zpow_zero, mul_one]
        linarith)
    simpa using h

theorem F32.ofInt_represents (c : Int) (h0 : 0 ≤ c) (hc : c < 2 ^ 24) :
    (F32.ofInt c).Represents (c : ℚ) := by
  obtain ⟨n, rfl⟩ := Int.eq_ofNat_of_zero_le h0
  have h := F32.ofNat_represents n (by omega)
  unfold F32.ofInt
  rw [decide_eq_false (by omega)]
  simpa [F32.ofNat] using h

/-- Division is exact when the quotient has at most 24 significant bits. -/
theorem F32.div_exact (a b : F32) (x y : ℚ) (ha : a.Represents x) (hb : b.Represents y)
    (hy : 0 < y) (j : Nat) (i : Int) (hj : j < 2 ^ 24) (hi : -149 ≤ i)
    (hq : x / y = (j : ℚ) * (2 : ℚ) ^ i) (hlt : x / y < (2 : ℚ) ^ (128 : Nat)) :
    (F32.div a b).Represents (x / y) := by
  have h2 : (2 : ℚ) ≠ 0 := by norm_num
  obtain ⟨m1, e1, rfl, hx⟩ := ha
  obtain ⟨m2, e2, rfl, hy2⟩ := hb
  have hm2 : m2 ≠ 0 := by
    rintro rfl
    simp at hy2
    linarith
  have hval : (m1 : ℚ) / (m2 : ℚ) * (2 : ℚ) ^ (e1 - e2) = x / y := by
    rw [← hx, ← hy2, zpow_sub₀ h2]
    have : (m2 : ℚ) ≠ 0 := by exact_mod_cast hm2
    field_simp
  simp only [F32.div, if_neg hm2, Bool.xor_false]
  rcases Nat.eq_zero_or_pos m1 with h0 | hpos
  · subst h0
    have hx0 : x = 0 := by rw [← hx]; simp
    rw [hx0, zero_div]
    exact F32.round_zero m2 _
  · rw [← hval] at hq hlt ⊢
    exact F32.round_exact m1 m2 (e1 - e2) hpos (Nat.pos_of_ne_zero hm2) j i hj hi hq hlt

/-- Multiplication is exact when the product has at most 24 significant bits. -/
theorem F32.mul_exact (a b : F32) (x y : ℚ) (ha : a.Represents x) (hb : b.Represents y)
    (j : Nat) (i : Int) (hj : j < 2 ^ 24) (hi : -149 ≤ i)
    (hq : x * y = (j : ℚ) * (2 : ℚ) ^ i) (hlt : x * y < (2 : ℚ) ^ (128 : Nat)) :
    (F32.mul a b).Represents (x * y) := by
  have h2 : (2 : ℚ) ≠ 0 := by norm_num
  obtain ⟨m1, e1, rfl, hx⟩ := ha
  obtain ⟨m2, e2, rfl, hy2⟩ := hb
  have hval : ((m1 * m2 : Nat) : ℚ) / ((1 : Nat) : ℚ) * (2 : ℚ) ^ (e1 + e2) = x * y := by
    rw [← hx, ← hy2, zpow_add₀ h2]
    push_cast
    ring
  simp only [F32.mul, Bool.xor_false]
  rcases Nat.eq_zero_or_pos (m1 * m2) with h0 | hpos
  · rw [h0]
    have hx0 : x * y = 0 := by
      rw [← hval, h0]
      simp
    rw [hx0]
    exact F32.round_zero 1 _
  · rw [← hval] at hq hlt ⊢
    exact F32.round_exact (m1 * m2) 1 (e1 + e2) hpos Nat.one_pos j i hj hi hq hlt

theorem nat_ceil_div (m D : Nat) (hD : 0 < D) :
    ⌈(m : ℚ) / (D : ℚ)⌉ = (((m + D - 1) / D : Nat) : Int) := by
  have hDq : (0 : ℚ) < (D : ℚ) := by exact_mod_cast hD
  have h1 := Nat.div_add_mod (m + D - 1) D
  have h2 := Nat.mod_lt (m + D - 1) hD
  generalize (m + D - 1) / D = q at h1
  generalize (m + D - 1) % D = r at h1 h2
  have h3 : m ≤ D * q := by omega
  have h4 : D * q < m + D := by omega
  have h3q : (m : ℚ) ≤ (D : ℚ) * (q : ℚ) := by exact_mod_cast h3
  have h4q : (D : ℚ) * (q : ℚ) < (m : ℚ) + (D : ℚ) := by exact_mod_cast h4
  rw [Int.ceil_eq_iff]
  constructor
  · rw [lt_div_iff₀ hDq]
    push_cast
    linarith
  · rw [div_le_iff₀ hDq]
    push_cast
    linarith

/-- The conversion to `unsigned` of the `ceil` of a finite non-negative value
whose ceiling is a value of `unsigned` is that ceiling. -/
theorem F32.toUnsigned_ceil (ub : F32 → Nat) (a : F32) (x : ℚ) (ha : a.Represents x)
    (hc : ⌈x⌉ ≤ (kUnsignedMax : Int)) : (F32.toUnsigned ub (F32.ceil a) : Int) = ⌈x⌉ := by
  obtain ⟨m, e, rfl, hx⟩ := ha
  by_cases he : 0 ≤ e
  · have hval : x = ((m * 2 ^ e.toNat : Nat) : ℚ) := by
      rw [← hx, Nat.cast_mul, two_zpow_toNat e he]
    have hceil : ⌈x⌉ = ((m * 2 ^ e.toNat : Nat) : Int) := by
      rw [hval]
      exact Int.ceil_natCast _
    rw [hceil] at hc ⊢
    have hle : m * 2 ^ e.toNat ≤ kUnsignedMax := by exact_mod_cast hc
    have htr : F32.truncMagnitude m e = m * 2 ^ e.toNat := by
      unfold F32.truncMagnitude
      rw [if_pos he]
    simp only [F32.ceil, if_pos he, F32.toUnsigned, F32.toUnsignedDefined, htr,
      Bool.false_eq_true, if_false, decide_eq_true hle, if_true]
  · have hpos : 0 < 2 ^ (-e).toNat := by positivity
    have hval : x = (m : ℚ) / ((2 ^ (-e).toNat : Nat) : ℚ) := by
      rw [← hx, two_zpow_toNat (-e) (by omega), zpow_neg, div_inv_eq_mul]
    have hceil : ⌈x⌉ = (((m + 2 ^ (-e).toNat - 1) / 2 ^ (-e).toNat : Nat) : Int) := by
      rw [hval]
      exact nat_ceil_div m _ hpos
    rw [hceil] at hc ⊢
    have hle : (m + 2 ^ (-e).toNat - 1) / 2 ^ (-e).toNat ≤ kUnsignedMax := by exact_mod_cast hc
    have htr : F32.truncMagnitude ((m + 2 ^ (-e).toNat - 1) / 2 ^ (-e).toNat) 0 =
        (m + 2 ^ (-e).toNat - 1) / 2 ^ (-e).toNat := by
      unfold F32.truncMagnitude
      simp
    simp only [F32.ceil, if_neg he, F32.toUnsigned, F32.toUnsignedDefined, htr,
      Bool.false_eq_true, if_false, decide_eq_true hle, if_true]

/-- The single-precision computation of the omitted resize dimension agrees with
the exact ceiling when the crop extent divided by is a power of two times a
divisor of the given dimension and all the numbers involved are below 2^24. -/
theorem AspectResize_exact (ub : F32 → Nat) (g : Nat) (a b : Int) (k d : Nat)
    (ha : a = 2 ^ k * (d : Int)) (hd : 0 < d) (hdvd : d ∣ g) (hb0 : 0 ≤ b)
    (hg : g < 2 ^ 24) (ha24 : a < 2 ^ 24) (hb : b < 2 ^ 24)
    (hprod : ((g / d : Nat) : Int) * b < 2 ^ 24) :
    (AspectResize ub g a b : Int) = ⌈(g : ℚ) / (a : ℚ) * (b : ℚ)⌉ := by
  have h2 : (2 : ℚ) ≠ 0 := by norm_num
  obtain ⟨q, rfl⟩ := hdvd
  obtain ⟨bn, rfl⟩ := Int.eq_ofNat_of_zero_le hb0
  have hgd : d * q / d = q := Nat.mul_div_cancel_left q hd
  rw [hgd] at hprod
  have hqb : q * bn < 2 ^ 24 := by exact_mod_cast hprod
  have hq24 : q < 2 ^ 24 := lt_of_le_of_lt (Nat.le_mul_of_pos_left q hd) hg
  have hkpos : (0 : Int) < 2 ^ k := by positivity
  have hdpos : (0 : Int) < (d : Int) := by exact_mod_cast hd
  have ha0 : 0 < a := by rw [ha]; positivity
  have hk : k < 24 := by
    by_contra hcon
    have h1 : (2 : Int) ^ 24 ≤ 2 ^ k := pow_le_pow_right₀ (by norm_num) (by omega)
    have h3 : (2 : Int) ^ k ≤ 2 ^ k * (d : Int) := by nlinarith
    omega
  have hdq : (d : ℚ) ≠ 0 := by exact_mod_cast (Nat.pos_iff_ne_zero.mp hd)
  have haq : (a : ℚ) = (2 : ℚ) ^ k * (d : ℚ) := by
    rw [ha]
    push_cast
    ring
  have hquot : ((d * q : Nat) : ℚ) / (a : ℚ) = (q : ℚ) * (2 : ℚ) ^ (-(k : Int)) := by
    rw [haq, zpow_neg, zpow_natCast]
    push_cast
    field_simp
    ring
  have hpowle : (2 : ℚ) ^ (-(k : Int)) ≤ 1 := by
    rw [zpow_neg, zpow_natCast]
    exact inv_le_one_of_one_le₀ (one_le_pow₀ (by norm_num))
  have hpow0 : (0 : ℚ) < (2 : ℚ) ^ (-(k : Int)) := by positivity
  have hbig : ((2 ^ 24 : Nat) : ℚ) < (2 : ℚ) ^ (128 : Nat) := by norm_num
  have hA := F32.ofNat_represents (d * q) hg
  have hB := F32.ofInt_represents a (le_of_lt ha0) ha24
  have hC := F32.ofInt_represents (bn : Int) hb0 hb
  have ha0q : (0 : ℚ) < (a : ℚ) := by exact_mod_cast ha0
  have hq24q : (q : ℚ) < ((2 ^ 24 : Nat) : ℚ) := by exact_mod_cast hq24
  have hqbq : ((q * bn : Nat) : ℚ) < ((2 ^ 24 : Nat) : ℚ) := by exact_mod_cast hqb
  have hD := F32.div_exact _ _ _ _ hA hB ha0q q (-(k : Int)) hq24 (by omega) hquot
    (by
      rw [hquot]
      have : (q : ℚ) * (2 : ℚ) ^ (-(k : Int)) ≤ (q : ℚ) * 1 :=
        mul_le_mul_of_nonneg_left hpowle (Nat.cast_nonneg q)
      linarith)
  have hprodq : ((d * q : Nat) : ℚ) / (a : ℚ) * (((bn : Nat) : Int) : ℚ) =
      ((q * bn : Nat) : ℚ) * (2 : ℚ) ^ (-(k : Int)) := by
    rw [hquot]
    push_cast
    ring
  have hle : ((d * q : Nat) : ℚ) / (a : ℚ) * (((bn : Nat) : Int) : ℚ) ≤ ((q * bn : Nat) : ℚ) := by
    rw [hprodq]
    have : ((q * bn : Nat) : ℚ) * (2 : ℚ) ^ (-(k : Int)) ≤ ((q * bn : Nat) : ℚ) * 1 :=
      mul_le_mul_of_nonneg_left hpowle (Nat.cast_nonneg _)
    linarith
  have hM := F32.mul_exact _ _ _ _ hD hC (q * bn) (-(k : Int)) hqb (by omega) hprodq
    (by linarith)
  have hceil : ⌈((d * q : Nat) : ℚ) / (a : ℚ) * (((bn : Nat) : Int) : ℚ)⌉ ≤
      (kUnsignedMax : Int) := by
    have h1 : ⌈((d * q : Nat) : ℚ) / (a : ℚ) * (((bn : Nat) : Int) : ℚ)⌉ ≤ ((q * bn : Nat) : Int) :=
      Int.ceil_le.mpr (by exact_mod_cast hle)
    have h3 : ((q * bn : Nat) : Int) < 2 ^ 24 := by exact_mod_cast hqb
    unfold kUnsignedMax
    omega
  unfold AspectResize
  exact F32.toUnsigned_ceil ub _ _ hM hceil

theorem roundHalfEven_bounds (A B P Q : Nat) (hB : 0 < B) (h1 : P * B ≤ A) (h2 : A < Q * B) :
    P ≤ roundHalfEven A B ∧ roundHalfEven A B ≤ Q := by
  have hf1 : P ≤ A / B := (Nat.le_div_iff_mul_le hB).mpr h1
  have hf2 : A / B < Q := (Nat.div_lt_iff_lt_mul hB).mpr h2
  unfold roundHalfEven
  split_ifs <;> omega

/-- Rounding keeps a positive value of the normal range between the powers of
two that enclose it. -/
theorem F32.round_bounds (n d : Nat) (k : Int) (hn : 0 < n) (hd : 0 < d) (lo hi : Int)
    (hlo : -126 ≤ lo) (hhi : hi ≤ 127)
    (h1 : (2 : ℚ) ^ lo ≤ (n : ℚ) / (d : ℚ) * (2 : ℚ) ^ k)
    (h2 : (n : ℚ) / (d : ℚ) * (2 : ℚ) ^ k < (2 : ℚ) ^ hi) :
    ∃ m e, F32.round false n d k = F32.finite false m e ∧
      (2 : ℚ) ^ lo ≤ (m : ℚ) * (2 : ℚ) ^ e ∧ (m : ℚ) * (2 : ℚ) ^ e ≤ (2 : ℚ) ^ hi := by
  have h2ne : (2 : ℚ) ≠ 0 := by norm_num
  have h21 : (1 : ℚ) < 2 := by norm_num
  have hdq : (0 : ℚ) < (d : ℚ) := by exact_mod_cast hd
  obtain ⟨hL1, hL2⟩ := floorLog2Ratio_spec n d hn hd
  have hkpos : (0 : ℚ) < (2 : ℚ) ^ k := by positivity
  have hxe1 : (2 : ℚ) ^ (floorLog2Ratio n d + k) ≤ (n : ℚ) / (d : ℚ) * (2 : ℚ) ^ k := by
    rw [zpow_add₀ h2ne]
    exact mul_le_mul_of_nonneg_right hL1 (le_of_lt hkpos)
  have hxe2 : (n : ℚ) / (d : ℚ) * (2 : ℚ) ^ k < (2 : ℚ) ^ (floorLog2Ratio n d + k + 1) := by
    rw [show floorLog2Ratio n d + k + 1 = floorLog2Ratio n d + 1 + k by ring, zpow_add₀ h2ne]
    exact mul_lt_mul_of_pos_right hL2 hkpos
  have hlo2 : lo < floorLog2Ratio n d + k + 1 :=
    (zpow_lt_zpow_iff_right₀ h21).mp (lt_of_le_of_lt h1 hxe2)
  have hhi2 : floorLog2Ratio n d + k < hi :=
    (zpow_lt_zpow_iff_right₀ h21).mp (lt_of_le_of_lt hxe1 h2)
  obtain ⟨e0, he0⟩ : ∃ e0, e0 = floorLog2Ratio n d + k := ⟨_, rfl⟩
  rw [← he0] at hxe1 hxe2 hlo2 hhi2
  have hmax : max e0 (-126) - 23 = e0 - 23 := by rw [max_eq_left (by omega)]
  obtain ⟨s, hs⟩ : ∃ s, s = e0 - 23 := ⟨_, rfl⟩
  have hspos : (0 : ℚ) < (2 : ℚ) ^ s := by positivity
  have e23 : (2 : ℚ) ^ e0 = (2 : ℚ) ^ (23 : Nat) * (2 : ℚ) ^ s := by
    rw [← zpow_natCast, ← zpow_add₀ h2ne]
    congr 1
    omega
  have e24 : (2 : ℚ) ^ (e0 + 1) = (2 : ℚ) ^ (24 : Nat) * (2 : ℚ) ^ s := by
    rw [← zpow_natCast, ← zpow_add₀ h2ne]
    congr 1
    omega
  have hy1 : (2 : ℚ) ^ (23 : Nat) * (d : ℚ) * (2 : ℚ) ^ s ≤ (n : ℚ) * (2 : ℚ) ^ k := by
    have := hxe1
    rw [e23, div_mul_eq_mul_div, le_div_iff₀ hdq] at this
    linarith
  have hy2 : (n : ℚ) * (2 : ℚ) ^ k < (2 : ℚ) ^ (24 : Nat) * (d : ℚ) * (2 : ℚ) ^ s := by
    have := hxe2
    rw [e24, div_mul_eq_mul_div, div_lt_iff₀ hdq] at this
    linarith
  have hm : 2 ^ 23 ≤ (if 0 ≤ k - s then roundHalfEven (n * 2 ^ (k - s).toNat) d
        else roundHalfEven n (d * 2 ^ (s - k).toNat)) ∧
      (if 0 ≤ k - s then roundHalfEven (n * 2 ^ (k - s).toNat) d
        else roundHalfEven n (d * 2 ^ (s - k).toNat)) ≤ 2 ^ 24 := by
    by_cases hks : 0 ≤ k - s
    · rw [if_pos hks]
      have ek : (2 : ℚ) ^ k = (2 : ℚ) ^ (k - s) * (2 : ℚ) ^ s := by
        rw [← zpow_add₀ h2ne]
        congr 1
        ring
      rw [ek] at hy1 hy2
      apply roundHalfEven_bounds _ _ _ _ hd
      · have : ((2 ^ 23 * d : Nat) : ℚ) ≤ ((n * 2 ^ (k - s).toNat : Nat) : ℚ) := by
          rw [Nat.cast_mul n, two_zpow_toNat (k - s) hks]
          push_cast
          have h := le_of_mul_le_mul_right (by linarith :
            (2 : ℚ) ^ (23 : Nat) * (d : ℚ) * (2 : ℚ) ^ s ≤
              ((n : ℚ) * (2 : ℚ) ^ (k - s)) * (2 : ℚ) ^ s) hspos
          linarith
        exact_mod_cast this
      · have : ((n * 2 ^ (k - s).toNat : Nat) : ℚ) < ((2 ^ 24 * d : Nat) : ℚ) := by
          rw [Nat.cast_mul n, two_zpow_toNat (k - s) hks]
          push_cast
          have h := lt_of_mul_lt_mul_right (by linarith :
            ((n : ℚ) * (2 : ℚ) ^ (k - s)) * (2 : ℚ) ^ s <
              (2 : ℚ) ^ (24 : Nat) * (d : ℚ) * (2 : ℚ) ^ s) (le_of_lt hspos)
          linarith
        exact_mod_cast this
    · rw [if_neg hks]
      have es : (2 : ℚ) ^ s = (2 : ℚ) ^ (s - k) * (2 : ℚ) ^ k := by
        rw [← zpow_add₀ h2ne]
        congr 1
        ring
      rw [es] at hy1 hy2
      apply roundHalfEven_bounds _ _ _ _ (Nat.mul_pos hd (by positivity))
      · have : ((2 ^ 23 * (d * 2 ^ (s - k).toNat) : Nat) : ℚ) ≤ (n : ℚ) := by
          rw [Nat.cast_mul, Nat.cast_mul d, two_zpow_toNat (s - k) (by omega)]
          push_cast
          have h := le_of_mul_le_mul_right (by linarith :
            ((2 : ℚ) ^ (23 : Nat) * ((d : ℚ) * (2 : ℚ) ^ (s - k))) * (2 : ℚ) ^ k ≤
              (n : ℚ) * (2 : ℚ) ^ k) hkpos
          linarith
        exact_mod_cast this
      · have : (n : ℚ) < ((2 ^ 24 * (d * 2 ^ (s - k).toNat) : Nat) : ℚ) := by
          rw [Nat.cast_mul, Nat.cast_mul d, two_zpow_toNat (s - k) (by omega)]
          push_cast
          have h := lt_of_mul_lt_mul_right (by linarith :
            (n : ℚ) * (2 : ℚ) ^ k <
              ((2 : ℚ) ^ (24 : Nat) * ((d : ℚ) * (2 : ℚ) ^ (s - k))) * (2 : ℚ) ^ k)
            (le_of_lt hkpos)
          linarith
        exact_mod_cast this
  obtain ⟨m, hmdef⟩ : ∃ m, m = (if 0 ≤ k - s then roundHalfEven (n * 2 ^ (k - s).toNat) d
        else roundHalfEven n (d * 2 ^ (s - k).toNat)) := ⟨_, rfl⟩
  rw [← hmdef] at hm
  have hm1 : (2 : ℚ) ^ (23 : Nat) ≤ (m : ℚ) := by exact_mod_cast hm.1
  have hm2 : (m : ℚ) ≤ (2 : ℚ) ^ (24 : Nat) := by exact_mod_cast hm.2
  have hlow : (2 : ℚ) ^ lo ≤ (m : ℚ) * (2 : ℚ) ^ s := by
    have a1 : (2 : ℚ) ^ lo ≤ (2 : ℚ) ^ e0 := zpow_le_zpow_right₀ (le_of_lt h21) (by omega)
    have a2 : (2 : ℚ) ^ (23 : Nat) * (2 : ℚ) ^ s ≤ (m : ℚ) * (2 : ℚ) ^ s :=
      mul_le_mul_of_nonneg_right hm1 (le_of_lt hspos)
    linarith
  have hupp : (m : ℚ) * (2 : ℚ) ^ s ≤ (2 : ℚ) ^ hi := by
    have a1 : (2 : ℚ) ^ (e0 + 1) ≤ (2 : ℚ) ^ hi := zpow_le_zpow_right₀ (le_of_lt h21) (by omega)
    have a2 : (m : ℚ) * (2 : ℚ) ^ s ≤ (2 : ℚ) ^ (24 : Nat) * (2 : ℚ) ^ s :=
      mul_le_mul_of_nonneg_right hm2 (le_of_lt hspos)
    linarith
  have hov : ¬ (0 ≤ s ∧ 2 ^ 128 ≤ m * 2 ^ s.toNat) := by
    rintro ⟨h0, hbig⟩
    have hq : ((2 ^ 128 : Nat) : ℚ) ≤ ((m * 2 ^ s.toNat : Nat) : ℚ) := by exact_mod_cast hbig
    rw [Nat.cast_mul, two_zpow_toNat s h0] at hq
    have a1 : (2 : ℚ) ^ hi ≤ (2 : ℚ) ^ (127 : Int) := zpow_le_zpow_right₀ (le_of_lt h21) hhi
    have a2 : (2 : ℚ) ^ (127 : Int) < ((2 ^ 128 : Nat) : ℚ) := by norm_num
    linarith
  refine ⟨m, s, ?_, hlow, hupp⟩
  unfold F32.round
  rw [if_neg (by omega)]
  simp only []
  rw [← he0, hmax, ← hs, ← hmdef, if_neg hov]

theorem F32.Within.significand_pos {m : Nat} {e lo : Int}
    (h : (2 : ℚ) ^ lo ≤ (m : ℚ) * (2 : ℚ) ^ e) : 0 < m := by
  rcases Nat.eq_zero_or_pos m with h0 | hpos
  · subst h0
    have hp : (0 : ℚ) < (2 : ℚ) ^ lo := by positivity
    simp at h
    linarith
  · exact hpos

theorem F32.ofNat_within (g : Nat) (h0 : 0 < g) (hg : g ≤ kUnsignedMax) :
    (F32.ofNat g).Within 0 32 := by
  unfold F32.ofNat
  have h1 : (1 : ℚ) ≤ (g : ℚ) := by exact_mod_cast h0
  have h2 : (g : ℚ) < (2 : ℚ) ^ (32 : Int) := by
    have : (g : ℚ) ≤ ((4294967295 : Nat) : ℚ) := by exact_mod_cast hg
    norm_num at this ⊢
    linarith
  exact F32.round_bounds g 1 0 h0 Nat.one_pos 0 32 (by norm_num) (by norm_num)
    (by simpa using h1) (by simpa using h2)

theorem F32.ofInt_within (c : Int) (h0 : 0 < c) (hc : c ≤ kIntMax) :
    (F32.ofInt c).Within 0 31 := by
  obtain ⟨n, rfl⟩ := Int.eq_ofNat_of_zero_le (le_of_lt h0)
  have hn0 : 0 < n := by exact_mod_cast h0
  have hn : n ≤ 2147483647 := by
    unfold kIntMax at hc
    exact_mod_cast hc
  have h1 : (1 : ℚ) ≤ (n : ℚ) := by exact_mod_cast hn0
  have h2 : (n : ℚ) < (2 : ℚ) ^ (31 : Int) := by
    have : (n : ℚ) ≤ ((2147483647 : Nat) : ℚ) := by exact_mod_cast hn
    norm_num at this ⊢
    linarith
  unfold F32.ofInt
  rw [decide_eq_false (by omega)]
  have h := F32.round_bounds n 1 0 hn0 Nat.one_pos 0 31 (by norm_num) (by norm_num)
    (by simpa using h1) (by simpa using h2)
  simpa using h

theorem F32.div_within (a b : F32) (la ha lb hb : Int) (hA : a.Within la ha)
    (hB : b.Within lb hb) (hlo : -126 ≤ la - hb) (hhi : ha - lb + 1 ≤ 127) :
    (F32.div a b).Within (la - hb) (ha - lb + 1) := by
  have h2ne : (2 : ℚ) ≠ 0 := by norm_num
  have h21 : (1 : ℚ) < 2 := by norm_num
  obtain ⟨m1, e1, rfl, hx1, hx2⟩ := hA
  obtain ⟨m2, e2, rfl, hy1, hy2⟩ := hB
  have hm1 := F32.Within.significand_pos hx1
  have hm2 := F32.Within.significand_pos hy1
  have hm2q : (0 : ℚ) < (m2 : ℚ) := by exact_mod_cast hm2
  have hypos : (0 : ℚ) < (m2 : ℚ) * (2 : ℚ) ^ e2 := by positivity
  have hval : (m1 : ℚ) / (m2 : ℚ) * (2 : ℚ) ^ (e1 - e2) =
      ((m1 : ℚ) * (2 : ℚ) ^ e1) / ((m2 : ℚ) * (2 : ℚ) ^ e2) := by
    rw [zpow_sub₀ h2ne]
    field_simp
  simp only [F32.div, if_neg (Nat.pos_iff_ne_zero.mp hm2), Bool.xor_false]
  apply F32.round_bounds m1 m2 (e1 - e2) hm1 hm2 _ _ hlo hhi
  · rw [hval, zpow_sub₀ h2ne]
    exact div_le_div₀ (by positivity) hx1 (by positivity) hy2
  · rw [hval]
    have hle : ((m1 : ℚ) * (2 : ℚ) ^ e1) / ((m2 : ℚ) * (2 : ℚ) ^ e2) ≤
        (2 : ℚ) ^ ha / (2 : ℚ) ^ lb :=
      div_le_div₀ (by positivity) hx2 (by positivity) hy1
    have hlt : (2 : ℚ) ^ ha / (2 : ℚ) ^ lb < (2 : ℚ) ^ (ha - lb + 1) := by
      rw [← zpow_sub₀ h2ne]
      exact zpow_lt_zpow_right₀ h21 (by omega)
    linarith

theorem F32.mul_within (a b : F32) (la ha lb hb : Int) (hA : a.Within la ha)
    (hB : b.Within lb hb) (hlo : -126 ≤ la + lb) (hhi : ha + hb + 1 ≤ 127) :
    (F32.mul a b).Within (la + lb) (ha + hb + 1) := by
  have h2ne : (2 : ℚ) ≠ 0 := by norm_num
  have h21 : (1 : ℚ) < 2 := by norm_num
  obtain ⟨m1, e1, rfl, hx1, hx2⟩ := hA
  obtain ⟨m2, e2, rfl, hy1, hy2⟩ := hB
  have hm1 := F32.Within.significand_pos hx1
  have hm2 := F32.Within.significand_pos hy1
  have hval : ((m1 * m2 : Nat) : ℚ) / ((1 : Nat) : ℚ) * (2 : ℚ) ^ (e1 + e2) =
      ((m1 : ℚ) * (2 : ℚ) ^ e1) * ((m2 : ℚ) * (2 : ℚ) ^ e2) := by
    rw [zpow_add₀ h2ne]
    push_cast
    ring
  simp only [F32.mul, Bool.xor_false]
  apply F32.round_bounds (m1 * m2) 1 (e1 + e2) (Nat.mul_pos hm1 hm2) Nat.one_pos _ _ hlo hhi
  · rw [hval, zpow_add₀ h2ne]
    exact mul_le_mul hx1 hy1 (by positivity) (by positivity)
  · rw [hval]
    have hle : ((m1 : ℚ) * (2 : ℚ) ^ e1) * ((m2 : ℚ) * (2 : ℚ) ^ e2) ≤
        (2 : ℚ) ^ ha * (2 : ℚ) ^ hb :=
      mul_le_mul hx2 hy2 (by positivity) (by positivity)
    have hlt : (2 : ℚ) ^ ha * (2 : ℚ) ^ hb < (2 : ℚ) ^ (ha + hb + 1) := by
      rw [← zpow_add₀ h2ne]
      exact zpow_lt_zpow_right₀ h21 (by omega)
    linarith

/-- The `ceil` of a positive finite value converts to a positive `unsigned`
when the conversion is defined. -/
theorem F32.toUnsigned_ceil_pos (ub : F32 → Nat) (a : F32) (lo hi : Int) (hA : a.Within lo hi)
    (hdef : F32.toUnsignedDefined (F32.ceil a) = true) : 0 < F32.toUnsigned ub (F32.ceil a) := by
  obtain ⟨m, e, rfl, hx1, -⟩ := hA
  have hm := F32.Within.significand_pos hx1
  by_cases he : 0 ≤ e
  · simp only [F32.ceil, if_pos he] at hdef ⊢
    simp only [F32.toUnsigned, hdef, if_true, F32.truncMagnitude, if_pos he]
    positivity
  · have hpos : 0 < 2 ^ (-e).toNat := by positivity
    simp only [F32.ceil, if_neg he, Bool.false_eq_true, if_false] at hdef ⊢
    simp only [F32.toUnsigned, hdef, if_true, F32.truncMagnitude, le_refl, Int.toNat_zero,
      pow_zero, mul_one]
    exact Nat.div_pos (by omega) hpos

/-- The omitted resize dimension is positive when the given dimension and the
crop extents are positive and the conversion to `unsigned` is defined. -/
theorem AspectResize_pos (ub : F32 → Nat) (g : Nat) (a b : Int) (hg0 : 0 < g)
    (hg : g ≤ kUnsignedMax) (ha0 : 0 < a) (ha : a ≤ kIntMax) (hb0 : 0 < b) (hb : b ≤ kIntMax)
    (hdef : AspectResizeDefined g a b = true) : 0 < AspectResize ub g a b := by
  have hG := F32.ofNat_within g hg0 hg
  have hA := F32.ofInt_within a ha0 ha
  have hB := F32.ofInt_within b hb0 hb
  have hD := F32.div_within _ _ 0 32 0 31 hG hA (by norm_num) (by norm_num)
  have hM := F32.mul_within _ _ _ _ 0 31 hD hB (by norm_num) (by norm_num)
  exact F32.toUnsigned_ceil_pos ub _ _ _ hM hdef

/-! ## ParseOptions: the omitted resize dimension -/

theorem ParseOptions_resize_width_only (ub : F32 → Nat) (options : ImageBitmapOptions)
    (crop_rect : Option IntRect) (source_size : IntSize) (w : Nat)
    (hw : options.resizeWidth = some w) (hh : options.resizeHeight = none) :
    (ParseOptions ub options crop_rect source_size).resize_width = w ∧
      (ParseOptions ub options crop_rect source_size).resize_height =
        AspectResize ub w (ParseOptions ub options crop_rect source_size).crop_rect.width
          (ParseOptions ub options crop_rect source_size).crop_rect.height := by
  rw [ParseOptions_resize_width, ParseOptions_resize_height, ParseOptions_crop_rect]
  simp only [ParseResize, hw, hh, IntRect.Width, IntRect.Height, and_self]

theorem ParseOptions_resize_height_only (ub : F32 → Nat) (options : ImageBitmapOptions)
    (crop_rect : Option IntRect) (source_size : IntSize) (h : Nat)
    (hw : options.resizeWidth = none) (hh : options.resizeHeight = some h) :
    (ParseOptions ub options crop_rect source_size).resize_height = h ∧
      (ParseOptions ub options crop_rect source_size).resize_width =
        AspectResize ub h (ParseOptions ub options crop_rect source_size).crop_rect.height
          (ParseOptions ub options crop_rect source_size).crop_rect.width := by
  rw [ParseOptions_resize_width, ParseOptions_resize_height, ParseOptions_crop_rect]
  simp only [ParseResize, hw, hh, IntRect.Width, IntRect.Height, and_self]

theorem ParseOptions_neither_given (ub : F32 → Nat) (options : ImageBitmapOptions)
    (crop_rect : Option IntRect) (source_size : IntSize)
    (hs : source_size.IsImageSize) (hc : ∀ r, crop_rect = some r → r.HasIntExtents)
    (hw : options.resizeWidth = none) (hh : options.resizeHeight = none) :
    (ParseOptions ub options crop_rect source_size).should_scale_input = false := by
  have hext := ParseCropRect_extents crop_rect source_size hs hc
  have hres : ParseResize ub options (ParseCropRect crop_rect source_size) =
      (wrapUnsigned (ParseCropRect crop_rect source_size).width,
        wrapUnsigned (ParseCropRect crop_rect source_size).height) := by
    simp only [ParseResize, hw, hh, IntRect.Width, IntRect.Height]
  have e1 := wrapUnsigned_of_nonneg _ hext.1.1 hext.1.2
  have e2 := wrapUnsigned_of_nonneg _ hext.2.1 hext.2.2
  have hiff := (ResizeEqualsCrop_iff
    (wrapUnsigned (ParseCropRect crop_rect source_size).width,
      wrapUnsigned (ParseCropRect crop_rect source_size).height)
    (ParseCropRect crop_rect source_size)
    ⟨wrapUnsigned_isUnsigned _, wrapUnsigned_isUnsigned _⟩ hext).mpr ⟨e1, e2⟩
  rw [ParseOptions_should_scale_input, hres, hiff]
  rfl

/-- Counterexample to C7 as stated: for a 3 x 15 source and resizeWidth 49 the
code returns resize_height 246, while the exact ceil(49 / 3 * 15) is 245. -/
theorem ParseOptions_aspect_counterexample :
    (ParseOptions (fun _ => 0) { ImageBitmapOptions.defaults with resizeWidth := some 49 } none
        ⟨3, 15⟩).crop_rect = ⟨0, 0, 3, 15⟩ ∧
      (ParseOptions (fun _ => 0) { ImageBitmapOptions.defaults with resizeWidth := some 49 } none
        ⟨3, 15⟩).resize_width = 49 ∧
      (ParseOptions (fun _ => 0) { ImageBitmapOptions.defaults with resizeWidth := some 49 } none
        ⟨3, 15⟩).resize_height = 246 ∧
      ⌈(49 : ℚ) / 3 * 15⌉ = 245 := by
  refine ⟨by decide, by decide, by decide, ?_⟩
  rw [Int.ceil_eq_iff]
  norm_num

/-- C7 (amended): when only resizeWidth is given, resize_width = resizeWidth and
resize_height is the single-precision evaluation of
ceil(resizeWidth / cropWidth * cropHeight) (conversion, division and
multiplication each rounded to nearest), converted to unsigned; when only
resizeHeight is given, symmetrically. The evaluation equals the exact ceiling
whenever the crop extent divided by is a power of two times a divisor of the
given dimension and the given dimension, both crop extents and the product of
the quotient with the other extent are below 2^24. -/
theorem ParseOptions_aspect_resize (ub : F32 → Nat) (options : ImageBitmapOptions)
    (crop_rect : Option IntRect) (source_size : IntSize) :
    (∀ w, options.resizeWidth = some w → options.resizeHeight = none →
      (ParseOptions ub options crop_rect source_size).resize_width = w ∧
      (ParseOptions ub options crop_rect source_size).resize_height =
        AspectResize ub w (ParseOptions ub options crop_rect source_size).crop_rect.width
          (ParseOptions ub options crop_rect source_size).crop_rect.height ∧
      (∀ k d : Nat,
        (ParseOptions ub options crop_rect source_size).crop_rect.width = 2 ^ k * (d : Int) →
        0 < d → d ∣ w →
        0 ≤ (ParseOptions ub options crop_rect source_size).crop_rect.height →
        w < 2 ^ 24 →
        (ParseOptions ub options crop_rect source_size).crop_rect.width < 2 ^ 24 →
        (ParseOptions ub options crop_rect source_size).crop_rect.height < 2 ^ 24 →
        ((w / d : Nat) : Int) *
          (ParseOptions ub options crop_rect source_size).crop_rect.height < 2 ^ 24 →
        ((ParseOptions ub options crop_rect source_size).resize_height : Int) =
          ⌈(w : ℚ) / ((ParseOptions ub options crop_rect source_size).crop_rect.width : ℚ) *
            ((ParseOptions ub options crop_rect source_size).crop_rect.height : ℚ)⌉)) ∧
    (∀ h, options.resizeWidth = none → options.resizeHeight = some h →
      (ParseOptions ub options crop_rect source_size).resize_height = h ∧
      (ParseOptions ub options crop_rect source_size).resize_width =
        AspectResize ub h (ParseOptions ub options crop_rect source_size).crop_rect.height
          (ParseOptions ub options crop_rect source_size).crop_rect.width ∧
      (∀ k d : Nat,
        (ParseOptions ub options crop_rect source_size).crop_rect.height = 2 ^ k * (d : Int) →
        0 < d → d ∣ h →
        0 ≤ (ParseOptions ub options crop_rect source_size).crop_rect.width →
        h < 2 ^ 24 →
        (ParseOptions ub options crop_rect source_size).crop_rect.height < 2 ^ 24 →
        (ParseOptions ub options crop_rect source_size).crop_rect.width < 2 ^ 24 →
        ((h / d : Nat) : Int) *
          (ParseOptions ub options crop_rect source_size).crop_rect.width < 2 ^ 24 →
        ((ParseOptions ub options crop_rect source_size).resize_width : Int) =
          ⌈(h : ℚ) / ((ParseOptions ub options crop_rect source_size).crop_rect.height : ℚ) *
            ((ParseOptions ub options crop_rect source_size).crop_rect.width : ℚ)⌉)) := by
  constructor
  · intro w hw hh
    obtain ⟨e1, e2⟩ := ParseOptions_resize_width_only ub options crop_rect source_size w hw hh
    refine ⟨e1, e2, ?_⟩
    intro k d ha hd hdvd hb0 hg ha24 hb hprod
    rw [e2]
    exact AspectResize_exact ub w _ _ k d ha hd hdvd hb0 hg ha24 hb hprod
  · intro h hw hh
    obtain ⟨e1, e2⟩ := ParseOptions_resize_height_only ub options crop_rect source_size h hw hh
    refine ⟨e1, e2, ?_⟩
    intro k d ha hd hdvd hb0 hg ha24 hb hprod
    rw [e2]
    exact AspectResize_exact ub h _ _ k d ha hd hdvd hb0 hg ha24 hb hprod

/-- Witness of C7 (amended): a 200 x 100 source with resizeWidth 100 gives
100 x 50; the crop width 200 is 2 times 100, and 100 divides 100. -/
theorem ParseOptions_aspect_resize_witness :
    (ParseOptions (fun _ => 0) { ImageBitmapOptions.defaults with resizeWidth := some 100 } none
        ⟨200, 100⟩).resize_width = 100 ∧
      ((ParseOptions (fun _ => 0) { ImageBitmapOptions.defaults with resizeWidth := some 100 } none
        ⟨200, 100⟩).resize_height : Int) =
        ⌈((100 : Nat) : ℚ) /
            ((ParseOptions (fun _ => 0)
              { ImageBitmapOptions.defaults with resizeWidth := some 100 } none
              ⟨200, 100⟩).crop_rect.width : ℚ) *
          ((ParseOptions (fun _ => 0)
              { ImageBitmapOptions.defaults with resizeWidth := some 100 } none
              ⟨200, 100⟩).crop_rect.height : ℚ)⌉ ∧
      (ParseOptions (fun _ => 0) { ImageBitmapOptions.defaults with resizeWidth := some 100 } none
        ⟨200, 100⟩).resize_height = 50 :=
  have h := (ParseOptions_aspect_resize (fun _ => 0)
    { ImageBitmapOptions.defaults with resizeWidth := some 100 } none ⟨200, 100⟩).1 100 rfl rfl
  ⟨h.1, h.2.2 1 100 (by decide) (by decide) (by decide) (by decide) (by decide) (by decide)
    (by decide) (by decide), by decide⟩

/-- Counterexample to C8 as stated: with both resize dimensions supplied as 0 on
a 10 x 10 source, `should_scale_input` is true and both resize dimensions are 0. -/
theorem ParseOptions_zero_resize_counterexample :
    (ParseOptions (fun _ => 0)
        { ImageBitmapOptions.defaults with resizeWidth := some 0, resizeHeight := some 0 } none
        ⟨10, 10⟩).should_scale_input = true ∧
      (ParseOptions (fun _ => 0)
        { ImageBitmapOptions.defaults with resizeWidth := some 0, resizeHeight := some 0 } none
        ⟨10, 10⟩).resize_width = 0 ∧
      (ParseOptions (fun _ => 0)
        { ImageBitmapOptions.defaults with resizeWidth := some 0, resizeHeight := some 0 } none
        ⟨10, 10⟩).resize_height = 0 := by
  decide

/-- C8 (amended): for well-formed options, an image-sized source and a crop
rectangle whose extents can be negated, if the returned `should_scale_input` is
true, every supplied resize dimension is positive and, when exactly one is
supplied, the crop rectangle has positive width and height and the conversion
of the computed dimension to unsigned is defined, then resize_width > 0 and
resize_height > 0. -/
theorem ParseOptions_resize_positive (ub : F32 → Nat) (options : ImageBitmapOptions)
    (crop_rect : Option IntRect) (source_size : IntSize) (ho : options.WellFormed)
    (hs : source_size.IsImageSize) (hc : ∀ r, crop_rect = some r → r.HasIntExtents)
    (hw : ∀ w, options.resizeWidth = some w → 0 < w)
    (hh : ∀ h, options.resizeHeight = some h → 0 < h)
    (hcrop : options.hasResizeWidth ≠ options.hasResizeHeight →
      0 < (ParseOptions ub options crop_rect source_size).crop_rect.width ∧
        0 < (ParseOptions ub options crop_rect source_size).crop_rect.height)
    (hdefw : ∀ w, options.resizeWidth = some w → options.resizeHeight = none →
      AspectResizeDefined w (ParseOptions ub options crop_rect source_size).crop_rect.width
        (ParseOptions ub options crop_rect source_size).crop_rect.height = true)
    (hdefh : ∀ h, options.resizeWidth = none → options.resizeHeight = some h →
      AspectResizeDefined h (ParseOptions ub options crop_rect source_size).crop_rect.height
        (ParseOptions ub options crop_rect source_size).crop_rect.width = true)
    (hscale : (ParseOptions ub options crop_rect source_size).should_scale_input = true) :
    0 < (ParseOptions ub options crop_rect source_size).resize_width ∧
      0 < (ParseOptions ub options crop_rect source_size).resize_height := by
  have hext := ParseCropRect_extents crop_rect source_size hs hc
  rw [← ParseOptions_crop_rect ub options crop_rect source_size] at hext
  cases hrw : options.resizeWidth with
  | none =>
    cases hrh : options.resizeHeight with
    | none =>
      rw [ParseOptions_neither_given ub options crop_rect source_size hs hc hrw hrh] at hscale
      exact absurd hscale (by decide)
    | some h =>
      obtain ⟨e1, e2⟩ := ParseOptions_resize_height_only ub options crop_rect source_size h hrw hrh
      have hpos := hcrop (by simp [ImageBitmapOptions.hasResizeWidth,
        ImageBitmapOptions.hasResizeHeight, hrw, hrh])
      rw [e1, e2]
      exact ⟨AspectResize_pos ub h _ _ (hh h hrh) (ho.2 h hrh) hpos.2 hext.2.2 hpos.1 hext.1.2
        (hdefh h hrw hrh), hh h hrh⟩
  | some w =>
    cases hrh : options.resizeHeight with
    | none =>
      obtain ⟨e1, e2⟩ := ParseOptions_resize_width_only ub options crop_rect source_size w hrw hrh
      have hpos := hcrop (by simp [ImageBitmapOptions.hasResizeWidth,
        ImageBitmapOptions.hasResizeHeight, hrw, hrh])
      rw [e1, e2]
      exact ⟨hw w hrw, AspectResize_pos ub w _ _ (hw w hrw) (ho.1 w hrw) hpos.1 hext.1.2 hpos.2
        hext.2.2 (hdefw w hrw hrh)⟩
    | some h =>
      rw [ParseOptions_resize_width, ParseOptions_resize_height]
      simp only [ParseResize, hrw, hrh]
      exact ⟨hw w hrw, hh h hrh⟩

/-- Witness of C8 (amended): a 200 x 100 source with resizeWidth 100. -/
theorem ParseOptions_resize_positive_witness :
    0 < (ParseOptions (fun _ => 0) { ImageBitmapOptions.defaults with resizeWidth := some 100 }
        none ⟨200, 100⟩).resize_width ∧
      0 < (ParseOptions (fun _ => 0) { ImageBitmapOptions.defaults with resizeWidth := some 100 }
        none ⟨200, 100⟩).resize_height :=
  ParseOptions_resize_positive (fun _ => 0)
    { ImageBitmapOptions.defaults with resizeWidth := some 100 } none ⟨200, 100⟩
    ⟨fun w hw => by
        have hw2 : w = 100 := (Option.some.inj hw).symm
        rw [hw2]
        decide,
      fun h hh => by cases hh⟩
    (by decide) (fun r hr => by cases hr)
    (fun w hw => by
      have hw2 : w = 100 := (Option.some.inj hw).symm
      rw [hw2]
      decide)
    (fun h hh => by cases hh)
    (fun _ => by decide)
    (fun w hw _ => by
      have hw2 : w = 100 := (Option.some.inj hw).symm
      rw [hw2]
      decide)
    (fun h hw _ => by cases hw)
    (by decide)

/-! ## ParseOptions: wide-gamut colour spaces -/

theorem ParseColorParams_pixel_format (c : String) :
    (ParseColorParams c).pixel_format = .kF16CanvasPixelFormat ↔
      (c ≠ "srgb" ∧ c ≠ "none" ∧ c ≠ "default") := by
  unfold ParseColorParams
  simp only [kSRGBImageBitmapColorSpaceConversion, kImageBitmapOptionNone,
    kImageBitmapOptionDefault]
  by_cases h : c ≠ "srgb" ∧ c ≠ "none" ∧ c ≠ "default"
  · rw [if_pos h]
    refine ⟨fun _ => h, fun _ => ?_⟩
    split
    · rfl
    · split
      · rfl
      · split <;> rfl
  · rw [if_neg h]
    refine ⟨fun hf => ?_, fun hc => absurd hc h⟩
    exact absurd hf (by decide)

/-- C11: for the colour-space options "linear-rgb", "p3" and "rec2020",
`has_color_space_conversion` is true and the pixel format is the 16-bit float
format; the colour space is P3 for "p3", Rec2020 for "rec2020" and the sRGB
canvas colour space for "linear-rgb". The pixel format is F16 exactly when the
option is none of "none", "default", "srgb". -/
theorem ParseOptions_wide_gamut_cases (ub : F32 → Nat) (options : ImageBitmapOptions)
    (crop_rect : Option IntRect) (source_size : IntSize) :
    ((ParseOptions ub { options with colorSpaceConversion := "linear-rgb" } crop_rect
          source_size).has_color_space_conversion = true ∧
        (ParseOptions ub { options with colorSpaceConversion := "linear-rgb" } crop_rect
          source_size).color_params = ⟨.kSRGBCanvasColorSpace, .kF16CanvasPixelFormat⟩) ∧
      ((ParseOptions ub { options with colorSpaceConversion := "p3" } crop_rect
          source_size).has_color_space_conversion = true ∧
        (ParseOptions ub { options with colorSpaceConversion := "p3" } crop_rect
          source_size).color_params = ⟨.kP3CanvasColorSpace, .kF16CanvasPixelFormat⟩) ∧
      ((ParseOptions ub { options with colorSpaceConversion := "rec2020" } crop_rect
          source_size).has_color_space_conversion = true ∧
        (ParseOptions ub { options with colorSpaceConversion := "rec2020" } crop_rect
          source_size).color_params = ⟨.kRec2020CanvasColorSpace, .kF16CanvasPixelFormat⟩) ∧
      ((ParseOptions ub options crop_rect source_size).color_params.pixel_format =
          .kF16CanvasPixelFormat ↔
        (options.colorSpaceConversion ≠ "none" ∧ options.colorSpaceConversion ≠ "default" ∧
          options.colorSpaceConversion ≠ "srgb")) := by
  simp only [ParseOptions_has_color_space_conversion, ParseOptions_color_params]
  refine ⟨⟨rfl, rfl⟩, ⟨rfl, rfl⟩, ⟨rfl, rfl⟩, ?_⟩
  rw [ParseColorParams_pixel_format]
  constructor
  · rintro ⟨h1, h2, h3⟩
    exact ⟨h2, h3, h1⟩
  · rintro ⟨h1, h2, h3⟩
    exact ⟨h3, h1, h2⟩

/-! ## Alpha conversion -/

theorem GetImageWithAlphaDisposition_eq (sk : Skia) (image : StaticBitmapImage)
    (target : SkAlphaType) (d : AlphaDisposition) (hd : d ≠ .kDontChangeAlpha)
    (ht : target = (if d = .kPremultiplyAlpha then SkAlphaType.kPremul_SkAlphaType
      else SkAlphaType.kUnpremul_SkAlphaType)) :
    GetImageWithAlphaDisposition sk image d =
      if image.skImage.alphaType = target then some image
      else
        if target = .kUnpremul_SkAlphaType ∨ wrapInt (image.width * image.height) < 16384 then
          match CopyImageDataWithInfo sk image
              (((GetSkImageInfo image.skImage).makeAlphaType target).makeColorSpace none) 0 0 with
          | none => none
          | some dst_pixels =>
            some (StaticBitmapImage.CreateFromPixels dst_pixels
              ((GetSkImageInfo image.skImage).makeAlphaType target))
        else
          if !sk.makeRaster
              (if ((GetSkImageInfo image.skImage).makeAlphaType target).colorSpace =
                  some SkColorSpace.MakeSRGB then
                ((GetSkImageInfo image.skImage).makeAlphaType target).makeColorSpace none
              else (GetSkImageInfo image.skImage).makeAlphaType target) then none
          else
            some (StaticBitmapImage.Create
              (makeImageSnapshot
                (if ((GetSkImageInfo image.skImage).makeAlphaType target).colorSpace =
                    some SkColorSpace.MakeSRGB then
                  ((GetSkImageInfo image.skImage).makeAlphaType target).makeColorSpace none
                else (GetSkImageInfo image.skImage).makeAlphaType target)
                (sk.drawImage
                  (if ((GetSkImageInfo image.skImage).makeAlphaType target).colorSpace =
                      some SkColorSpace.MakeSRGB then
                    ((GetSkImageInfo image.skImage).makeAlphaType target).makeColorSpace none
                  else (GetSkImageInfo image.skImage).makeAlphaType target)
                  image.skImage))) := by
  unfold GetImageWithAlphaDisposition
  rw [if_neg hd]
  simp only []
  rw [← ht]

/-- The alpha type `GetImageWithAlphaDisposition` aims at. -/
theorem GetImageWithAlphaDisposition_alphaType (sk : Skia) (image out : StaticBitmapImage)
    (d : AlphaDisposition) (hd : d ≠ .kDontChangeAlpha)
    (h : GetImageWithAlphaDisposition sk image d = some out) :
    out.skImage.alphaType =
      (if d = .kPremultiplyAlpha then SkAlphaType.kPremul_SkAlphaType
        else SkAlphaType.kUnpremul_SkAlphaType) := by
  obtain ⟨target, ht⟩ : ∃ t, t = (if d = .kPremultiplyAlpha then SkAlphaType.kPremul_SkAlphaType
      else SkAlphaType.kUnpremul_SkAlphaType) := ⟨_, rfl⟩
  rw [GetImageWithAlphaDisposition_eq sk image target d hd ht] at h
  rw [← ht]
  by_cases h1 : image.skImage.alphaType = target
  · rw [if_pos h1] at h
    cases h
    exact h1
  · rw [if_neg h1] at h
    by_cases h2 : target = .kUnpremul_SkAlphaType ∨ wrapInt (image.width * image.height) < 16384
    · rw [if_pos h2] at h
      cases hc : CopyImageDataWithInfo sk image
          (((GetSkImageInfo image.skImage).makeAlphaType target).makeColorSpace none) 0 0 with
      | none =>
        rw [hc] at h
        cases h
      | some px =>
        rw [hc] at h
        cases h
        rfl
    · rw [if_neg h2] at h
      obtain ⟨info, hinfo⟩ : ∃ i, i =
          (if ((GetSkImageInfo image.skImage).makeAlphaType target).colorSpace =
              some SkColorSpace.MakeSRGB then
            ((GetSkImageInfo image.skImage).makeAlphaType target).makeColorSpace none
          else (GetSkImageInfo image.skImage).makeAlphaType target) := ⟨_, rfl⟩
      have ha : info.alphaType = target := by
        rw [hinfo]
        split <;> rfl
      rw [← hinfo] at h
      by_cases hm : (!sk.makeRaster info) = true
      · rw [if_pos hm] at h
        cases h
      · rw [if_neg hm] at h
        cases h
        exact ha

/-- C15: for an image whose alpha type already is the requested one (premultiplied
with kPremultiplyAlpha, unpremultiplied with kUnpremultiplyAlpha),
`GetImageWithAlphaDisposition` returns that same image whatever the graphics
library does, so neither a readback nor a surface draw contributes; applying it
again to the result gives the same result, which also holds for any image on
which a first conversion succeeded. -/
theorem GetImageWithAlphaDisposition_noop (sk : Skia) (image : StaticBitmapImage) :
    (image.skImage.alphaType = .kPremul_SkAlphaType →
        GetImageWithAlphaDisposition sk image .kPremultiplyAlpha = some image) ∧
      (image.skImage.alphaType = .kUnpremul_SkAlphaType →
        GetImageWithAlphaDisposition sk image .kUnpremultiplyAlpha = some image) ∧
      (∀ d out, d ≠ .kDontChangeAlpha → GetImageWithAlphaDisposition sk image d = some out →
        GetImageWithAlphaDisposition sk out d = some out) := by
  refine ⟨?_, ?_, ?_⟩
  · intro h
    simp [GetImageWithAlphaDisposition, h]
  · intro h
    simp [GetImageWithAlphaDisposition, h]
  · intro d out hd h
    have ha := GetImageWithAlphaDisposition_alphaType sk image out d hd h
    unfold GetImageWithAlphaDisposition
    rw [if_neg hd]
    simp only []
    rw [if_pos ha]

/-- Witness of C15: premultiplying the premultiplied sample image returns it. -/
theorem GetImageWithAlphaDisposition_noop_witness :
    GetImageWithAlphaDisposition sampleSkia sampleImage .kPremultiplyAlpha = some sampleImage :=
  (GetImageWithAlphaDisposition_noop sampleSkia sampleImage).1 rfl

/-! ## Lifecycle of the bitmap: close and Transfer -/

theorem ImageBitmap.close_of_live (b : ImageBitmap) (hi : b.image_.isSome = true)
    (hn : b.is_neutered_ = false) : b.close = ⟨none, true⟩ := by
  unfold ImageBitmap.close
  rw [if_neg]
  rintro (h | h)
  · rw [Option.isNone_iff_eq_none] at h
    rw [h] at hi
    exact absurd hi (by decide)
  · rw [hn] at h
    exact absurd h (by decide)

theorem ImageBitmap.close_of_idle (b : ImageBitmap)
    (h : b.image_ = none ∨ b.is_neutered_ = true) : b.close = b := by
  unfold ImageBitmap.close
  rw [if_pos]
  rcases h with h | h
  · exact Or.inl (by rw [h]; rfl)
  · exact Or.inr h

theorem ImageBitmap.close_close (b : ImageBitmap) : b.close.close = b.close := by
  by_cases h : b.image_ = none ∨ b.is_neutered_ = true
  · rw [ImageBitmap.close_of_idle b h, ImageBitmap.close_of_idle b h]
  · have hi : b.image_.isSome = true := by
      cases hb : b.image_ with
      | none => exact absurd (Or.inl hb) h
      | some i => rfl
    have hn : b.is_neutered_ = false := by
      cases hb : b.is_neutered_ with
      | false => rfl
      | true => exact absurd (Or.inr hb) h
    rw [ImageBitmap.close_of_live b hi hn]
    exact ImageBitmap.close_of_idle _ (Or.inl rfl)

theorem ImageBitmap.accessors_of_no_image (b : ImageBitmap) (h : b.image_ = none) :
    b.width = 0 ∧ b.height = 0 ∧ b.Size = IntSize.zero ∧ b.IsAccelerated = false := by
  simp only [ImageBitmap.width, ImageBitmap.height, ImageBitmap.Size, ImageBitmap.IsAccelerated,
    h, and_self]

/-- Counterexample to C16 as stated: `close()` on a bitmap that holds no image,
such as one left empty by the overflow guard, returns at once and the bitmap is
not marked neutered. -/
theorem ImageBitmap.close_empty_counterexample :
    ImageBitmap.empty.close.IsNeutered = false ∧
      (ImageBitmap.Create sampleSkia (fun _ => 0) (.staticBitmapImage sampleImage)
        (some ⟨0, 0, 65536, 65536⟩) ImageBitmapOptions.defaults).1.close.IsNeutered = false := by
  constructor
  · rfl
  · decide

/-- C16 (amended): for a bitmap that holds an image and is not neutered, after
`close()` the bitmap is neutered and holds no image, so `width()` and
`height()` return 0; on a bitmap without image or already neutered `close()`
changes nothing; and a second `close()` changes nothing on any bitmap. -/
theorem ImageBitmap.close_releases (b : ImageBitmap) :
    (b.image_.isSome = true → b.is_neutered_ = false →
        b.close.IsNeutered = true ∧ b.close.image_ = none ∧
          b.close.width = 0 ∧ b.close.height = 0) ∧
      ((b.image_ = none ∨ b.is_neutered_ = true) → b.close = b) ∧
      b.close.close = b.close := by
  refine ⟨?_, ImageBitmap.close_of_idle b, ImageBitmap.close_close b⟩
  intro hi hn
  rw [ImageBitmap.close_of_live b hi hn]
  exact ⟨rfl, rfl, rfl, rfl⟩

/-- Witness of C16 (amended): closing a bitmap that holds the sample image. -/
theorem ImageBitmap.close_releases_witness :
    (ImageBitmap.mk (some sampleImage) false).close.IsNeutered = true ∧
      (ImageBitmap.mk (some sampleImage) false).close.image_ = none ∧
      (ImageBitmap.mk (some sampleImage) false).close.width = 0 ∧
      (ImageBitmap.mk (some sampleImage) false).close.height = 0 :=
  (ImageBitmap.close_releases (ImageBitmap.mk (some sampleImage) false)).1 rfl rfl

theorem ImageBitmap.Step.preserves (b c : ImageBitmap) (hs : ImageBitmap.Step b c)
    (hinv : b.is_neutered_ = true → b.image_ = none) :
    (c.is_neutered_ = true → c.image_ = none) ∧
      (b.is_neutered_ = true → c.is_neutered_ = true) := by
  cases hs with
  | transfer hn hi => exact ⟨fun _ => rfl, fun _ => rfl⟩
  | close =>
    by_cases h : b.image_ = none ∨ b.is_neutered_ = true
    · rw [ImageBitmap.close_of_idle b h]
      exact ⟨hinv, fun hb => hb⟩
    · have hi : b.image_.isSome = true := by
        cases hb : b.image_ with
        | none => exact absurd (Or.inl hb) h
        | some i => rfl
      have hn : b.is_neutered_ = false := by
        cases hb : b.is_neutered_ with
        | false => rfl
        | true => exact absurd (Or.inr hb) h
      rw [ImageBitmap.close_of_live b hi hn]
      exact ⟨fun _ => rfl, fun _ => rfl⟩

theorem ImageBitmap.Reachable.invariant (b0 b : ImageBitmap) (hr : ImageBitmap.Reachable b0 b)
    (hinv : b0.is_neutered_ = true → b0.image_ = none) :
    (b.is_neutered_ = true → b.image_ = none) ∧
      (b0.is_neutered_ = true → b.is_neutered_ = true) := by
  induction hr with
  | refl => exact ⟨hinv, fun h => h⟩
  | tail _ hstep ih =>
    obtain ⟨h1, h2⟩ := ImageBitmap.Step.preserves _ _ hstep ih.1
    exact ⟨h1, fun h => h2 (ih.2 h)⟩

/-- C17: in every state reached from a freshly constructed bitmap (not neutered)
by any sequence of `Transfer()` (on a non-neutered bitmap with an image) and
`close()`, a neutered bitmap holds no image; a bitmap without image has
`width()` = 0, `height()` = 0, the empty `Size()` and `IsAccelerated()` false;
and every state reached from a neutered one is neutered. -/
theorem ImageBitmap.neutered_invariant (b0 b : ImageBitmap) (hnew : b0.is_neutered_ = false)
    (hr : ImageBitmap.Reachable b0 b) :
    (b.IsNeutered = true → b.image_ = none) ∧
      (b.image_ = none →
        b.width = 0 ∧ b.height = 0 ∧ b.Size = IntSize.zero ∧ b.IsAccelerated = false) ∧
      (∀ c, ImageBitmap.Reachable b c → b.IsNeutered = true → c.IsNeutered = true) := by
  have hinv0 : b0.is_neutered_ = true → b0.image_ = none := by
    intro h
    rw [hnew] at h
    exact absurd h (by decide)
  have hb := (ImageBitmap.Reachable.invariant b0 b hr hinv0).1
  refine ⟨hb, ImageBitmap.accessors_of_no_image b, ?_⟩
  intro c hc
  exact (ImageBitmap.Reachable.invariant b c hc hb).2

/-- Witness of C17: a bitmap holding the sample image, transferred and then closed. -/
theorem ImageBitmap.neutered_invariant_witness :
    ((ImageBitmap.mk (some sampleImage) false).Transfer.2.close.IsNeutered = true →
        (ImageBitmap.mk (some sampleImage) false).Transfer.2.close.image_ = none) ∧
      ((ImageBitmap.mk (some sampleImage) false).Transfer.2.close.image_ = none →
        (ImageBitmap.mk (some sampleImage) false).Transfer.2.close.width = 0 ∧
          (ImageBitmap.mk (some sampleImage) false).Transfer.2.close.height = 0 ∧
          (ImageBitmap.mk (some sampleImage) false).Transfer.2.close.Size = IntSize.zero ∧
          (ImageBitmap.mk (some sampleImage) false).Transfer.2.close.IsAccelerated = false) :=
  have h := ImageBitmap.neutered_invariant (ImageBitmap.mk (some sampleImage) false)
    (ImageBitmap.mk (some sampleImage) false).Transfer.2.close rfl
    (Relation.ReflTransGen.tail
      (Relation.ReflTransGen.single
        (ImageBitmap.Step.transfer (ImageBitmap.mk (some sampleImage) false) rfl rfl))
      (ImageBitmap.Step.close _))
  ⟨h.1, h.2.1⟩

/-! ## Origin-clean propagation -/

theorem finishWith_originClean (r : Option StaticBitmapImage × List Stage) (flag : Bool)
    (img : StaticBitmapImage) (h : (finishWith r flag).1.image_ = some img) :
    img.OriginClean = flag := by
  unfold finishWith at h
  cases hr : r.1 with
  | none =>
    rw [hr] at h
    cases h
  | some image =>
    rw [hr] at h
    simp only [Option.some.injEq] at h
    rw [← h]
    rfl

theorem ImageBitmap.ofStaticBitmapImage_originClean (sk : Skia) (ub : F32 → Nat)
    (image : StaticBitmapImage) (crop_rect : Option IntRect) (options : ImageBitmapOptions)
    (img : StaticBitmapImage)
    (h : (ImageBitmap.ofStaticBitmapImage sk ub image crop_rect options).1.image_ = some img) :
    img.OriginClean = image.OriginClean := by
  unfold ImageBitmap.ofStaticBitmapImage at h
  simp only [] at h
  by_cases hov :
      DstBufferSizeHasOverflow (StaticBitmapImageParsedOptions ub image crop_rect options) = true
  · rw [if_pos hov] at h
    cases h
  · rw [if_neg hov] at h
    exact finishWith_originClean _ _ _ h

theorem ImageBitmap.ofImageBitmap_originClean (sk : Skia) (ub : F32 → Nat)
    (bitmap : ImageBitmap) (crop_rect : Option IntRect) (options : ImageBitmapOptions)
    (img : StaticBitmapImage)
    (h : (ImageBitmap.ofImageBitmap sk ub bitmap crop_rect options).1.image_ = some img) :
    img.OriginClean = bitmap.OriginClean := by
  unfold ImageBitmap.ofImageBitmap at h
  cases hb : bitmap.BitmapImage with
  | none =>
    rw [hb] at h
    cases h
  | some input =>
    rw [hb] at h
    simp only [] at h
    by_cases hov :
        DstBufferSizeHasOverflow (StaticBitmapImageParsedOptions ub input crop_rect options) = true
    · rw [if_pos hov] at h
      cases h
    · rw [if_neg hov] at h
      exact finishWith_originClean _ _ _ h

theorem ImageBitmap.ofCanvas_originClean (sk : Skia) (ub : F32 → Nat)
    (canvas : CanvasSource) (crop_rect : Option IntRect) (options : ImageBitmapOptions)
    (img : StaticBitmapImage)
    (h : (ImageBitmap.ofCanvas sk ub canvas crop_rect options).1.image_ = some img) :
    img.OriginClean = canvas.originClean := by
  cases hst : canvas.statusIsNormal with
  | false =>
    simp only [ImageBitmap.ofCanvas, hst, Bool.not_false, if_true, ImageBitmap.empty] at h
    cases h
  | true =>
    by_cases hov : DstBufferSizeHasOverflow (CanvasParsedOptions ub canvas crop_rect options) = true
    · simp only [ImageBitmap.ofCanvas, hst, Bool.not_true, Bool.false_eq_true, if_false, hov,
        if_true, ImageBitmap.empty] at h
      cases h
    · simp only [ImageBitmap.ofCanvas, hst, Bool.not_true, Bool.false_eq_true, if_false, hov]
        at h
      exact finishWith_originClean _ _ _ h

/-- C18: whenever construction yields an image, blank or not, a bitmap built from
another ImageBitmap or from an image handle carries the origin-clean flag of
its source, and a bitmap built from a canvas or an offscreen canvas carries the
`OriginClean()` of the canvas; so a source that is not origin-clean never
yields an origin-clean bitmap, for every crop rectangle and options value. -/
theorem ImageBitmap.Create_originClean (sk : Skia) (ub : F32 → Nat)
    (crop_rect : Option IntRect) (options : ImageBitmapOptions) (img : StaticBitmapImage) :
    (∀ bitmap : ImageBitmap,
        (ImageBitmap.Create sk ub (.imageBitmap bitmap) crop_rect options).1.image_ = some img →
        img.OriginClean = bitmap.OriginClean ∧
          (bitmap.OriginClean = false → img.OriginClean = false)) ∧
      (∀ image : StaticBitmapImage,
        (ImageBitmap.Create sk ub (.staticBitmapImage image) crop_rect options).1.image_
          = some img →
        img.OriginClean = image.OriginClean ∧
          (image.OriginClean = false → img.OriginClean = false)) ∧
      (∀ canvas : CanvasSource,
        (ImageBitmap.Create sk ub (.canvas canvas) crop_rect options).1.image_ = some img →
        img.OriginClean = canvas.originClean ∧
          (canvas.originClean = false → img.OriginClean = false)) ∧
      (∀ canvas : CanvasSource,
        (ImageBitmap.Create sk ub (.offscreenCanvas canvas) crop_rect options).1.image_
          = some img →
        img.OriginClean = canvas.originClean ∧
          (canvas.originClean = false → img.OriginClean = false)) := by
  simp only [ImageBitmap.Create]
  refine ⟨?_, ?_, ?_, ?_⟩
  · intro bitmap h
    have e := ImageBitmap.ofImageBitmap_originClean sk ub bitmap crop_rect options img h
    exact ⟨e, fun hf => e.trans hf⟩
  · intro image h
    have e := ImageBitmap.ofStaticBitmapImage_originClean sk ub image crop_rect options img h
    exact ⟨e, fun hf => e.trans hf⟩
  · intro canvas h
    have e := ImageBitmap.ofCanvas_originClean sk ub canvas crop_rect options img h
    exact ⟨e, fun hf => e.trans hf⟩
  · intro canvas h
    have e := ImageBitmap.ofCanvas_originClean sk ub canvas crop_rect options img h
    exact ⟨e, fun hf => e.trans hf⟩

/-- Witness of C18: a crop outside a 100 x 100 image handle that is not
origin-clean yields the blank 10 x 10 image, and that image is not origin-clean. -/
theorem ImageBitmap.Create_originClean_witness :
    (ImageBitmap.Create sampleSkia (fun _ => 0) (.staticBitmapImage taintedSampleImage)
        (some ⟨200, 200, 10, 10⟩) ImageBitmapOptions.defaults).1.image_ =
        some taintedBlankImage ∧
      taintedBlankImage.OriginClean = false :=
  have h : (ImageBitmap.Create sampleSkia (fun _ => 0) (.staticBitmapImage taintedSampleImage)
      (some ⟨200, 200, 10, 10⟩) ImageBitmapOptions.defaults).1.image_ =
      some taintedBlankImage := by rfl
  ⟨h, ((ImageBitmap.Create_originClean sampleSkia (fun _ => 0) (some ⟨200, 200, 10, 10⟩)
    ImageBitmapOptions.defaults taintedBlankImage).2.1 taintedSampleImage h).2 rfl⟩

/-! ## The asynchronous entry point: rejection and resolution -/

/-- C19: `CreateAsync` rejects with null, and does not resolve, when the overflow
guard fires or the blank image of an empty intersection cannot be made;
`ResolvePromiseOnOriginalThread` rejects with null, and does not resolve, when
the rasterized image is null, when the unpremultiply step returns null, or when
the colour-space conversion returns null; otherwise it makes exactly one call,
a `Resolve` with a bitmap whose image carries the origin-clean flag passed in. -/
theorem async_rejects_with_null (sk : Skia) (ub : F32 → Nat) (image : ImageElementBase)
    (paint : IntRect → IntRect → Bool → SkImageInfo → List Nat)
    (crop_rect : Option IntRect) (options : ImageBitmapOptions) (origin_clean : Bool)
    (parsed_options : ParsedOptions) :
    (DstBufferSizeHasOverflow (ParseOptions ub options crop_rect image.bitmapSourceSize) = true →
        CreateAsync sk ub image paint crop_rect options = ([.RejectNull], none)) ∧
      (DstBufferSizeHasOverflow (ParseOptions ub options crop_rect image.bitmapSourceSize)
          = false →
        (Intersection ⟨0, 0, image.cachedImage.Size.width, image.cachedImage.Size.height⟩
          (ParseOptions ub options crop_rect image.bitmapSourceSize).crop_rect).IsEmpty = true →
        MakeBlankImage sk (ParseOptions ub options crop_rect image.bitmapSourceSize) = none →
        CreateAsync sk ub image paint crop_rect options = ([.RejectNull], none)) ∧
      ResolvePromiseOnOriginalThread sk none origin_clean parsed_options = [.RejectNull] ∧
      (∀ skia_image, AsyncAlphaStep sk skia_image parsed_options = none →
        ResolvePromiseOnOriginalThread sk (some skia_image) origin_clean parsed_options =
          [.RejectNull]) ∧
      (∀ skia_image converted, AsyncAlphaStep sk skia_image parsed_options = some converted →
        ApplyColorSpaceConversion sk converted parsed_options = none →
        ResolvePromiseOnOriginalThread sk (some skia_image) origin_clean parsed_options =
          [.RejectNull]) ∧
      (∀ skia_image converted result,
        AsyncAlphaStep sk skia_image parsed_options = some converted →
        ApplyColorSpaceConversion sk converted parsed_options = some result →
        ResolvePromiseOnOriginalThread sk (some skia_image) origin_clean parsed_options =
            [.Resolve ⟨some (result.SetOriginClean origin_clean), false⟩] ∧
          (result.SetOriginClean origin_clean).OriginClean = origin_clean) := by
  refine ⟨?_, ?_, rfl, ?_, ?_, ?_⟩
  · intro hov
    simp only [CreateAsync, hov, if_true]
  · intro hov hempty hblank
    simp only [CreateAsync, hov, Bool.false_eq_true, if_false, hempty, if_true, hblank]
  · intro skia_image ha
    simp only [ResolvePromiseOnOriginalThread, ha]
  · intro skia_image converted ha hc
    simp only [ResolvePromiseOnOriginalThread, ha, hc]
  · intro skia_image converted result ha hc
    refine ⟨?_, rfl⟩
    simp only [ResolvePromiseOnOriginalThread, ha, hc]

/-- Witness of C19: the sample frame, rasterized and premultiplied, resolves once
with an origin-clean bitmap. -/
theorem async_rejects_with_null_witness :
    ResolvePromiseOnOriginalThread sampleSkia (some sampleImage.skImage) true
        ParsedOptions.default =
      [.Resolve ⟨some ((StaticBitmapImage.Create sampleImage.skImage).SetOriginClean true),
        false⟩] :=
  ((async_rejects_with_null sampleSkia (fun _ => 0) ⟨sampleImage, ⟨100, 100⟩, false⟩
    (fun _ _ _ _ => []) none ImageBitmapOptions.defaults true ParsedOptions.default).2.2.2.2.2
    sampleImage.skImage (StaticBitmapImage.Create sampleImage.skImage)
    (StaticBitmapImage.Create sampleImage.skImage) rfl rfl).1

/-! ## Null propagation in the pipeline -/

/-- C20, evaluation at the failing input: a premultiplied 1 x 1 image, options
asking for an unpremultiplied 2 x 2 result, and a buffer allocation that fails
in the readback of the alpha conversion. The alpha conversion returns null, and
the pipeline still invokes the scale stage after it, also when entered through
the constructor from an image handle with the creation options parsed. -/
theorem ApplyStages_scales_after_null_alpha :
    GetImageWithAlphaDisposition noBufferSkia samplePixel .kUnpremultiplyAlpha = none ∧
      ApplyStages noBufferSkia samplePixel [] upscaleUnpremulOptions =
        (none, [.alphaConversion, .scale]) ∧
      CropImageAndApplyColorSpaceConversion noBufferSkia samplePixel upscaleUnpremulOptions =
        (none, [.alphaConversion, .scale]) ∧
      ImageBitmap.Create noBufferSkia (fun _ => 0) (.staticBitmapImage samplePixel) none
          upscaleUnpremulRequest =
        (ImageBitmap.empty, [.colorConversion, .alphaConversion, .scale]) := by
  refine ⟨by rfl, by rfl, by rfl, by rfl⟩

/-! ## Empty intersection -/

/-- The alpha conversion keeps the dimensions of the image. -/
theorem GetImageWithAlphaDisposition_size (sk : Skia) (image out : StaticBitmapImage)
    (d : AlphaDisposition) (h : GetImageWithAlphaDisposition sk image d = some out) :
    out.Size = image.Size := by
  by_cases hd : d = .kDontChangeAlpha
  · unfold GetImageWithAlphaDisposition at h
    rw [if_pos hd] at h
    cases h
    rfl
  obtain ⟨target, ht⟩ : ∃ t, t = (if d = .kPremultiplyAlpha then SkAlphaType.kPremul_SkAlphaType
      else SkAlphaType.kUnpremul_SkAlphaType) := ⟨_, rfl⟩
  rw [GetImageWithAlphaDisposition_eq sk image target d hd ht] at h
  by_cases h1 : image.skImage.alphaType = target
  · rw [if_pos h1] at h
    cases h
    rfl
  · rw [if_neg h1] at h
    by_cases h2 : target = .kUnpremul_SkAlphaType ∨ wrapInt (image.width * image.height) < 16384
    · rw [if_pos h2] at h
      cases hc : CopyImageDataWithInfo sk image
          (((GetSkImageInfo image.skImage).makeAlphaType target).makeColorSpace none) 0 0 with
      | none =>
        rw [hc] at h
        cases h
      | some px =>
        rw [hc] at h
        cases h
        rfl
    · rw [if_neg h2] at h
      obtain ⟨info, hinfo⟩ : ∃ i, i =
          (if ((GetSkImageInfo image.skImage).makeAlphaType target).colorSpace =
              some SkColorSpace.MakeSRGB then
            ((GetSkImageInfo image.skImage).makeAlphaType target).makeColorSpace none
          else (GetSkImageInfo image.skImage).makeAlphaType target) := ⟨_, rfl⟩
      have hw : info.width = image.skImage.width := by
        rw [hinfo]
        split <;> rfl
      have hh : info.height = image.skImage.height := by
        rw [hinfo]
        split <;> rfl
      rw [← hinfo] at h
      by_cases hm : (!sk.makeRaster info) = true
      · rw [if_pos hm] at h
        cases h
      · rw [if_neg hm] at h
        cases h
        show (⟨info.width, info.height⟩ : IntSize) = ⟨image.skImage.width, image.skImage.height⟩
        rw [hw, hh]

/-- The vertical flip keeps the dimensions of the image. -/
theorem FlipImageVertically_size (sk : Skia) (input out : StaticBitmapImage)
    (parsed_options : ParsedOptions)
    (h : FlipImageVertically sk input parsed_options = some out) : out.Size = input.Size := by
  unfold FlipImageVertically at h
  by_cases hp : ShouldAvoidPremul parsed_options = true
  · rw [if_pos hp] at h
    cases hc : CopyImageData sk input with
    | none =>
      rw [hc] at h
      cases h
    | some px =>
      rw [hc] at h
      cases h
      rfl
  · rw [if_neg hp] at h
    by_cases hm : (!sk.makeRaster (GetSkImageInfo input.skImage)) = true
    · simp only [hm, if_true] at h
      cases h
    · simp only [hm, if_false] at h
      cases h
      rfl

/-- A checked step with a stage that keeps the dimensions keeps them. -/
theorem pipelineStep_size (s : Option StaticBitmapImage × List Stage) (stage : Stage)
    (f : StaticBitmapImage → Option StaticBitmapImage) (n : IntSize)
    (hf : ∀ i o, f i = some o → o.Size = i.Size)
    (hs : ∀ i, s.1 = some i → i.Size = n) :
    ∀ o, (pipelineStep s stage f).1 = some o → o.Size = n := by
  intro o ho
  unfold pipelineStep at ho
  cases h1 : s.1 with
  | none =>
    rw [h1] at ho
    simp only at ho
    rw [h1] at ho
    cases ho
  | some i =>
    rw [h1] at ho
    simp only at ho
    rw [hf i o ho]
    exact hs i h1

/-- The stages after the crop, when the input is not scaled. -/
theorem ApplyStages_unscaled (sk : Skia) (result : StaticBitmapImage) (trace : List Stage)
    (parsed_options : ParsedOptions) (hs : parsed_options.should_scale_input = false) :
    ApplyStages sk result trace parsed_options =
      pipelineStep
        (if parsed_options.has_color_space_conversion then
          pipelineStep
            (if parsed_options.flip_y then
              pipelineStep (some result, trace) .flip
                (fun i => FlipImageVertically sk i parsed_options)
            else (some result, trace))
            .colorConversion (fun i => ApplyColorSpaceConversion sk i parsed_options)
        else
          (if parsed_options.flip_y then
            pipelineStep (some result, trace) .flip
              (fun i => FlipImageVertically sk i parsed_options)
          else (some result, trace)))
        .alphaConversion
        (fun i => GetImageWithAlphaDisposition sk i
          (if parsed_options.premultiply_alpha then .kPremultiplyAlpha
            else .kUnpremultiplyAlpha)) := by
  simp only [ApplyStages, IsDownScaling, hs, Bool.false_and, Bool.false_eq_true, if_false]

/-- Without scaling the stages after the crop keep the dimensions, when the
colour-space conversion of the graphics library does. -/
theorem ApplyStages_size (sk : Skia) (result out : StaticBitmapImage) (trace : List Stage)
    (parsed_options : ParsedOptions)
    (hconv : ∀ i cs b o, sk.convertToColorSpace i cs b = some o → o.Size = i.Size)
    (hs : parsed_options.should_scale_input = false)
    (h : (ApplyStages sk result trace parsed_options).1 = some out) :
    out.Size = result.Size := by
  rw [ApplyStages_unscaled sk result trace parsed_options hs] at h
  have h0 : ∀ i, ((some result, trace) : Option StaticBitmapImage × List Stage).1 = some i →
      i.Size = result.Size := by
    intro i hi
    cases hi
    rfl
  have h1 : ∀ i, (if parsed_options.flip_y then
        pipelineStep (some result, trace) .flip
          (fun i => FlipImageVertically sk i parsed_options)
      else (some result, trace)).1 = some i → i.Size = result.Size := by
    intro i hi
    by_cases hf : parsed_options.flip_y = true
    · rw [if_pos hf] at hi
      exact pipelineStep_size _ _ _ result.Size
        (fun a o => FlipImageVertically_size sk a o parsed_options) h0 i hi
    · rw [if_neg hf] at hi
      exact h0 i hi
  refine pipelineStep_size _ _ _ result.Size
    (fun a o => GetImageWithAlphaDisposition_size sk a o _) ?_ out h
  intro i hi
  by_cases hc : parsed_options.has_color_space_conversion = true
  · rw [if_pos hc] at hi
    exact pipelineStep_size _ _ _ result.Size
      (fun a o ha => hconv a _ _ o ha) h1 i hi
  · rw [if_neg hc] at hi
    exact h1 i hi

/-- The frame the pipeline works on has the dimensions of the image, when the
decoder yields a frame of the dimensions of the image it decodes. -/
theorem DecodeIfNeeded_size (sk : Skia) (image : Image) (parsed_options : ParsedOptions)
    (skia_image : SkImage) (trace : List Stage)
    (hdec : ∀ d p c o, image.data = some d → sk.decode d p c = some o →
      o.width = image.width ∧ o.height = image.height)
    (h : DecodeIfNeeded sk image parsed_options = (some skia_image, trace)) :
    skia_image.width = image.width ∧ skia_image.height = image.height := by
  unfold DecodeIfNeeded at h
  cases hd : image.data with
  | none =>
    rw [hd] at h
    simp only [Prod.mk.injEq, Option.some.injEq] at h
    rw [← h.1]
    exact ⟨rfl, rfl⟩
  | some d =>
    rw [hd] at h
    simp only at h
    split at h
    · cases ho : sk.decode d parsed_options.premultiply_alpha
          parsed_options.has_color_space_conversion with
      | none =>
        rw [ho] at h
        simp only [Prod.mk.injEq] at h
        exact absurd h.1 (by simp)
      | some o =>
        have hsz := hdec d _ _ o hd ho
        rw [ho] at h
        simp only at h
        split at h
        · split at h
          · simp only [Prod.mk.injEq, Option.some.injEq] at h
            rw [← h.1]
            exact hsz
          · simp only [Prod.mk.injEq] at h
            exact absurd h.1 (by simp)
        · simp only [Prod.mk.injEq, Option.some.injEq] at h
          rw [← h.1]
          exact hsz
    · simp only [Prod.mk.injEq, Option.some.injEq] at h
      rw [← h.1]
      exact ⟨rfl, rfl⟩

/-- A crop rectangle inside the source bounds is its own intersection with them. -/
theorem Intersection_of_inside (W H : Int) (c : IntRect) (hx : 0 ≤ c.x) (hy : 0 ≤ c.y)
    (hw : 0 < c.width) (hh : 0 < c.height) (hxw : c.x + c.width ≤ W) (hyh : c.y + c.height ≤ H)
    (hW : W ≤ kIntMax) (hH : H ≤ kIntMax) : Intersection ⟨0, 0, W, H⟩ c = c := by
  have e1 : wrapInt (0 + W) = W := by
    rw [zero_add]
    exact wrapInt_of_isInt _ ⟨by unfold kIntMin; omega, by omega⟩
  have e2 : wrapInt (0 + H) = H := by
    rw [zero_add]
    exact wrapInt_of_isInt _ ⟨by unfold kIntMin; omega, by omega⟩
  have e3 : wrapInt (c.x + c.width) = c.x + c.width :=
    wrapInt_of_isInt _ ⟨by unfold kIntMin; omega, by omega⟩
  have e4 : wrapInt (c.y + c.height) = c.y + c.height :=
    wrapInt_of_isInt _ ⟨by unfold kIntMin; omega, by omega⟩
  have e5 : wrapInt c.width = c.width :=
    wrapInt_of_isInt _ ⟨by unfold kIntMin; omega, by omega⟩
  have e6 : wrapInt c.height = c.height :=
    wrapInt_of_isInt _ ⟨by unfold kIntMin; omega, by omega⟩
  simp only [Intersection, IntRect.X, IntRect.Y, IntRect.MaxX, IntRect.MaxY, e1, e2, e3, e4]
  rw [max_eq_right hx, max_eq_right hy, min_eq_right hxw, min_eq_right hyh]
  rw [if_neg (by omega)]
  have a1 : c.x + c.width - c.x = c.width := by omega
  have a2 : c.y + c.height - c.y = c.height := by omega
  rw [a1, a2, e5, e6]

/-- C13: with a non-empty intersection and no scaling, an output image that the
pipeline produces has the dimensions of the intersection of the crop rectangle
with the source bounds, and those of the crop rectangle when it lies inside the
bounds. The graphics library is taken to crop to the rectangle it is given, to
convert colours without resizing, and to decode a frame of the image size. -/
theorem output_dimensions_unscaled (sk : Skia) (image out : Image)
    (parsed_options : ParsedOptions)
    (hsub : ∀ i r, (sk.makeSubset i r).width = r.width ∧ (sk.makeSubset i r).height = r.height)
    (hconv : ∀ i cs b o, sk.convertToColorSpace i cs b = some o → o.Size = i.Size)
    (hdec : ∀ d p c o, image.data = some d → sk.decode d p c = some o →
      o.width = image.width ∧ o.height = image.height)
    (hne : (Intersection ⟨0, 0, image.width, image.height⟩ parsed_options.crop_rect).IsEmpty
      = false)
    (hs : parsed_options.should_scale_input = false)
    (h : (CropImageAndApplyColorSpaceConversion sk image parsed_options).1 = some out) :
    out.Size = (Intersection ⟨0, 0, image.width, image.height⟩ parsed_options.crop_rect).Size ∧
      (0 ≤ parsed_options.crop_rect.x → 0 ≤ parsed_options.crop_rect.y →
        0 < parsed_options.crop_rect.width → 0 < parsed_options.crop_rect.height →
        parsed_options.crop_rect.x + parsed_options.crop_rect.width ≤ image.width →
        parsed_options.crop_rect.y + parsed_options.crop_rect.height ≤ image.height →
        image.width ≤ kIntMax → image.height ≤ kIntMax →
        out.Size = parsed_options.crop_rect.Size) := by
  have main : out.Size =
      (Intersection ⟨0, 0, image.width, image.height⟩ parsed_options.crop_rect).Size := by
    unfold CropImageAndApplyColorSpaceConversion at h
    simp only [hne, Bool.false_eq_true, if_false] at h
    obtain ⟨r, hr⟩ : ∃ r, r = DecodeIfNeeded sk image parsed_options := ⟨_, rfl⟩
    rw [← hr] at h
    obtain ⟨frame, trace⟩ := r
    cases frame with
    | none =>
      simp only at h
      cases h
    | some skia_image =>
      simp only at h
      have hsz := DecodeIfNeeded_size sk image parsed_options skia_image trace hdec hr.symm
      by_cases hq : Intersection ⟨0, 0, image.width, image.height⟩ parsed_options.crop_rect =
          ⟨0, 0, image.width, image.height⟩
      · rw [if_neg (not_not.mpr hq)] at h
        rw [ApplyStages_size sk _ out trace parsed_options hconv hs h, hq]
        show (⟨skia_image.width, skia_image.height⟩ : IntSize) = ⟨image.width, image.height⟩
        rw [hsz.1, hsz.2]
      · rw [if_pos hq] at h
        rw [ApplyStages_size sk _ out _ parsed_options hconv hs h]
        show (⟨(sk.makeSubset skia_image _).width, (sk.makeSubset skia_image _).height⟩ :
          IntSize) = _
        rw [(hsub _ _).1, (hsub _ _).2]
        rfl
  refine ⟨main, ?_⟩
  intro hx hy hw hh hxw hyh hW hH
  rw [main, Intersection_of_inside image.width image.height parsed_options.crop_rect
    hx hy hw hh hxw hyh hW hH]

/-- Witness of C13: a 100 x 100 source with the crop rectangle (50, 50, 100, 100)
gives a 50 x 50 output. -/
theorem output_dimensions_unscaled_witness :
    (CropImageAndApplyColorSpaceConversion sampleSkia sampleImage overhangCropOptions).1 =
        some (StaticBitmapImage.Create
          (sampleSkia.makeSubset sampleImage.skImage ⟨50, 50, 50, 50⟩)) ∧
      (StaticBitmapImage.Create
        (sampleSkia.makeSubset sampleImage.skImage ⟨50, 50, 50, 50⟩)).Size = ⟨50, 50⟩ :=
  have h : (CropImageAndApplyColorSpaceConversion sampleSkia sampleImage
      overhangCropOptions).1 =
      some (StaticBitmapImage.Create
        (sampleSkia.makeSubset sampleImage.skImage ⟨50, 50, 50, 50⟩)) := by rfl
  ⟨h, (output_dimensions_unscaled sampleSkia sampleImage _ overhangCropOptions
    (fun _ _ => ⟨rfl, rfl⟩) (fun _ _ _ _ e => by cases e; rfl)
    (fun _ _ _ _ e => by cases e) (by rfl) (by rfl) h).1⟩

/-! ## The row-swap vertical flip -/

/-- An exchange of two bytes keeps the length of the buffer. -/
theorem swapBytes_length (buf : List Nat) (a b : Nat) :
    (swapBytes buf a b).length = buf.length := by
  simp only [swapBytes, List.length_set]

/-- The bytes of a buffer after an exchange of two of them. -/
theorem swapBytes_getD (buf : List Nat) (a b k : Nat) (ha : a < buf.length)
    (hb : b < buf.length) :
    (swapBytes buf a b).getD k 0 =
      if k = b then buf.getD a 0 else if k = a then buf.getD b 0 else buf.getD k 0 := by
  simp only [swapBytes, List.getD_eq_getElem?_getD, List.getElem?_set, List.length_set]
  by_cases h1 : k = b
  · subst h1
    simp [hb]
  · by_cases h2 : k = a
    · subst h2
      simp [h1, ha, Ne.symm h1]
    · simp [h1, h2, Ne.symm h1, Ne.symm h2]


/-- The bytes of a buffer after the exchange of two disjoint ranges of `n` bytes. -/
theorem swap_fold_spec (f1 f2 : Nat) : ∀ (n : Nat) (buf : List Nat), f1 + n ≤ f2 →
    f2 + n ≤ buf.length →
    ((List.range n).foldl (fun acc j => swapBytes acc (f1 + j) (f2 + j)) buf).length =
        buf.length ∧
      ∀ k, ((List.range n).foldl (fun acc j => swapBytes acc (f1 + j) (f2 + j)) buf).getD k 0 =
        if f1 ≤ k ∧ k < f1 + n then buf.getD (f2 + (k - f1)) 0
        else if f2 ≤ k ∧ k < f2 + n then buf.getD (f1 + (k - f2)) 0
        else buf.getD k 0 := by
  intro n
  induction n with
  | zero =>
    intro buf _ _
    refine ⟨rfl, fun k => ?_⟩
    simp only [List.range_zero, List.foldl_nil, Nat.add_zero]
    rw [if_neg (by omega), if_neg (by omega)]
  | succ n ih =>
    intro buf h1 h2
    obtain ⟨hl, hg⟩ := ih buf (by omega) (by omega)
    rw [List.range_succ, List.foldl_append, List.foldl_cons, List.foldl_nil]
    refine ⟨by rw [swapBytes_length, hl], fun k => ?_⟩
    have hA := hg (f1 + n)
    rw [if_neg (show ¬(f1 ≤ f1 + n ∧ f1 + n < f1 + n) by omega),
      if_neg (show ¬(f2 ≤ f1 + n ∧ f1 + n < f2 + n) by omega)] at hA
    have hB := hg (f2 + n)
    rw [if_neg (show ¬(f1 ≤ f2 + n ∧ f2 + n < f1 + n) by omega),
      if_neg (show ¬(f2 ≤ f2 + n ∧ f2 + n < f2 + n) by omega)] at hB
    rw [swapBytes_getD _ _ _ _ (by rw [hl]; omega) (by rw [hl]; omega), hA, hB, hg k]
    split_ifs <;> first | rfl | (congr 1; omega)

/-- The call `swap_ranges` on two disjoint ranges inside the buffer. -/
theorem swap_ranges_spec (buf : List Nat) (f1 f2 n : Nat) (h1 : f1 + n ≤ f2)
    (h2 : f2 + n ≤ buf.length) :
    (swap_ranges buf f1 (f1 + n) f2).length = buf.length ∧
      ∀ k, (swap_ranges buf f1 (f1 + n) f2).getD k 0 =
        if f1 ≤ k ∧ k < f1 + n then buf.getD (f2 + (k - f1)) 0
        else if f2 ≤ k ∧ k < f2 + n then buf.getD (f1 + (k - f2)) 0
        else buf.getD k 0 := by
  unfold swap_ranges
  rw [Nat.add_sub_cancel_left]
  exact swap_fold_spec f1 f2 n buf h1 h2

/-- Rows do not overlap: row `a` ends before row `b` starts when `a < b`. -/
theorem row_le (a b rb : Nat) (h : a < b) : a * rb + rb ≤ b * rb := by
  have e : a * rb + rb = (a + 1) * rb := by ring
  rw [e]
  exact Nat.mul_le_mul_right rb h

/-- The buffer after `m` iterations of the row-swap loop: the first and the last
`m` rows are exchanged in mirror order, the rows between are as before. -/
theorem FlipRows_fold_spec (buf : List Nat) (rb H : Nat) (hlen : buf.length = H * rb)
    (hfit : H * rb ≤ 4294967295) (hH : H ≤ 2147483647) : ∀ m, m ≤ H / 2 →
    ((List.range m).foldl
        (fun acc i =>
          swap_ranges acc (i * rb % 4294967296) ((i + 1) * rb % 4294967296)
            (wrapUnsigned ((H : Int) - 1 - (i : Int)) * rb % 4294967296)) buf).length =
        buf.length ∧
      ∀ r c, r < H → c < rb →
        ((List.range m).foldl
          (fun acc i =>
            swap_ranges acc (i * rb % 4294967296) ((i + 1) * rb % 4294967296)
              (wrapUnsigned ((H : Int) - 1 - (i : Int)) * rb % 4294967296)) buf).getD
            (r * rb + c) 0 =
          if r < m ∨ H ≤ r + m then buf.getD ((H - 1 - r) * rb + c) 0
          else buf.getD (r * rb + c) 0 := by
  intro m
  induction m with
  | zero =>
    intro _
    refine ⟨rfl, fun r c hr hc => ?_⟩
    simp only [List.range_zero, List.foldl_nil]
    rw [if_neg (by omega)]
  | succ m ih =>
    intro hm
    obtain ⟨hl, hg⟩ := ih (by omega)
    rw [List.range_succ, List.foldl_append, List.foldl_cons, List.foldl_nil]
    have q1 : m + 1 ≤ H - 1 - m := by omega
    have q2 : H - 1 - m < H := by omega
    have b1 := row_le m (H - 1 - m) rb (by omega)
    have b2 := row_le (H - 1 - m) H rb q2
    have e1 : m * rb % 4294967296 = m * rb := Nat.mod_eq_of_lt (by omega)
    have e2 : (m + 1) * rb % 4294967296 = m * rb + rb := by
      have e : (m + 1) * rb = m * rb + rb := by ring
      rw [e]
      exact Nat.mod_eq_of_lt (by omega)
    have e3 : wrapUnsigned ((H : Int) - 1 - (m : Int)) = H - 1 - m := by
      unfold wrapUnsigned
      omega
    have e4 : (H - 1 - m) * rb % 4294967296 = (H - 1 - m) * rb := Nat.mod_eq_of_lt (by omega)
    simp only [e1, e2, e3, e4]
    obtain ⟨sl, sg⟩ := swap_ranges_spec
      ((List.range m).foldl
        (fun acc i =>
          swap_ranges acc (i * rb % 4294967296) ((i + 1) * rb % 4294967296)
            (wrapUnsigned ((H : Int) - 1 - (i : Int)) * rb % 4294967296)) buf)
      (m * rb) ((H - 1 - m) * rb) rb b1 (by rw [hl, hlen]; exact b2)
    refine ⟨by rw [sl, hl], fun r c hr hc => ?_⟩
    rw [sg]
    rcases Nat.lt_trichotomy r m with h | h | h
    · have c1 := row_le r m rb h
      have c2 := row_le r (H - 1 - m) rb (by omega)
      rw [if_neg (by omega), if_neg (by omega), hg r c hr hc, if_pos (Or.inl h),
        if_pos (Or.inl (by omega))]
    · subst h
      rw [if_pos (by omega)]
      have e : (H - 1 - r) * rb + (r * rb + c - r * rb) = (H - 1 - r) * rb + c := by omega
      rw [e, hg (H - 1 - r) c q2 hc, if_neg (by omega), if_pos (Or.inl (by omega))]
    · have c1 := row_le m r rb h
      rw [if_neg (by omega)]
      rcases Nat.lt_trichotomy r (H - 1 - m) with g | g | g
      · have c2 := row_le r (H - 1 - m) rb g
        rw [if_neg (by omega), hg r c hr hc, if_neg (by omega), if_neg (by omega)]
      · subst g
        rw [if_pos (by omega)]
        have e : m * rb + ((H - 1 - m) * rb + c - (H - 1 - m) * rb) = m * rb + c := by omega
        have e5 : H - 1 - (H - 1 - m) = m := by omega
        rw [e, hg m c (by omega) hc, if_neg (by omega), if_pos (Or.inr (by omega)), e5]
      · have c2 := row_le (H - 1 - m) r rb g
        rw [if_neg (by omega), hg r c hr hc, if_pos (Or.inr (by omega)),
          if_pos (Or.inr (by omega))]

/-- C14: on a buffer of `H` rows of `rb` bytes each, whose byte count is a value
of `unsigned`, the row-swap loop of `FlipImageVertically` yields a buffer of the
same length whose row `r` is row `H - 1 - r` of the input, byte for byte at the
same position `c` in the row; for odd `H` the middle row is unchanged. The
unpremultiplied path of `FlipImageVertically` returns the image of the buffer
this loop leaves. -/
theorem FlipRows_reverses_rows (buf : List Nat) (rb H : Nat) (hlen : buf.length = H * rb)
    (hfit : IsUnsigned (H * rb)) (hH : (H : Int) ≤ kIntMax) :
    (FlipRows buf rb (H : Int)).length = buf.length ∧
      (∀ r c, r < H → c < rb →
        (FlipRows buf rb (H : Int)).getD (r * rb + c) 0 =
          buf.getD ((H - 1 - r) * rb + c) 0) ∧
      (H % 2 = 1 → ∀ c, c < rb →
        (FlipRows buf rb (H : Int)).getD (H / 2 * rb + c) 0 = buf.getD (H / 2 * rb + c) 0) ∧
      (∀ (sk : Skia) (input : StaticBitmapImage) (parsed_options : ParsedOptions)
        (image_pixels : List Nat),
        ShouldAvoidPremul parsed_options = true → CopyImageData sk input = some image_pixels →
        FlipImageVertically sk input parsed_options =
          some (StaticBitmapImage.CreateFromPixels
            (FlipRows image_pixels
              (wrapUnsigned ((GetSkImageInfo input.skImage).width *
                ((GetSkImageInfo input.skImage).bytesPerPixel : Int)))
              (GetSkImageInfo input.skImage).height)
            (GetSkImageInfo input.skImage))) := by
  have e : ((H : Int) / 2).toNat = H / 2 := by omega
  have hfit2 : H * rb ≤ 4294967295 := hfit
  have hH2 : H ≤ 2147483647 := by
    unfold kIntMax at hH
    omega
  obtain ⟨hl, hg⟩ := FlipRows_fold_spec buf rb H hlen hfit2 hH2 (H / 2) (le_refl _)
  have rows : ∀ r c, r < H → c < rb →
      (FlipRows buf rb (H : Int)).getD (r * rb + c) 0 =
        buf.getD ((H - 1 - r) * rb + c) 0 := by
    intro r c hr hc
    unfold FlipRows
    rw [e, hg r c hr hc]
    by_cases h : r < H / 2 ∨ H ≤ r + H / 2
    · rw [if_pos h]
    · rw [if_neg h]
      have e2 : H - 1 - r = r := by omega
      rw [e2]
  refine ⟨?_, rows, ?_, ?_⟩
  · unfold FlipRows
    rw [e]
    exact hl
  · intro hodd c hc
    rw [rows (H / 2) c (by omega) hc]
    have e2 : H - 1 - H / 2 = H / 2 := by omega
    rw [e2]
  · intro sk input parsed_options image_pixels h1 h2
    simp only [FlipImageVertically, h1, if_true, h2]

/-- Witness of C14: a 2 x 2 image of 4-byte pixels with rows A = 1..8 and
B = 9..16 becomes the rows B, A. -/
theorem FlipRows_reverses_rows_witness :
    FlipRows [1, 2, 3, 4, 5, 6, 7, 8, 9, 10, 11, 12, 13, 14, 15, 16] 8 ((2 : Nat) : Int) =
        [9, 10, 11, 12, 13, 14, 15, 16, 1, 2, 3, 4, 5, 6, 7, 8] ∧
      ∀ r c, r < 2 → c < 8 →
        (FlipRows [1, 2, 3, 4, 5, 6, 7, 8, 9, 10, 11, 12, 13, 14, 15, 16] 8
            ((2 : Nat) : Int)).getD (r * 8 + c) 0 =
          [1, 2, 3, 4, 5, 6, 7, 8, 9, 10, 11, 12, 13, 14, 15, 16].getD
            ((2 - 1 - r) * 8 + c) 0 :=
  ⟨by rfl, (FlipRows_reverses_rows [1, 2, 3, 4, 5, 6, 7, 8, 9, 10, 11, 12, 13, 14, 15, 16] 8 2
    (by rfl) (by decide) (by decide)).2.1⟩

/-! ## Strategy selection -/

/-- With the source unpremultiplied and no premultiplication wanted, the flip is
the readback with the row-swap loop. -/
theorem FlipImageVertically_of_avoid (sk : Skia) (input : StaticBitmapImage)
    (parsed_options : ParsedOptions) (h : ShouldAvoidPremul parsed_options = true) :
    FlipImageVertically sk input parsed_options = FlipByRowSwap sk input := by
  simp only [FlipImageVertically, h, if_true, FlipByRowSwap]
  cases CopyImageData sk input <;> rfl

/-- In every other case the flip is the draw on a surface. -/
theorem FlipImageVertically_of_not_avoid (sk : Skia) (input : StaticBitmapImage)
    (parsed_options : ParsedOptions) (h : ShouldAvoidPremul parsed_options = false) :
    FlipImageVertically sk input parsed_options = FlipByDraw sk input := by
  simp only [FlipImageVertically, h, Bool.false_eq_true, if_false, FlipByDraw]
  cases sk.makeRaster (GetSkImageInfo input.skImage) <;> rfl

/-- C22: `FlipImageVertically` takes the readback-and-row-swap path exactly for
`source_is_unpremul` true and `premultiply_alpha` false, and the draw-based path
for each of the three other combinations of the two flags, whatever the other
options, the image and the graphics library are. -/
theorem FlipImageVertically_strategy (sk : Skia) (input : StaticBitmapImage)
    (parsed_options : ParsedOptions) :
    (ShouldAvoidPremul parsed_options = true ↔
        (parsed_options.source_is_unpremul = true ∧ parsed_options.premultiply_alpha = false)) ∧
      FlipImageVertically sk input
          { parsed_options with source_is_unpremul := true, premultiply_alpha := false } =
        FlipByRowSwap sk input ∧
      FlipImageVertically sk input
          { parsed_options with source_is_unpremul := true, premultiply_alpha := true } =
        FlipByDraw sk input ∧
      FlipImageVertically sk input
          { parsed_options with source_is_unpremul := false, premultiply_alpha := false } =
        FlipByDraw sk input ∧
      FlipImageVertically sk input
          { parsed_options with source_is_unpremul := false, premultiply_alpha := true } =
        FlipByDraw sk input := by
  refine ⟨?_, ?_, ?_, ?_, ?_⟩
  · unfold ShouldAvoidPremul
    cases parsed_options.source_is_unpremul <;> cases parsed_options.premultiply_alpha <;> decide
  · exact FlipImageVertically_of_avoid sk input _ rfl
  · exact FlipImageVertically_of_not_avoid sk input _ rfl
  · exact FlipImageVertically_of_not_avoid sk input _ rfl
  · exact FlipImageVertically_of_not_avoid sk input _ rfl

/-- C24: `ApplyColorSpaceConversion` requests the conversion to the colour space
of the target colour parameters with the transfer function ignored exactly when
the source image has no colour space or is unpremultiplied, and respected in
every other case. -/
theorem ApplyColorSpaceConversion_transfer_function (sk : Skia) (image : StaticBitmapImage)
    (options : ParsedOptions) :
    ((image.skImage.colorSpace = none ∨ image.skImage.alphaType = .kUnpremul_SkAlphaType) →
        ApplyColorSpaceConversion sk image options =
          sk.convertToColorSpace image (sk.colorSpaceForSkSurfaces options.color_params)
            .kIgnore) ∧
      (¬(image.skImage.colorSpace = none ∨ image.skImage.alphaType = .kUnpremul_SkAlphaType) →
        ApplyColorSpaceConversion sk image options =
          sk.convertToColorSpace image (sk.colorSpaceForSkSurfaces options.color_params)
            .kRespect) ∧
      (TransferFunctionBehaviorFor image.skImage = .kIgnore ↔
        (image.skImage.colorSpace = none ∨
          image.skImage.alphaType = .kUnpremul_SkAlphaType)) := by
  refine ⟨?_, ?_, ?_⟩
  · intro h
    simp only [ApplyColorSpaceConversion, TransferFunctionBehaviorFor, h, if_true]
  · intro h
    simp only [ApplyColorSpaceConversion, TransferFunctionBehaviorFor, h, if_false]
  · unfold TransferFunctionBehaviorFor
    by_cases h : image.skImage.colorSpace = none ∨
        image.skImage.alphaType = .kUnpremul_SkAlphaType
    · simp only [h, if_true]
    · simp only [h, if_false, iff_false]
      exact fun e => by cases e

/-- Witness of C24: the premultiplied sRGB sample image is converted with the
transfer function respected, an unpremultiplied image with it ignored. -/
theorem ApplyColorSpaceConversion_transfer_function_witness :
    ApplyColorSpaceConversion sampleSkia (unpremulImage 2 2) ParsedOptions.default =
        sampleSkia.convertToColorSpace (unpremulImage 2 2)
          (sampleSkia.colorSpaceForSkSurfaces ParsedOptions.default.color_params) .kIgnore ∧
      ApplyColorSpaceConversion sampleSkia sampleImage ParsedOptions.default =
        sampleSkia.convertToColorSpace sampleImage
          (sampleSkia.colorSpaceForSkSurfaces ParsedOptions.default.color_params) .kRespect :=
  ⟨(ApplyColorSpaceConversion_transfer_function sampleSkia (unpremulImage 2 2)
      ParsedOptions.default).1 (Or.inr rfl),
    (ApplyColorSpaceConversion_transfer_function sampleSkia sampleImage
      ParsedOptions.default).2.1 (by decide)⟩

/-- The two branches of `GetImageWithAlphaDisposition` for an image whose alpha
type is not the requested one. -/
theorem GetImageWithAlphaDisposition_branches (sk : Skia) (image : StaticBitmapImage)
    (target : SkAlphaType) (d : AlphaDisposition) (hd : d ≠ .kDontChangeAlpha)
    (ht : target = (if d = .kPremultiplyAlpha then SkAlphaType.kPremul_SkAlphaType
      else SkAlphaType.kUnpremul_SkAlphaType))
    (hne : image.skImage.alphaType ≠ target) :
    GetImageWithAlphaDisposition sk image d =
      if target = .kUnpremul_SkAlphaType ∨ wrapInt (image.width * image.height) < 16384 then
        AlphaByReadback sk image target
      else AlphaByDraw sk image target := by
  rw [GetImageWithAlphaDisposition_eq sk image target d hd ht, if_neg hne]
  by_cases h : target = .kUnpremul_SkAlphaType ∨ wrapInt (image.width * image.height) < 16384
  · rw [if_pos h, if_pos h]
    unfold AlphaByReadback
    cases CopyImageDataWithInfo sk image
      (((GetSkImageInfo image.skImage).makeAlphaType target).makeColorSpace none) 0 0 <;> rfl
  · rw [if_neg h, if_neg h]
    unfold AlphaByDraw AlphaDrawInfo
    cases sk.makeRaster
      (if ((GetSkImageInfo image.skImage).makeAlphaType target).colorSpace =
          some SkColorSpace.MakeSRGB then
        ((GetSkImageInfo image.skImage).makeAlphaType target).makeColorSpace none
      else (GetSkImageInfo image.skImage).makeAlphaType target) <;> rfl

/-- C23: when the current and the requested alpha type differ,
`GetImageWithAlphaDisposition` reads the pixels back if the request is to
unpremultiply, or if the area width * height (a value of `int`) is below 16384,
and draws on a surface when it premultiplies an image of area 16384 or more. -/
theorem GetImageWithAlphaDisposition_strategy (sk : Skia) (image : StaticBitmapImage) :
    (image.skImage.alphaType ≠ .kUnpremul_SkAlphaType →
        GetImageWithAlphaDisposition sk image .kUnpremultiplyAlpha =
          AlphaByReadback sk image .kUnpremul_SkAlphaType) ∧
      (image.skImage.alphaType ≠ .kPremul_SkAlphaType → IsInt (image.width * image.height) →
        image.width * image.height < 16384 →
        GetImageWithAlphaDisposition sk image .kPremultiplyAlpha =
          AlphaByReadback sk image .kPremul_SkAlphaType) ∧
      (image.skImage.alphaType ≠ .kPremul_SkAlphaType → IsInt (image.width * image.height) →
        16384 ≤ image.width * image.height →
        GetImageWithAlphaDisposition sk image .kPremultiplyAlpha =
          AlphaByDraw sk image .kPremul_SkAlphaType) := by
  refine ⟨?_, ?_, ?_⟩
  · intro hne
    rw [GetImageWithAlphaDisposition_branches sk image .kUnpremul_SkAlphaType
      .kUnpremultiplyAlpha (by decide) (by decide) hne, if_pos (Or.inl rfl)]
  · intro hne hint hlt
    rw [GetImageWithAlphaDisposition_branches sk image .kPremul_SkAlphaType
      .kPremultiplyAlpha (by decide) (by decide) hne, wrapInt_of_isInt _ hint,
      if_pos (Or.inr hlt)]
  · intro hne hint hge
    rw [GetImageWithAlphaDisposition_branches sk image .kPremul_SkAlphaType
      .kPremultiplyAlpha (by decide) (by decide) hne, wrapInt_of_isInt _ hint,
      if_neg (by
        intro h
        rcases h with h | h
        · cases h
        · omega)]

/-- Witness of C23: premultiplying an unpremultiplied image, a 127 x 128 image
is read back (the result holds the byte of the readback) and a 129 x 128 image
and a 128 x 128 image are drawn (the result holds the byte of the draw);
unpremultiplying the 100 x 100 sample image is a readback. -/
theorem GetImageWithAlphaDisposition_strategy_witness :
    ((GetImageWithAlphaDisposition markingSkia (unpremulImage 127 128) .kPremultiplyAlpha).map
        (fun i => i.skImage.pixels) = some [1] ∧
      (GetImageWithAlphaDisposition markingSkia (unpremulImage 129 128) .kPremultiplyAlpha).map
        (fun i => i.skImage.pixels) = some [2] ∧
      (GetImageWithAlphaDisposition markingSkia (unpremulImage 128 128) .kPremultiplyAlpha).map
        (fun i => i.skImage.pixels) = some [2]) ∧
      GetImageWithAlphaDisposition markingSkia (unpremulImage 127 128) .kPremultiplyAlpha =
        AlphaByReadback markingSkia (unpremulImage 127 128) .kPremul_SkAlphaType ∧
      GetImageWithAlphaDisposition markingSkia (unpremulImage 129 128) .kPremultiplyAlpha =
        AlphaByDraw markingSkia (unpremulImage 129 128) .kPremul_SkAlphaType ∧
      GetImageWithAlphaDisposition markingSkia sampleImage .kUnpremultiplyAlpha =
        AlphaByReadback markingSkia sampleImage .kUnpremul_SkAlphaType :=
  ⟨⟨by rfl, by rfl, by rfl⟩,
    (GetImageWithAlphaDisposition_strategy markingSkia (unpremulImage 127 128)).2.1
      (by decide) (by decide) (by decide),
    (GetImageWithAlphaDisposition_strategy markingSkia (unpremulImage 129 128)).2.2
      (by decide) (by decide) (by decide),
    (GetImageWithAlphaDisposition_strategy markingSkia sampleImage).1 (by decide)⟩

/-! ## The row-swap flip as an involution -/

/-- An exchange of two bytes inside the buffer permutes the buffer. -/
theorem swapBytes_perm (buf : List Nat) (a b : Nat) (ha : a < buf.length)
    (hb : b < buf.length) : (swapBytes buf a b).Perm buf := by
  rw [List.perm_iff_count]
  intro x
  unfold swapBytes
  have hb2 : b < (buf.set a (buf.getD b 0)).length := by rw [List.length_set]; exact hb
  rw [List.count_set _ _ _ _ hb2, List.count_set _ _ _ _ ha]
  have e1 : (buf.set a (buf.getD b 0))[b] = buf[b] := by
    rw [List.getElem_set]
    split
    · exact List.getD_eq_getElem _ _ hb
    · rfl
  have e2 : buf.getD a 0 = buf[a] := List.getD_eq_getElem _ _ ha
  have e3 : buf.getD b 0 = buf[b] := List.getD_eq_getElem _ _ hb
  rw [e1, e2, e3]
  have k1 := List.boole_getElem_le_count x buf a ha
  have k2 := List.boole_getElem_le_count x buf b hb
  omega

/-- The exchange of two ranges inside the buffer permutes the buffer. -/
theorem swap_fold_perm (f1 f2 : Nat) : ∀ (n : Nat) (buf : List Nat), f1 + n ≤ buf.length →
    f2 + n ≤ buf.length →
    ((List.range n).foldl (fun acc j => swapBytes acc (f1 + j) (f2 + j)) buf).length =
        buf.length ∧
      ((List.range n).foldl (fun acc j => swapBytes acc (f1 + j) (f2 + j)) buf).Perm buf := by
  intro n
  induction n with
  | zero =>
    intro buf _ _
    exact ⟨rfl, List.Perm.refl _⟩
  | succ n ih =>
    intro buf h1 h2
    obtain ⟨hl, hp⟩ := ih buf (by omega) (by omega)
    rw [List.range_succ, List.foldl_append, List.foldl_cons, List.foldl_nil]
    exact ⟨by rw [swapBytes_length, hl],
      (swapBytes_perm _ _ _ (by rw [hl]; omega) (by rw [hl]; omega)).trans hp⟩

/-- The call `swap_ranges` on two ranges inside the buffer permutes the buffer. -/
theorem swap_ranges_perm (buf : List Nat) (f1 f2 n : Nat) (h1 : f1 + n ≤ buf.length)
    (h2 : f2 + n ≤ buf.length) :
    (swap_ranges buf f1 (f1 + n) f2).length = buf.length ∧
      (swap_ranges buf f1 (f1 + n) f2).Perm buf := by
  unfold swap_ranges
  rw [Nat.add_sub_cancel_left]
  exact swap_fold_perm f1 f2 n buf h1 h2

/-- The buffer after `m` iterations of the row-swap loop is a permutation of the input. -/
theorem FlipRows_fold_perm (buf : List Nat) (rb H : Nat) (hlen : buf.length = H * rb)
    (hfit : H * rb ≤ 4294967295) (hH : H ≤ 2147483647) : ∀ m, m ≤ H / 2 →
    ((List.range m).foldl
        (fun acc i =>
          swap_ranges acc (i * rb % 4294967296) ((i + 1) * rb % 4294967296)
            (wrapUnsigned ((H : Int) - 1 - (i : Int)) * rb % 4294967296)) buf).length =
        buf.length ∧
      ((List.range m).foldl
        (fun acc i =>
          swap_ranges acc (i * rb % 4294967296) ((i + 1) * rb % 4294967296)
            (wrapUnsigned ((H : Int) - 1 - (i : Int)) * rb % 4294967296)) buf).Perm buf := by
  intro m
  induction m with
  | zero =>
    intro _
    exact ⟨rfl, List.Perm.refl _⟩
  | succ m ih =>
    intro hm
    obtain ⟨hl, hp⟩ := ih (by omega)
    rw [List.range_succ, List.foldl_append, List.foldl_cons, List.foldl_nil]
    have q2 : H - 1 - m < H := by omega
    have b1 := row_le m (H - 1 - m) rb (by omega)
    have b2 := row_le (H - 1 - m) H rb q2
    have e1 : m * rb % 4294967296 = m * rb := Nat.mod_eq_of_lt (by omega)
    have e2 : (m + 1) * rb % 4294967296 = m * rb + rb := by
      have e : (m + 1) * rb = m * rb + rb := by ring
      rw [e]
      exact Nat.mod_eq_of_lt (by omega)
    have e3 : wrapUnsigned ((H : Int) - 1 - (m : Int)) = H - 1 - m := by
      unfold wrapUnsigned
      omega
    have e4 : (H - 1 - m) * rb % 4294967296 = (H - 1 - m) * rb := Nat.mod_eq_of_lt (by omega)
    simp only [e1, e2, e3, e4]
    obtain ⟨sl, sp⟩ := swap_ranges_perm
      ((List.range m).foldl
        (fun acc i =>
          swap_ranges acc (i * rb % 4294967296) ((i + 1) * rb % 4294967296)
            (wrapUnsigned ((H : Int) - 1 - (i : Int)) * rb % 4294967296)) buf)
      (m * rb) ((H - 1 - m) * rb) rb (by rw [hl, hlen]; omega) (by rw [hl, hlen]; exact b2)
    exact ⟨by rw [sl, hl], sp.trans hp⟩

/-- The row-swap loop reverses the order of the rows. -/
theorem FlipRows_getD (buf : List Nat) (rb H : Nat) (hlen : buf.length = H * rb)
    (hfit : H * rb ≤ 4294967295) (hH : H ≤ 2147483647) :
    (FlipRows buf rb (H : Int)).length = buf.length ∧
      ∀ r c, r < H → c < rb →
        (FlipRows buf rb (H : Int)).getD (r * rb + c) 0 =
          buf.getD ((H - 1 - r) * rb + c) 0 := by
  have e : ((H : Int) / 2).toNat = H / 2 := by omega
  unfold FlipRows
  rw [e]
  obtain ⟨hl, hg⟩ := FlipRows_fold_spec buf rb H hlen hfit hH (H / 2) (le_refl _)
  refine ⟨hl, fun r c hr hc => ?_⟩
  rw [hg r c hr hc]
  by_cases h : r < H / 2 ∨ H ≤ r + H / 2
  · rw [if_pos h]
  · rw [if_neg h]
    have e2 : H - 1 - r = r := by omega
    rw [e2]

/-- C27: on a buffer of `H` rows of `rb` bytes each, whose byte count is a value
of `unsigned`, applying the row-swap loop of `FlipImageVertically` twice gives
back the buffer byte for byte, and one application is a permutation of the
bytes of the buffer: same length, same multiset. -/
theorem FlipRows_involution (buf : List Nat) (rb H : Nat) (hlen : buf.length = H * rb)
    (hfit : IsUnsigned (H * rb)) (hH : (H : Int) ≤ kIntMax) :
    FlipRows (FlipRows buf rb (H : Int)) rb (H : Int) = buf ∧
      (FlipRows buf rb (H : Int)).Perm buf ∧
      (FlipRows buf rb (H : Int)).length = buf.length := by
  have hfit2 : H * rb ≤ 4294967295 := hfit
  have hH2 : H ≤ 2147483647 := by
    unfold kIntMax at hH
    omega
  have twice : FlipRows (FlipRows buf rb (H : Int)) rb (H : Int) = buf := by
    obtain ⟨l1, g1⟩ := FlipRows_getD buf rb H hlen hfit2 hH2
    obtain ⟨l2, g2⟩ := FlipRows_getD (FlipRows buf rb (H : Int)) rb H (by rw [l1, hlen])
      hfit2 hH2
    apply List.ext_getElem (by rw [l2, l1])
    intro k hk1 hk2
    rw [← List.getD_eq_getElem _ 0 hk1, ← List.getD_eq_getElem _ 0 hk2]
    have hk : k < H * rb := by rw [← hlen]; exact hk2
    have hrb : 0 < rb := by
      rcases Nat.eq_zero_or_pos rb with h | h
      · rw [h] at hk
        simp at hk
      · exact h
    obtain ⟨r, c, hr, hc, hk3⟩ : ∃ r c, r < H ∧ c < rb ∧ k = r * rb + c := by
      refine ⟨k / rb, k % rb, ?_, Nat.mod_lt _ hrb, ?_⟩
      · rw [Nat.div_lt_iff_lt_mul hrb]
        exact hk
      · rw [Nat.mul_comm]
        exact (Nat.div_add_mod k rb).symm
    subst hk3
    rw [g2 r c hr hc, g1 (H - 1 - r) c (by omega) hc]
    have e : H - 1 - (H - 1 - r) = r := by omega
    rw [e]
  have e : ((H : Int) / 2).toNat = H / 2 := by omega
  obtain ⟨pl, pp⟩ := FlipRows_fold_perm buf rb H hlen hfit2 hH2 (H / 2) (le_refl _)
  refine ⟨twice, ?_, ?_⟩
  · unfold FlipRows
    rw [e]
    exact pp
  · unfold FlipRows
    rw [e]
    exact pl

/-- Witness of C27: a buffer of three rows of two bytes. -/
theorem FlipRows_involution_witness :
    FlipRows [1, 2, 3, 4, 5, 6] 2 ((3 : Nat) : Int) = [5, 6, 3, 4, 1, 2] ∧
      FlipRows (FlipRows [1, 2, 3, 4, 5, 6] 2 ((3 : Nat) : Int)) 2 ((3 : Nat) : Int) =
        [1, 2, 3, 4, 5, 6] ∧
      (FlipRows [1, 2, 3, 4, 5, 6] 2 ((3 : Nat) : Int)).Perm [1, 2, 3, 4, 5, 6] :=
  ⟨by rfl,
    (FlipRows_involution [1, 2, 3, 4, 5, 6] 2 3 (by rfl) (by decide) (by decide)).1,
    (FlipRows_involution [1, 2, 3, 4, 5, 6] 2 3 (by rfl) (by decide) (by decide)).2.1⟩

/-! ## The completion handoff and the state of the context -/

/-- The handoff makes exactly one call on the resolver. -/
theorem ResolvePromiseOnOriginalThread_single (sk : Skia) (skia_image : Option SkImage)
    (origin_clean : Bool) (parsed_options : ParsedOptions) :
    ∃ call, ResolvePromiseOnOriginalThread sk skia_image origin_clean parsed_options =
      [call] := by
  unfold ResolvePromiseOnOriginalThread
  cases skia_image with
  | none => exact ⟨_, rfl⟩
  | some img =>
    simp only
    cases AsyncAlphaStep sk img parsed_options with
    | none => exact ⟨_, rfl⟩
    | some a =>
      simp only
      cases ApplyColorSpaceConversion sk a parsed_options with
      | none => exact ⟨_, rfl⟩
      | some c => exact ⟨_, rfl⟩

/-- C25, counterexample: with the context destroyed before the handoff runs, the
handoff still acts on the resolver: it rejects when the surface could not be
made and resolves when the rasterization succeeded. -/
theorem handoff_destroyed_context_counterexample :
    (RunRasterTask noSurfaceSkia ⟨true, []⟩ sampleRasterTask).calls = [.RejectNull] ∧
      (RunRasterTask sampleSkia ⟨true, []⟩ sampleRasterTask).calls =
        [.Resolve ⟨some (StaticBitmapImage.Create (makeImageSnapshot
          (SkImageInfo.Make 2 2 .kN32_SkColorType .kPremul_SkAlphaType
            (some SkColorSpace.MakeSRGB)) (List.replicate 16 0))), false⟩] := by
  constructor
  · rfl
  · rfl

/-- C25 (amended): the completion handoff does not check the context. Whatever
the state of the context and the calls made before, the background task and
its handoff add exactly one call to the resolver, a `Resolve` or a `Reject`
with null, and that call is the same for a destroyed and for a live context. -/
theorem handoff_ignores_context (sk : Skia) (resolver : ScriptPromiseResolver)
    (task : RasterTask) :
    (∃ call, (RunRasterTask sk resolver task).calls = resolver.calls ++ [call]) ∧
      (RunRasterTask sk { resolver with contextDestroyed := true } task).calls =
        (RunRasterTask sk { resolver with contextDestroyed := false } task).calls ∧
      (RunRasterTask sk resolver task).contextDestroyed = resolver.contextDestroyed := by
  refine ⟨?_, rfl, rfl⟩
  obtain ⟨call, hc⟩ := ResolvePromiseOnOriginalThread_single sk
    (RasterizeImageOnBackgroundThread sk task) task.origin_clean task.parsed_options
  exact ⟨call, by simp only [RunRasterTask, ScriptPromiseResolver.handoff, hc]⟩

/-! ## Soundness of the overflow guard on parsed options -/

/-- What a passed overflow guard bounds: the crop product, and the resize
product when the input is scaled. -/
theorem DstBufferSizeHasOverflow_bounds (p : ParsedOptions) (hr : p.InRange)
    (hw : 0 ≤ p.crop_rect.Width) (hh : 0 ≤ p.crop_rect.Height)
    (hg : DstBufferSizeHasOverflow p = false) :
    p.crop_rect.Width * p.crop_rect.Height * (p.color_params.BytesPerPixel : Int) ≤
        (kUnsignedMax : Int) ∧
      (p.should_scale_input = true →
        p.resize_width * p.resize_height * p.color_params.BytesPerPixel ≤ kUnsignedMax) := by
  obtain ⟨hcw, -, hrw, -⟩ := hr
  have hb := p.color_params.BytesPerPixel_pos
  have hcw2 : p.crop_rect.Width ≤ (kUnsignedMax : Int) := by
    have := hcw.2
    simp only [IntRect.Width, kIntMax, kUnsignedMax] at *
    omega
  have hcrop := CheckedNumeric.triple_isValid p.crop_rect.Width p.crop_rect.Height
    p.color_params.BytesPerPixel hw hcw2 hh hb
  have hres := CheckedNumeric.triple_isValid (p.resize_width : Int) (p.resize_height : Int)
    p.color_params.BytesPerPixel (Int.ofNat_nonneg _) (by exact_mod_cast hrw)
    (Int.ofNat_nonneg _) hb
  have hres2 : ((p.resize_width : Int) * (p.resize_height : Int) *
      (p.color_params.BytesPerPixel : Int) ≤ (kUnsignedMax : Int)) ↔
      p.resize_width * p.resize_height * p.color_params.BytesPerPixel ≤ kUnsignedMax := by
    constructor <;> intro h <;> exact_mod_cast h
  rw [hres2] at hres
  unfold DstBufferSizeHasOverflow at hg
  simp only [CanvasColorParams.BytesPerPixel] at hcrop hres ⊢
  cases hv : CheckedNumeric.IsValid (CheckedNumeric.mul (CheckedNumeric.mul
      (CheckedNumeric.ofInt p.crop_rect.Width) p.crop_rect.Height)
      ((SkColorTypeBytesPerPixel p.color_params.GetSkColorType : Nat) : Int))
  · simp [hv] at hg
  · refine ⟨hcrop.mp hv, fun hs => ?_⟩
    cases hv2 : CheckedNumeric.IsValid (CheckedNumeric.mul (CheckedNumeric.mul
        (CheckedNumeric.ofInt (p.resize_width : Int)) (p.resize_height : Int))
        ((SkColorTypeBytesPerPixel p.color_params.GetSkColorType : Nat) : Int))
    · simp [hv, hs, hv2] at hg
    · exact hres.mp hv2

/-- The guard bounds both products for parsed options whose `should_scale_input`
is the outcome of the comparison of the resize with the crop dimensions. -/
theorem guard_bounds_resize (p : ParsedOptions)
    (hu : IsUnsigned p.resize_width ∧ IsUnsigned p.resize_height)
    (hss : p.should_scale_input =
      !ResizeEqualsCrop (p.resize_width, p.resize_height) p.crop_rect)
    (hw : 0 ≤ p.crop_rect.width ∧ p.crop_rect.width ≤ kIntMax)
    (hh : 0 ≤ p.crop_rect.height ∧ p.crop_rect.height ≤ kIntMax)
    (hg : DstBufferSizeHasOverflow p = false) :
    p.crop_rect.Width * p.crop_rect.Height * (p.color_params.BytesPerPixel : Int) ≤
        (kUnsignedMax : Int) ∧
      p.resize_width * p.resize_height * p.color_params.BytesPerPixel ≤ kUnsignedMax ∧
      p.resize_width * p.resize_height % 4294967296 = p.resize_width * p.resize_height := by
  have hr : p.InRange := by
    refine ⟨⟨?_, hw.2⟩, ⟨?_, hh.2⟩, hu.1, hu.2⟩
    · unfold kIntMin
      omega
    · unfold kIntMin
      omega
  obtain ⟨b1, b2⟩ := DstBufferSizeHasOverflow_bounds p hr hw.1 hh.1 hg
  have hb := p.color_params.BytesPerPixel_pos
  have key : p.resize_width * p.resize_height * p.color_params.BytesPerPixel ≤
      kUnsignedMax := by
    cases hs : p.should_scale_input
    · rw [hs] at hss
      have he : ResizeEqualsCrop (p.resize_width, p.resize_height) p.crop_rect = true := by
        cases hq : ResizeEqualsCrop (p.resize_width, p.resize_height) p.crop_rect
        · rw [hq] at hss
          cases hss
        · rfl
      have e12 := (ResizeEqualsCrop_iff (p.resize_width, p.resize_height)
        p.crop_rect hu ⟨hw, hh⟩).mp he
      have e1 : (p.resize_width : Int) = p.crop_rect.width := e12.1
      have e2 : (p.resize_height : Int) = p.crop_rect.height := e12.2
      simp only [IntRect.Width, IntRect.Height] at b1
      rw [← e1, ← e2] at b1
      exact_mod_cast b1
    · exact b2 hs
  have prod_le : p.resize_width * p.resize_height ≤ kUnsignedMax :=
    le_trans (Nat.le_mul_of_pos_right _ hb) key
  have nowrap : p.resize_width * p.resize_height % 4294967296 =
      p.resize_width * p.resize_height := by
    apply Nat.mod_eq_of_lt
    unfold kUnsignedMax at prod_le
    omega
  exact ⟨b1, key, nowrap⟩

/-- C28: for options with `unsigned` resize dimensions and a parsed crop
rectangle with non-negative `int` dimensions, when the overflow guard passes on
the result of `ParseOptions`, both crop_width * crop_height * bytes_per_pixel and
resize_width * resize_height * bytes_per_pixel are at most the largest unsigned
32-bit value, also when `should_scale_input` is false and the guard does not
look at the resize dimensions; so the unsigned product
resize_width * resize_height of the scaling decision does not wrap. -/
theorem ParseOptions_guard_sound (ub : F32 → Nat) (options : ImageBitmapOptions)
    (crop_rect : Option IntRect) (source_size : IntSize) (ho : options.WellFormed)
    (hw : 0 ≤ (ParseOptions ub options crop_rect source_size).crop_rect.width ∧
      (ParseOptions ub options crop_rect source_size).crop_rect.width ≤ kIntMax)
    (hh : 0 ≤ (ParseOptions ub options crop_rect source_size).crop_rect.height ∧
      (ParseOptions ub options crop_rect source_size).crop_rect.height ≤ kIntMax)
    (hg : DstBufferSizeHasOverflow (ParseOptions ub options crop_rect source_size) = false) :
    (ParseOptions ub options crop_rect source_size).crop_rect.Width *
          (ParseOptions ub options crop_rect source_size).crop_rect.Height *
          ((ParseOptions ub options crop_rect source_size).color_params.BytesPerPixel : Int) ≤
        (kUnsignedMax : Int) ∧
      (ParseOptions ub options crop_rect source_size).resize_width *
          (ParseOptions ub options crop_rect source_size).resize_height *
          (ParseOptions ub options crop_rect source_size).color_params.BytesPerPixel ≤
        kUnsignedMax ∧
      (ParseOptions ub options crop_rect source_size).resize_width *
          (ParseOptions ub options crop_rect source_size).resize_height % 4294967296 =
        (ParseOptions ub options crop_rect source_size).resize_width *
          (ParseOptions ub options crop_rect source_size).resize_height ∧
      (∀ size, IsDownScaling (ParseOptions ub options crop_rect source_size) size =
        ((ParseOptions ub options crop_rect source_size).should_scale_input &&
          decide ((ParseOptions ub options crop_rect source_size).resize_width *
            (ParseOptions ub options crop_rect source_size).resize_height < size.Area))) := by
  have hu : IsUnsigned (ParseOptions ub options crop_rect source_size).resize_width ∧
      IsUnsigned (ParseOptions ub options crop_rect source_size).resize_height := by
    rw [ParseOptions_resize_width, ParseOptions_resize_height]
    exact ParseResize_isUnsigned ub options _ ho
  have hss : (ParseOptions ub options crop_rect source_size).should_scale_input =
      !ResizeEqualsCrop ((ParseOptions ub options crop_rect source_size).resize_width,
        (ParseOptions ub options crop_rect source_size).resize_height)
        (ParseOptions ub options crop_rect source_size).crop_rect := by
    rw [ParseOptions_should_scale_input, ParseOptions_resize_width, ParseOptions_resize_height,
      ParseOptions_crop_rect]
  obtain ⟨b1, key, nowrap⟩ := guard_bounds_resize _ hu hss hw hh hg
  refine ⟨b1, key, nowrap, fun size => ?_⟩
  unfold IsDownScaling
  rw [nowrap]

/-- Witness of C28: a 100 x 100 source without crop rectangle and without
resize dimensions passes the guard with `should_scale_input` false; the resize
product 100 * 100 * 4 is bounded all the same. -/
theorem ParseOptions_guard_sound_witness :
    (ParseOptions (fun _ => 0) ImageBitmapOptions.defaults none ⟨100, 100⟩).should_scale_input
        = false ∧
      (ParseOptions (fun _ => 0) ImageBitmapOptions.defaults none ⟨100, 100⟩).resize_width *
          (ParseOptions (fun _ => 0) ImageBitmapOptions.defaults none ⟨100, 100⟩).resize_height *
          (ParseOptions (fun _ => 0) ImageBitmapOptions.defaults none
            ⟨100, 100⟩).color_params.BytesPerPixel ≤ kUnsignedMax :=
  ⟨by rfl, (ParseOptions_guard_sound (fun _ => 0) ImageBitmapOptions.defaults none ⟨100, 100⟩
    ⟨fun _ h => (by cases h), fun _ h => (by cases h)⟩ (by decide) (by decide) (by rfl)).2.1⟩

/-! ## The order and the number of the stages -/

/-- A checked step that yields an image was invoked on an image and is recorded. -/
theorem pipelineStep_some (s : Option StaticBitmapImage × List Stage) (stage : Stage)
    (f : StaticBitmapImage → Option StaticBitmapImage) (o : StaticBitmapImage)
    (h : (pipelineStep s stage f).1 = some o) :
    ∃ i, s.1 = some i ∧ f i = some o ∧ (pipelineStep s stage f).2 = s.2 ++ [stage] := by
  unfold pipelineStep at h ⊢
  cases h1 : s.1 with
  | none =>
    rw [h1] at h
    simp only at h
    rw [h1] at h
    cases h
  | some i =>
    rw [h1] at h
    exact ⟨i, rfl, h, rfl⟩

/-- An unchecked step that yields an image was invoked on an image and is recorded. -/
theorem pipelineStepUnchecked_some (s : Option StaticBitmapImage × List Stage) (stage : Stage)
    (f : StaticBitmapImage → Option StaticBitmapImage) (o : StaticBitmapImage)
    (h : (pipelineStepUnchecked s stage f).1 = some o) :
    ∃ i, s.1 = some i ∧ f i = some o ∧
      (pipelineStepUnchecked s stage f).2 = s.2 ++ [stage] := by
  unfold pipelineStepUnchecked at h ⊢
  cases h1 : s.1 with
  | none =>
    rw [h1] at h
    cases h
  | some i =>
    rw [h1] at h
    exact ⟨i, rfl, h, rfl⟩

/-- A conditional checked step that yields an image: its input held an image,
and the step is recorded when the condition holds. -/
theorem condStep_some (b : Bool) (s : Option StaticBitmapImage × List Stage) (stage : Stage)
    (f : StaticBitmapImage → Option StaticBitmapImage) (o : StaticBitmapImage)
    (h : (if b = true then pipelineStep s stage f else s).1 = some o) :
    (∃ i, s.1 = some i ∧ (if b = true then f i else some i) = some o) ∧
      (if b = true then pipelineStep s stage f else s).2 =
        s.2 ++ (if b = true then [stage] else []) := by
  cases b with
  | false =>
    simp only [Bool.false_eq_true, if_false, List.append_nil, and_true] at h ⊢
    exact ⟨o, h, rfl⟩
  | true =>
    simp only [if_true] at h ⊢
    obtain ⟨i, h1, h2, h3⟩ := pipelineStep_some s stage f o h
    exact ⟨⟨i, h1, h2⟩, h3⟩

/-- The trace of a run of the five steps that yields an image. -/
theorem stages_trace (d fl c u : Bool) (s0 s1 s2 s3 s4 fin : Option StaticBitmapImage × List Stage)
    (F FL C A : StaticBitmapImage → Option StaticBitmapImage) (out : StaticBitmapImage)
    (h1 : s1 = if d = true then pipelineStep s0 .scale F else s0)
    (h2 : s2 = if fl = true then pipelineStep s1 .flip FL else s1)
    (h3 : s3 = if c = true then pipelineStep s2 .colorConversion C else s2)
    (h4 : s4 = pipelineStep s3 .alphaConversion A)
    (h5 : fin = if (u && s3.1.isSome) = true then pipelineStepUnchecked s4 .scale F else s4)
    (h : fin.1 = some out) :
    fin.2 = s0.2 ++ ((if d = true then [Stage.scale] else []) ++
      (if fl = true then [Stage.flip] else []) ++
      (if c = true then [Stage.colorConversion] else []) ++ [Stage.alphaConversion] ++
      (if u = true then [Stage.scale] else [])) := by
  have k4 : ∃ o4, s4.1 = some o4 ∧ fin.2 = s4.2 ++ (if u = true then [Stage.scale] else []) := by
    by_cases hu : (u && s3.1.isSome) = true
    · rw [if_pos hu] at h5
      rw [h5] at h ⊢
      obtain ⟨i, e1, -, e3⟩ := pipelineStepUnchecked_some s4 .scale F out h
      have hu1 : u = true := by
        cases u
        · simp at hu
        · rfl
      exact ⟨i, e1, by rw [e3, if_pos hu1]⟩
    · rw [if_neg hu] at h5
      rw [h5] at h ⊢
      refine ⟨out, h, ?_⟩
      rw [h4] at h
      obtain ⟨i, e1, -, -⟩ := pipelineStep_some s3 .alphaConversion A out h
      have hu1 : u = false := by
        cases u
        · rfl
        · simp [e1] at hu
      rw [hu1]
      simp
  obtain ⟨o4, e4, t5⟩ := k4
  rw [h4] at e4
  obtain ⟨o3, e3, -, t4⟩ := pipelineStep_some s3 .alphaConversion A o4 e4
  rw [← h4] at t4
  rw [h3] at e3
  obtain ⟨⟨o2, e2, -⟩, t3⟩ := condStep_some c s2 .colorConversion C o3 e3
  rw [← h3] at t3
  rw [h2] at e2
  obtain ⟨⟨o1, e1, -⟩, t2⟩ := condStep_some fl s1 .flip FL o2 e2
  rw [← h2] at t2
  rw [h1] at e1
  obtain ⟨-, t1⟩ := condStep_some d s0 .scale F o1 e1
  rw [← h1] at t1
  rw [t5, t4, t3, t2, t1]
  simp only [List.append_assoc]

/-- The trace of a run of the three steps of the `ImageData` constructor that
yields an image. -/
theorem data_stages_trace (d fl u : Bool) (s0 s1 s2 fin : Option StaticBitmapImage × List Stage)
    (F FL : StaticBitmapImage → Option StaticBitmapImage) (out : StaticBitmapImage)
    (h1 : s1 = if d = true then pipelineStep s0 .scale F else s0)
    (h2 : s2 = if fl = true then pipelineStep s1 .flip FL else s1)
    (h3 : fin = if u = true then pipelineStep s2 .scale F else s2)
    (h : fin.1 = some out) :
    fin.2 = s0.2 ++ ((if d = true then [Stage.scale] else []) ++
      (if fl = true then [Stage.flip] else []) ++ (if u = true then [Stage.scale] else [])) := by
  rw [h3] at h
  obtain ⟨⟨o2, e2, -⟩, t3⟩ := condStep_some u s2 .scale F out h
  rw [← h3] at t3
  rw [h2] at e2
  obtain ⟨⟨o1, e1, -⟩, t2⟩ := condStep_some fl s1 .flip FL o2 e2
  rw [← h2] at t2
  rw [h1] at e1
  obtain ⟨-, t1⟩ := condStep_some d s0 .scale F o1 e1
  rw [← h1] at t1
  rw [t3, t2, t1]
  simp only [List.append_assoc]

/-- A checked step adds at most its own stage to the trace. -/
theorem pipelineStep_count (s : Option StaticBitmapImage × List Stage) (stage : Stage)
    (f : StaticBitmapImage → Option StaticBitmapImage) :
    List.count Stage.scale (pipelineStep s stage f).2 ≤
      List.count Stage.scale s.2 + (if stage = Stage.scale then 1 else 0) := by
  unfold pipelineStep
  cases s.1 with
  | none => exact Nat.le_add_right _ _
  | some i =>
    simp only [List.count_append]
    by_cases h : stage = Stage.scale
    · subst h
      simp
    · rw [if_neg h]
      have : List.count Stage.scale [stage] = 0 := by
        rw [List.count_eq_zero]
        intro hm
        rw [List.mem_singleton] at hm
        exact h hm.symm
      omega

/-- A conditional checked step adds at most its own stage to the trace. -/
theorem condStep_count (b : Bool) (s : Option StaticBitmapImage × List Stage) (stage : Stage)
    (f : StaticBitmapImage → Option StaticBitmapImage) :
    List.count Stage.scale (if b = true then pipelineStep s stage f else s).2 ≤
      List.count Stage.scale s.2 + (if b = true ∧ stage = Stage.scale then 1 else 0) := by
  cases b with
  | false => simp
  | true =>
    simp only [if_true, true_and]
    exact pipelineStep_count s stage f

/-- The scale stage is recorded at most once per scaling flag in a run of the
five steps. -/
theorem stages_count (d fl c u : Bool) (s0 s1 s2 s3 s4 fin : Option StaticBitmapImage × List Stage)
    (F FL C A : StaticBitmapImage → Option StaticBitmapImage)
    (h1 : s1 = if d = true then pipelineStep s0 .scale F else s0)
    (h2 : s2 = if fl = true then pipelineStep s1 .flip FL else s1)
    (h3 : s3 = if c = true then pipelineStep s2 .colorConversion C else s2)
    (h4 : s4 = pipelineStep s3 .alphaConversion A)
    (h5 : fin = if (u && s3.1.isSome) = true then pipelineStepUnchecked s4 .scale F else s4) :
    List.count Stage.scale fin.2 ≤ List.count Stage.scale s0.2 +
      (if d = true then 1 else 0) + (if u = true then 1 else 0) := by
  have c1 := condStep_count d s0 .scale F
  have c2 := condStep_count fl s1 .flip FL
  have c3 := condStep_count c s2 .colorConversion C
  have c4 := pipelineStep_count s3 .alphaConversion A
  rw [← h1] at c1
  rw [← h2] at c2
  rw [← h3] at c3
  rw [← h4] at c4
  simp only [and_true] at c1
  rw [if_neg (by simp)] at c2 c3
  rw [if_neg (by decide)] at c4
  have c5 : List.count Stage.scale fin.2 ≤
      List.count Stage.scale s4.2 + (if u = true then 1 else 0) := by
    rw [h5]
    by_cases hu : (u && s3.1.isSome) = true
    · rw [if_pos hu]
      have hu1 : u = true := by
        cases u
        · simp at hu
        · rfl
      rw [if_pos hu1]
      unfold pipelineStepUnchecked
      cases s4.1 <;> simp [List.count_append]
    · rw [if_neg hu]
      exact Nat.le_add_right _ _
  omega

/-- A property that the scale establishes and the other stages keep holds of
the image a scaled run yields. -/
theorem stages_scaled (P : StaticBitmapImage → Prop) (d fl c u : Bool)
    (s0 s1 s2 s3 s4 fin : Option StaticBitmapImage × List Stage)
    (F FL C A : StaticBitmapImage → Option StaticBitmapImage) (out : StaticBitmapImage)
    (hF : ∀ i o, F i = some o → P o) (hFL : ∀ i o, FL i = some o → P i → P o)
    (hC : ∀ i o, C i = some o → P i → P o) (hA : ∀ i o, A i = some o → P i → P o)
    (h1 : s1 = if d = true then pipelineStep s0 .scale F else s0)
    (h2 : s2 = if fl = true then pipelineStep s1 .flip FL else s1)
    (h3 : s3 = if c = true then pipelineStep s2 .colorConversion C else s2)
    (h4 : s4 = pipelineStep s3 .alphaConversion A)
    (h5 : fin = if (u && s3.1.isSome) = true then pipelineStepUnchecked s4 .scale F else s4)
    (hdu : d = true ∨ u = true) (h : fin.1 = some out) : P out := by
  by_cases hu : (u && s3.1.isSome) = true
  · rw [if_pos hu] at h5
    rw [h5] at h
    obtain ⟨i, -, e2, -⟩ := pipelineStepUnchecked_some s4 .scale F out h
    exact hF i out e2
  · rw [if_neg hu] at h5
    rw [h5, h4] at h
    obtain ⟨o3, e3, a3, -⟩ := pipelineStep_some s3 .alphaConversion A out h
    have hd : d = true := by
      rcases hdu with hd | hu1
      · exact hd
      · rw [hu1, e3] at hu
        simp at hu
    refine hA o3 out a3 ?_
    rw [h3] at e3
    obtain ⟨⟨o2, e2, a2⟩, -⟩ := condStep_some c s2 .colorConversion C o3 e3
    have p2 : P o2 := by
      rw [h2] at e2
      obtain ⟨⟨o1, e1, a1⟩, -⟩ := condStep_some fl s1 .flip FL o2 e2
      have p1 : P o1 := by
        rw [h1, hd, if_pos rfl] at e1
        obtain ⟨i, -, e, -⟩ := pipelineStep_some s0 .scale F o1 e1
        exact hF i o1 e
      cases fl with
      | false =>
        simp only [Bool.false_eq_true, if_false, Option.some.injEq] at a1
        rw [← a1]
        exact p1
      | true =>
        simp only [if_true] at a1
        exact hFL o1 o2 a1 p1
    cases c with
    | false =>
      simp only [Bool.false_eq_true, if_false, Option.some.injEq] at a2
      rw [← a2]
      exact p2
    | true =>
      simp only [if_true] at a2
      exact hC o2 o3 a2 p2

/-- The stages a run of `ApplyStages` that yields an image has invoked, in order. -/
theorem ApplyStages_trace (sk : Skia) (result out : StaticBitmapImage) (trace : List Stage)
    (parsed_options : ParsedOptions)
    (h : (ApplyStages sk result trace parsed_options).1 = some out) :
    (ApplyStages sk result trace parsed_options).2 =
      trace ++ ((if IsDownScaling parsed_options result.Size = true then [Stage.scale] else []) ++
        (if parsed_options.flip_y = true then [Stage.flip] else []) ++
        (if parsed_options.has_color_space_conversion = true then [Stage.colorConversion]
          else []) ++ [Stage.alphaConversion] ++
        (if (parsed_options.should_scale_input &&
            !IsDownScaling parsed_options result.Size) = true then [Stage.scale] else [])) :=
  stages_trace (IsDownScaling parsed_options result.Size) parsed_options.flip_y
    parsed_options.has_color_space_conversion
    (parsed_options.should_scale_input && !IsDownScaling parsed_options result.Size)
    (some result, trace) _ _ _ _ _
    (fun i => ScaleImage sk i parsed_options)
    (fun i => FlipImageVertically sk i parsed_options)
    (fun i => ApplyColorSpaceConversion sk i parsed_options)
    (fun i => GetImageWithAlphaDisposition sk i
      (if parsed_options.premultiply_alpha then .kPremultiplyAlpha else .kUnpremultiplyAlpha))
    out rfl rfl rfl rfl rfl h

/-- The stages a run of `ImageDataStages` that yields an image has invoked, in order. -/
theorem ImageDataStages_trace (sk : Skia) (image out : StaticBitmapImage)
    (parsed_options : ParsedOptions)
    (h : (ImageDataStages sk image parsed_options).1 = some out) :
    (ImageDataStages sk image parsed_options).2 =
      [Stage.pixelCopy] ++
        ((if IsDownScaling parsed_options image.Size = true then [Stage.scale] else []) ++
        (if parsed_options.flip_y = true then [Stage.flip] else []) ++
        (if (parsed_options.should_scale_input &&
            !IsDownScaling parsed_options image.Size) = true then [Stage.scale] else [])) :=
  data_stages_trace (IsDownScaling parsed_options image.Size) parsed_options.flip_y
    (parsed_options.should_scale_input && !IsDownScaling parsed_options image.Size)
    (some image, [Stage.pixelCopy]) _ _ _
    (fun i => ScaleImage sk i parsed_options)
    (fun i => FlipImageVertically sk i parsed_options)
    out rfl rfl rfl h

/-- A conditional checked step keeps the trace a prefix of the stages in order. -/
theorem condStep_prefix (b : Bool) (s : Option StaticBitmapImage × List Stage) (stage : Stage)
    (f : StaticBitmapImage → Option StaticBitmapImage) (pre : List Stage)
    (hp : s.2 <+: pre) (hs : s.1.isSome = true → s.2 = pre) :
    (if b = true then pipelineStep s stage f else s).2 <+:
        pre ++ (if b = true then [stage] else []) ∧
      ((if b = true then pipelineStep s stage f else s).1.isSome = true →
        (if b = true then pipelineStep s stage f else s).2 =
          pre ++ (if b = true then [stage] else [])) := by
  cases b with
  | false =>
    simp only [Bool.false_eq_true, if_false, List.append_nil]
    exact ⟨hp, hs⟩
  | true =>
    simp only [if_true]
    unfold pipelineStep
    cases h1 : s.1 with
    | none =>
      simp only
      refine ⟨hp.trans (List.prefix_append _ _), fun h => ?_⟩
      rw [h1] at h
      cases h
    | some i =>
      simp only
      have e := hs (by rw [h1]; rfl)
      rw [e]
      exact ⟨List.prefix_rfl, fun _ => rfl⟩

/-- In every run of the five steps, also one that a null result ends, the
stages invoked are an initial part of the stages in their order. -/
theorem stages_prefix (d fl c u : Bool) (s0 s1 s2 s3 s4 fin : Option StaticBitmapImage × List Stage)
    (F FL C A : StaticBitmapImage → Option StaticBitmapImage)
    (h1 : s1 = if d = true then pipelineStep s0 .scale F else s0)
    (h2 : s2 = if fl = true then pipelineStep s1 .flip FL else s1)
    (h3 : s3 = if c = true then pipelineStep s2 .colorConversion C else s2)
    (h4 : s4 = pipelineStep s3 .alphaConversion A)
    (h5 : fin = if (u && s3.1.isSome) = true then pipelineStepUnchecked s4 .scale F else s4) :
    fin.2 <+: s0.2 ++ ((if d = true then [Stage.scale] else []) ++
      (if fl = true then [Stage.flip] else []) ++
      (if c = true then [Stage.colorConversion] else []) ++ [Stage.alphaConversion] ++
      (if u = true then [Stage.scale] else [])) := by
  obtain ⟨p1, q1⟩ := condStep_prefix d s0 .scale F s0.2 List.prefix_rfl (fun _ => rfl)
  rw [← h1] at p1 q1
  obtain ⟨p2, q2⟩ := condStep_prefix fl s1 .flip FL _ p1 q1
  rw [← h2] at p2 q2
  obtain ⟨p3, q3⟩ := condStep_prefix c s2 .colorConversion C _ p2 q2
  rw [← h3] at p3 q3
  obtain ⟨p4, q4⟩ := condStep_prefix true s3 .alphaConversion A _ p3 q3
  simp only [if_true] at p4 q4
  rw [← h4] at p4 q4
  have pre4 : s4.2 <+: s0.2 ++ ((if d = true then [Stage.scale] else []) ++
      (if fl = true then [Stage.flip] else []) ++
      (if c = true then [Stage.colorConversion] else []) ++ [Stage.alphaConversion] ++
      (if u = true then [Stage.scale] else [])) := by
    refine p4.trans ?_
    simp only [List.append_assoc]
    repeat apply (List.prefix_append_right_inj _).mpr
    exact List.prefix_append _ _
  by_cases hu : (u && s3.1.isSome) = true
  · rw [if_pos hu] at h5
    have hu1 : u = true := by
      cases u
      · simp at hu
      · rfl
    have hs3 : s3.1.isSome = true := by
      rw [hu1] at hu
      simpa using hu
    have e4 : s4.2 = ((s0.2 ++ if d = true then [Stage.scale] else []) ++
        if fl = true then [Stage.flip] else []) ++
        (if c = true then [Stage.colorConversion] else []) ++ [Stage.alphaConversion] := by
      rw [h4]
      unfold pipelineStep
      cases h : s3.1 with
      | none =>
        rw [h] at hs3
        cases hs3
      | some i =>
        simp only
        rw [q3 hs3]
    have e5 : fin.2 = s4.2 ++ [Stage.scale] := by
      rw [h5]
      unfold pipelineStepUnchecked
      cases s4.1 <;> rfl
    rw [e5, e4, hu1]
    simp only [if_true, List.append_assoc]
    exact List.prefix_rfl
  · rw [if_neg hu] at h5
    rw [h5]
    exact pre4

/-- In every run of the three steps of the `ImageData` constructor the stages
invoked are an initial part of the stages in their order. -/
theorem data_stages_prefix (d fl u : Bool)
    (s0 s1 s2 fin : Option StaticBitmapImage × List Stage)
    (F FL : StaticBitmapImage → Option StaticBitmapImage)
    (h1 : s1 = if d = true then pipelineStep s0 .scale F else s0)
    (h2 : s2 = if fl = true then pipelineStep s1 .flip FL else s1)
    (h3 : fin = if u = true then pipelineStep s2 .scale F else s2) :
    fin.2 <+: s0.2 ++ ((if d = true then [Stage.scale] else []) ++
      (if fl = true then [Stage.flip] else []) ++ (if u = true then [Stage.scale] else [])) := by
  obtain ⟨p1, q1⟩ := condStep_prefix d s0 .scale F s0.2 List.prefix_rfl (fun _ => rfl)
  rw [← h1] at p1 q1
  obtain ⟨p2, q2⟩ := condStep_prefix fl s1 .flip FL _ p1 q1
  rw [← h2] at p2 q2
  obtain ⟨p3, -⟩ := condStep_prefix u s2 .scale F _ p2 q2
  rw [← h3] at p3
  simp only [List.append_assoc] at p3 ⊢
  exact p3

/-- In every run of `ApplyStages` the stages invoked are an initial part of the
stages in their order. -/
theorem ApplyStages_prefix (sk : Skia) (result : StaticBitmapImage) (trace : List Stage)
    (parsed_options : ParsedOptions) :
    (ApplyStages sk result trace parsed_options).2 <+:
      trace ++ ((if IsDownScaling parsed_options result.Size = true then [Stage.scale] else []) ++
        (if parsed_options.flip_y = true then [Stage.flip] else []) ++
        (if parsed_options.has_color_space_conversion = true then [Stage.colorConversion]
          else []) ++ [Stage.alphaConversion] ++
        (if (parsed_options.should_scale_input &&
            !IsDownScaling parsed_options result.Size) = true then [Stage.scale] else [])) :=
  stages_prefix (IsDownScaling parsed_options result.Size) parsed_options.flip_y
    parsed_options.has_color_space_conversion
    (parsed_options.should_scale_input && !IsDownScaling parsed_options result.Size)
    (some result, trace) _ _ _ _ (ApplyStages sk result trace parsed_options)
    (fun i => ScaleImage sk i parsed_options)
    (fun i => FlipImageVertically sk i parsed_options)
    (fun i => ApplyColorSpaceConversion sk i parsed_options)
    (fun i => GetImageWithAlphaDisposition sk i
      (if parsed_options.premultiply_alpha then .kPremultiplyAlpha else .kUnpremultiplyAlpha))
    rfl rfl rfl rfl rfl

/-- In every run of `ImageDataStages` the stages invoked are an initial part of
the stages in their order. -/
theorem ImageDataStages_prefix (sk : Skia) (image : StaticBitmapImage)
    (parsed_options : ParsedOptions) :
    (ImageDataStages sk image parsed_options).2 <+:
      [Stage.pixelCopy] ++
        ((if IsDownScaling parsed_options image.Size = true then [Stage.scale] else []) ++
        (if parsed_options.flip_y = true then [Stage.flip] else []) ++
        (if (parsed_options.should_scale_input &&
            !IsDownScaling parsed_options image.Size) = true then [Stage.scale] else [])) :=
  data_stages_prefix (IsDownScaling parsed_options image.Size) parsed_options.flip_y
    (parsed_options.should_scale_input && !IsDownScaling parsed_options image.Size)
    (some image, [Stage.pixelCopy]) _ _ (ImageDataStages sk image parsed_options)
    (fun i => ScaleImage sk i parsed_options)
    (fun i => FlipImageVertically sk i parsed_options)
    rfl rfl rfl

/-- The scaling decision in exact arithmetic, when the unsigned product of the
resize dimensions does not wrap. -/
theorem IsDownScaling_iff (parsed_options : ParsedOptions) (size : IntSize)
    (hs : parsed_options.should_scale_input = true)
    (hfit : IsUnsigned (parsed_options.resize_width * parsed_options.resize_height))
    (hsz : size.IsImageSize) :
    IsDownScaling parsed_options size = true ↔
      ((parsed_options.resize_width * parsed_options.resize_height : Nat) : Int) <
        size.width * size.height := by
  obtain ⟨⟨w0, w1⟩, ⟨h0, h1⟩⟩ := hsz
  unfold kIntMax at w1 h1
  have a0 : 0 ≤ size.width * size.height := Int.mul_nonneg w0 h0
  have a1 : size.width * size.height ≤ 2147483647 * 2147483647 :=
    Int.mul_le_mul w1 h1 h0 (by decide)
  unfold IsDownScaling IntSize.Area
  unfold IsUnsigned kUnsignedMax at hfit
  rw [hs, Bool.true_and, decide_eq_true_eq]
  generalize parsed_options.resize_width * parsed_options.resize_height = P at *
  generalize size.width * size.height = A at *
  omega

/-- C21: with `should_scale_input` true, and the unsigned product of the resize
dimensions not wrapping, the resize is a down-scale exactly when
resize_width * resize_height is strictly below the area of the cropped image,
and an up-scale otherwise. In `CropImageAndApplyColorSpaceConversion` the stages
invoked after the crop are, in every run, an initial part of: scale, flip,
colour conversion, alpha conversion for a down-scale, and flip, colour
conversion, alpha conversion, scale for an up-scale; a run that yields an image
has invoked all of them. The `ImageData` constructor, for the same options and
image size, makes the same decision and puts the scale on the same side of the
flip. -/
theorem resample_ordering (sk : Skia) (parsed_options : ParsedOptions)
    (result image : StaticBitmapImage) (trace : List Stage)
    (hs : parsed_options.should_scale_input = true)
    (hfit : IsUnsigned (parsed_options.resize_width * parsed_options.resize_height))
    (hsz : result.Size.IsImageSize) (hsame : image.Size = result.Size) :
    (IsDownScaling parsed_options result.Size = true ↔
        ((parsed_options.resize_width * parsed_options.resize_height : Nat) : Int) <
          result.Size.width * result.Size.height) ∧
      IsDownScaling parsed_options image.Size = IsDownScaling parsed_options result.Size ∧
      ((ApplyStages sk result trace parsed_options).2 <+:
        trace ++ (if IsDownScaling parsed_options result.Size = true then
          [Stage.scale] ++ (if parsed_options.flip_y = true then [Stage.flip] else []) ++
            (if parsed_options.has_color_space_conversion = true then [Stage.colorConversion]
              else []) ++ [Stage.alphaConversion]
          else (if parsed_options.flip_y = true then [Stage.flip] else []) ++
            (if parsed_options.has_color_space_conversion = true then [Stage.colorConversion]
              else []) ++ [Stage.alphaConversion] ++ [Stage.scale])) ∧
      (∀ out, (ApplyStages sk result trace parsed_options).1 = some out →
        (ApplyStages sk result trace parsed_options).2 =
          trace ++ (if IsDownScaling parsed_options result.Size = true then
            [Stage.scale] ++ (if parsed_options.flip_y = true then [Stage.flip] else []) ++
              (if parsed_options.has_color_space_conversion = true then [Stage.colorConversion]
                else []) ++ [Stage.alphaConversion]
            else (if parsed_options.flip_y = true then [Stage.flip] else []) ++
              (if parsed_options.has_color_space_conversion = true then [Stage.colorConversion]
                else []) ++ [Stage.alphaConversion] ++ [Stage.scale])) ∧
      ((ImageDataStages sk image parsed_options).2 <+:
        [Stage.pixelCopy] ++ (if IsDownScaling parsed_options result.Size = true then
          [Stage.scale] ++ (if parsed_options.flip_y = true then [Stage.flip] else [])
          else (if parsed_options.flip_y = true then [Stage.flip] else []) ++ [Stage.scale])) ∧
      (∀ out, (ImageDataStages sk image parsed_options).1 = some out →
        (ImageDataStages sk image parsed_options).2 =
          [Stage.pixelCopy] ++ (if IsDownScaling parsed_options result.Size = true then
            [Stage.scale] ++ (if parsed_options.flip_y = true then [Stage.flip] else [])
            else (if parsed_options.flip_y = true then [Stage.flip] else []) ++
              [Stage.scale])) := by
  have p1 := ApplyStages_prefix sk result trace parsed_options
  have t1 := ApplyStages_trace sk result
  have p2 := ImageDataStages_prefix sk image parsed_options
  have t2 := ImageDataStages_trace sk image
  rw [hsame] at p2
  refine ⟨IsDownScaling_iff parsed_options result.Size hs hfit hsz, by rw [hsame], ?_, ?_, ?_, ?_⟩
  · cases hd : IsDownScaling parsed_options result.Size
    · rw [hd, hs] at p1
      simpa using p1
    · rw [hd, hs] at p1
      simpa using p1
  · intro out h
    have e := t1 out trace parsed_options h
    cases hd : IsDownScaling parsed_options result.Size
    · rw [hd, hs] at e
      simpa using e
    · rw [hd, hs] at e
      simpa using e
  · cases hd : IsDownScaling parsed_options result.Size
    · rw [hd, hs] at p2
      simpa using p2
    · rw [hd, hs] at p2
      simpa using p2
  · intro out h
    have e := t2 out parsed_options h
    rw [hsame] at e
    cases hd : IsDownScaling parsed_options result.Size
    · rw [hd, hs] at e
      simpa using e
    · rw [hd, hs] at e
      simpa using e

/-- Witness of C21: on the 100 x 100 sample image with a flip, a resize to
50 x 50 scales before the flip, and a resize to 200 x 200 or to 200 x 50 (the
same area) scales after the alpha conversion; the `ImageData` steps put the
scale on the same side of the flip. -/
theorem resample_ordering_witness :
    (ApplyStages sampleSkia sampleImage [] downscaleFlipOptions).2 =
        [.scale, .flip, .alphaConversion] ∧
      (ApplyStages sampleSkia sampleImage [] upscaleFlipOptions).2 =
        [.flip, .alphaConversion, .scale] ∧
      (ApplyStages sampleSkia sampleImage [] equalAreaFlipOptions).2 =
        [.flip, .alphaConversion, .scale] ∧
      (ImageDataStages sampleSkia sampleImage downscaleFlipOptions).2 =
        [.pixelCopy, .scale, .flip] ∧
      (ImageDataStages sampleSkia sampleImage upscaleFlipOptions).2 =
        [.pixelCopy, .flip, .scale] :=
  ⟨(resample_ordering sampleSkia downscaleFlipOptions sampleImage sampleImage [] rfl
      (by decide) (by decide) rfl).2.2.2.1 _ (by rfl),
    (resample_ordering sampleSkia upscaleFlipOptions sampleImage sampleImage [] rfl
      (by decide) (by decide) rfl).2.2.2.1 _ (by rfl),
    (resample_ordering sampleSkia equalAreaFlipOptions sampleImage sampleImage [] rfl
      (by decide) (by decide) rfl).2.2.2.1 _ (by rfl),
    (resample_ordering sampleSkia downscaleFlipOptions sampleImage sampleImage [] rfl
      (by decide) (by decide) rfl).2.2.2.2.2 _ (by rfl),
    (resample_ordering sampleSkia upscaleFlipOptions sampleImage sampleImage [] rfl
      (by decide) (by decide) rfl).2.2.2.2.2 _ (by rfl)⟩

/-! ## The number of scale invocations and the size of a scaled result -/

/-- An image that `ScaleImage` yields has the resize dimensions, taken as `int`. -/
theorem ScaleImage_size (sk : Skia) (image out : StaticBitmapImage)
    (parsed_options : ParsedOptions) (h : ScaleImage sk image parsed_options = some out) :
    out.Size = ⟨wrapInt (parsed_options.resize_width : Int),
      wrapInt (parsed_options.resize_height : Int)⟩ := by
  obtain ⟨info, hinfo⟩ : ∃ i : SkImageInfo, i =
      (if (GetSkImageInfo image.skImage).colorSpace = some SkColorSpace.MakeSRGB then
        (GetSkImageInfo image.skImage).makeColorSpace none
      else GetSkImageInfo image.skImage) := ⟨_, rfl⟩
  have e : ScaleImage sk image parsed_options =
      if !sk.allocArrayBuffer
          (info.makeWH (wrapInt (parsed_options.resize_width : Int))
            (wrapInt (parsed_options.resize_height : Int))).computeMinByteSize 1 then none
      else if !sk.makeFromRaster
          ((info.makeWH (wrapInt (parsed_options.resize_width : Int))
            (wrapInt (parsed_options.resize_height : Int))).makeColorSpace
            (GetSkImageInfo image.skImage).colorSpace)
          (sk.scalePixels image.skImage
            (info.makeWH (wrapInt (parsed_options.resize_width : Int))
              (wrapInt (parsed_options.resize_height : Int)))
            parsed_options.resize_quality) then none
      else some (StaticBitmapImage.Create (SkImage.ofPixels
        ((info.makeWH (wrapInt (parsed_options.resize_width : Int))
          (wrapInt (parsed_options.resize_height : Int))).makeColorSpace
          (GetSkImageInfo image.skImage).colorSpace)
        (sk.scalePixels image.skImage
          (info.makeWH (wrapInt (parsed_options.resize_width : Int))
            (wrapInt (parsed_options.resize_height : Int)))
          parsed_options.resize_quality))) := by
    rw [hinfo]
    rfl
  rw [e] at h
  split at h
  · cases h
  · split at h
    · cases h
    · rw [← Option.some.inj h]
      rfl

/-- The scale stage is recorded at most once in a run of `ApplyStages`, and not
at all when the input is not scaled. -/
theorem ApplyStages_count (sk : Skia) (result : StaticBitmapImage) (trace : List Stage)
    (parsed_options : ParsedOptions) :
    List.count Stage.scale (ApplyStages sk result trace parsed_options).2 ≤
      List.count Stage.scale trace +
        (if parsed_options.should_scale_input = true then 1 else 0) := by
  have h := stages_count (IsDownScaling parsed_options result.Size) parsed_options.flip_y
    parsed_options.has_color_space_conversion
    (parsed_options.should_scale_input && !IsDownScaling parsed_options result.Size)
    (some result, trace) _ _ _ _ (ApplyStages sk result trace parsed_options)
    (fun i => ScaleImage sk i parsed_options)
    (fun i => FlipImageVertically sk i parsed_options)
    (fun i => ApplyColorSpaceConversion sk i parsed_options)
    (fun i => GetImageWithAlphaDisposition sk i
      (if parsed_options.premultiply_alpha then .kPremultiplyAlpha else .kUnpremultiplyAlpha))
    rfl rfl rfl rfl rfl
  have hd : IsDownScaling parsed_options result.Size = true →
      parsed_options.should_scale_input = true := by
    unfold IsDownScaling
    intro hd
    rw [Bool.and_eq_true] at hd
    exact hd.1
  cases hs : parsed_options.should_scale_input
  · cases hq : IsDownScaling parsed_options result.Size
    · rw [hs, hq] at h
      simpa using h
    · rw [hs] at hd
      exact absurd (hd hq) (by decide)
  · cases hq : IsDownScaling parsed_options result.Size
    · rw [hs, hq] at h
      simpa using h
    · rw [hs, hq] at h
      simpa using h

/-- A scaled run of `ApplyStages` that yields an image has recorded the scale
stage exactly once more. -/
theorem ApplyStages_count_success (sk : Skia) (result out : StaticBitmapImage)
    (trace : List Stage) (parsed_options : ParsedOptions)
    (hs : parsed_options.should_scale_input = true)
    (h : (ApplyStages sk result trace parsed_options).1 = some out) :
    List.count Stage.scale (ApplyStages sk result trace parsed_options).2 =
      List.count Stage.scale trace + 1 := by
  rw [ApplyStages_trace sk result out trace parsed_options h, hs]
  cases IsDownScaling parsed_options result.Size <;> cases parsed_options.flip_y <;>
    cases parsed_options.has_color_space_conversion <;> simp [List.count_append]

/-- A scaled run of `ApplyStages` that yields an image yields one of the resize
dimensions, when the colour-space conversion of the graphics library keeps the size. -/
theorem ApplyStages_scaled_size (sk : Skia) (result out : StaticBitmapImage)
    (trace : List Stage) (parsed_options : ParsedOptions)
    (hconv : ∀ i cs b o, sk.convertToColorSpace i cs b = some o → o.Size = i.Size)
    (hs : parsed_options.should_scale_input = true)
    (h : (ApplyStages sk result trace parsed_options).1 = some out) :
    out.Size = ⟨wrapInt (parsed_options.resize_width : Int),
      wrapInt (parsed_options.resize_height : Int)⟩ :=
  stages_scaled
    (fun o => o.Size = ⟨wrapInt (parsed_options.resize_width : Int),
      wrapInt (parsed_options.resize_height : Int)⟩)
    (IsDownScaling parsed_options result.Size) parsed_options.flip_y
    parsed_options.has_color_space_conversion
    (parsed_options.should_scale_input && !IsDownScaling parsed_options result.Size)
    (some result, trace) _ _ _ _ (ApplyStages sk result trace parsed_options)
    (fun i => ScaleImage sk i parsed_options)
    (fun i => FlipImageVertically sk i parsed_options)
    (fun i => ApplyColorSpaceConversion sk i parsed_options)
    (fun i => GetImageWithAlphaDisposition sk i
      (if parsed_options.premultiply_alpha then .kPremultiplyAlpha else .kUnpremultiplyAlpha))
    out
    (fun i o e => ScaleImage_size sk i o parsed_options e)
    (fun i o e p => (FlipImageVertically_size sk i o parsed_options e).trans p)
    (fun i o e p => (hconv i _ _ o e).trans p)
    (fun i o e p => (GetImageWithAlphaDisposition_size sk i o _ e).trans p)
    rfl rfl rfl rfl rfl
    (by
      rw [hs]
      cases IsDownScaling parsed_options result.Size
      · exact Or.inr rfl
      · exact Or.inl rfl)
    h

/-- The stages before `ApplyStages` do not include the scale. -/
theorem DecodeIfNeeded_count (sk : Skia) (image : Image) (parsed_options : ParsedOptions) :
    List.count Stage.scale (DecodeIfNeeded sk image parsed_options).2 = 0 := by
  have h : (DecodeIfNeeded sk image parsed_options).2 = [] ∨
      (DecodeIfNeeded sk image parsed_options).2 = [Stage.decode] := by
    unfold DecodeIfNeeded
    cases image.data with
    | none => exact Or.inl rfl
    | some d =>
      simp only
      split
      · cases sk.decode d parsed_options.premultiply_alpha
            parsed_options.has_color_space_conversion with
        | none => exact Or.inr rfl
        | some o =>
          simp only
          split
          · split
            · exact Or.inr rfl
            · exact Or.inr rfl
          · exact Or.inr rfl
      · exact Or.inl rfl
  rcases h with h | h <;> rw [h] <;> rfl

/-- With a non-empty intersection the pipeline stops at the decoder or runs
`ApplyStages` on the cropped frame, after stages that do not include the scale. -/
theorem CropImageAndApplyColorSpaceConversion_shape (sk : Skia) (image : Image)
    (parsed_options : ParsedOptions)
    (hne : (Intersection ⟨0, 0, image.width, image.height⟩ parsed_options.crop_rect).IsEmpty
      = false) :
    (∃ t, CropImageAndApplyColorSpaceConversion sk image parsed_options = (none, t) ∧
        List.count Stage.scale t = 0) ∨
      (∃ r t, CropImageAndApplyColorSpaceConversion sk image parsed_options =
          ApplyStages sk r t parsed_options ∧ List.count Stage.scale t = 0) := by
  have hc := DecodeIfNeeded_count sk image parsed_options
  unfold CropImageAndApplyColorSpaceConversion
  simp only [hne, Bool.false_eq_true, if_false]
  obtain ⟨r, hr⟩ : ∃ r, r = DecodeIfNeeded sk image parsed_options := ⟨_, rfl⟩
  rw [← hr] at hc ⊢
  obtain ⟨frame, trace⟩ := r
  simp only at hc
  cases frame with
  | none => exact Or.inl ⟨trace, rfl, hc⟩
  | some skia_image =>
    simp only
    refine Or.inr ?_
    split
    · refine ⟨_, _, rfl, ?_⟩
      rw [List.count_append, hc]
      rfl
    · exact ⟨_, _, rfl, hc⟩

/-- C26, counterexample: `should_scale_input` is true and the intersection is
not empty, but the flip fails (no surface can be made) before the pending
up-scale, the pipeline returns null, and `ScaleImage` has not been invoked;
the same through the constructor from an image handle. -/
theorem scale_not_invoked_counterexample :
    upscaleFlipOptions.should_scale_input = true ∧
      (Intersection ⟨0, 0, sampleImage.width, sampleImage.height⟩
        upscaleFlipOptions.crop_rect).IsEmpty = false ∧
      CropImageAndApplyColorSpaceConversion noSurfaceSkia sampleImage upscaleFlipOptions =
        (none, [.flip]) ∧
      List.count Stage.scale
        (CropImageAndApplyColorSpaceConversion noSurfaceSkia sampleImage upscaleFlipOptions).2
        = 0 ∧
      ImageBitmap.Create noSurfaceSkia (fun _ => 0) (.staticBitmapImage sampleImage) none
          upscaleFlipRequest = (ImageBitmap.empty, [.flip]) := by
  refine ⟨by rfl, by rfl, by rfl, by rfl, by rfl⟩

/-- C26 (amended): in `CropImageAndApplyColorSpaceConversion` with a non-empty
intersection, `ScaleImage` is invoked at most once, not at all when
`should_scale_input` is false, and exactly once when `should_scale_input` is
true and the pipeline yields an image; that image has the dimensions
(resize_width, resize_height), for resize dimensions in the range of `int` and
a colour-space conversion that keeps the size. -/
theorem scale_once (sk : Skia) (image : Image) (parsed_options : ParsedOptions)
    (hconv : ∀ i cs b o, sk.convertToColorSpace i cs b = some o → o.Size = i.Size)
    (hne : (Intersection ⟨0, 0, image.width, image.height⟩ parsed_options.crop_rect).IsEmpty
      = false) :
    List.count Stage.scale
        (CropImageAndApplyColorSpaceConversion sk image parsed_options).2 ≤ 1 ∧
      (parsed_options.should_scale_input = false →
        List.count Stage.scale
          (CropImageAndApplyColorSpaceConversion sk image parsed_options).2 = 0) ∧
      (∀ out, parsed_options.should_scale_input = true →
        (CropImageAndApplyColorSpaceConversion sk image parsed_options).1 = some out →
        List.count Stage.scale
            (CropImageAndApplyColorSpaceConversion sk image parsed_options).2 = 1 ∧
          ((parsed_options.resize_width : Int) ≤ kIntMax →
            (parsed_options.resize_height : Int) ≤ kIntMax →
            out.Size = ⟨(parsed_options.resize_width : Int),
              (parsed_options.resize_height : Int)⟩)) := by
  rcases CropImageAndApplyColorSpaceConversion_shape sk image parsed_options hne with
    ⟨t, e, ht⟩ | ⟨r, t, e, ht⟩
  · rw [e]
    refine ⟨by rw [ht]; exact Nat.zero_le _, fun _ => ht, fun out _ h => ?_⟩
    cases h
  · rw [e]
    have hc := ApplyStages_count sk r t parsed_options
    rw [ht] at hc
    refine ⟨?_, ?_, ?_⟩
    · refine le_trans hc ?_
      split <;> decide
    · intro hs
      rw [hs] at hc
      simpa using hc
    · intro out hs h
      refine ⟨?_, fun hw hh => ?_⟩
      · rw [ApplyStages_count_success sk r out t parsed_options hs h, ht]
      · rw [ApplyStages_scaled_size sk r out t parsed_options hconv hs h,
          wrapInt_of_isInt _ ⟨by unfold kIntMin; omega, hw⟩,
          wrapInt_of_isInt _ ⟨by unfold kIntMin; omega, hh⟩]

/-- Witness of C26 (amended): a 100 x 100 source with the crop rectangle
(50, 50, 100, 100) and a 20 x 20 result: one scale, and a 20 x 20 image. -/
theorem scale_once_witness :
    (CropImageAndApplyColorSpaceConversion sampleSkia sampleImage overhangResizeOptions).2 =
        [.crop, .scale, .colorConversion, .alphaConversion] ∧
      ((CropImageAndApplyColorSpaceConversion sampleSkia sampleImage
        overhangResizeOptions).1.map (fun o => o.Size)) = some ⟨20, 20⟩ ∧
      List.count Stage.scale
        (CropImageAndApplyColorSpaceConversion sampleSkia sampleImage
          overhangResizeOptions).2 = 1 :=
  ⟨by rfl, by rfl,
    ((scale_once sampleSkia sampleImage overhangResizeOptions
      (fun _ _ _ _ e => by cases e; rfl) (by rfl)).2.2 _ (by rfl) (by rfl)).1⟩

/-! ## CSS quotes -/

/-- The loop of `parseSingleValue` with enough fuel, for helpers whose
`consumeString` consumes a leading string token and returns null on any other
token: it ends with the strings of the range appended when every token is a
string, and returns null otherwise. -/
theorem CSSPropertyAPIQuotes.consumeStrings_spec (helpers : CSSPropertyParserHelpers)
    (hstr : ∀ value rest, helpers.consumeString (.string value :: rest) = (some value, rest))
    (hother : ∀ token rest, token.isStringToken = false →
      (helpers.consumeString (token :: rest)).1 = none) :
    ∀ (range : CSSParserTokenRange) (fuel : Nat) (values : List String),
      range.length < fuel →
      CSSPropertyAPIQuotes.consumeStrings helpers fuel range values =
        some (if range.all CSSParserToken.isStringToken = true then
          some (values ++ range.map CSSParserToken.stringValue) else none) := by
  intro range
  induction range with
  | nil =>
    intro fuel values hf
    cases fuel with
    | zero => exact absurd hf (Nat.not_lt_zero _)
    | succ f => simp [CSSPropertyAPIQuotes.consumeStrings, CSSParserTokenRange.atEnd]
  | cons token rest ih =>
    intro fuel values hf
    cases fuel with
    | zero => exact absurd hf (Nat.not_lt_zero _)
    | succ f =>
      have hf2 : rest.length < f := by
        simp only [List.length_cons] at hf
        omega
      cases ht : token.isStringToken with
      | false =>
        have h1 := hother token rest ht
        obtain ⟨a, b, hab⟩ : ∃ a b, helpers.consumeString (token :: rest) = (a, b) :=
          ⟨_, _, rfl⟩
        rw [hab] at h1
        simp only at h1
        subst h1
        simp [CSSPropertyAPIQuotes.consumeStrings, CSSParserTokenRange.atEnd, hab, ht]
      | true =>
        cases token with
        | ident id => cases ht
        | other kind => cases ht
        | string value =>
          have e := ih f (values ++ [value]) hf2
          simp only [CSSPropertyAPIQuotes.consumeStrings, CSSParserTokenRange.atEnd,
            List.isEmpty_cons, Bool.false_eq_true, if_false, hstr value rest, e]
          simp [CSSParserToken.isStringToken, CSSParserToken.stringValue]

/-- C29: for a token range that does not start with the identifier `none`, and
helpers whose `consumeString` consumes a leading string token and returns null
on any other token, `parseSingleValue` returns (with fuel for one iteration
per token and the final test) a value list exactly when every token of the
range is a string token and their number is even and at least 2, and the list
then holds the strings of the range in order; otherwise, so for an empty range,
an odd number of strings or a token that is not a string, it returns null. -/
theorem CSSPropertyAPIQuotes.parseSingleValue_strings (helpers : CSSPropertyParserHelpers)
    (hstr : ∀ value rest, helpers.consumeString (.string value :: rest) = (some value, rest))
    (hother : ∀ token rest, token.isStringToken = false →
      (helpers.consumeString (token :: rest)).1 = none)
    (range : CSSParserTokenRange) (fuel : Nat) (hnone : range.peekId ≠ .CSSValueNone)
    (hf : range.length < fuel) :
    CSSPropertyAPIQuotes.parseSingleValue helpers fuel range =
        some (if range.all CSSParserToken.isStringToken = true ∧ range.length % 2 = 0 ∧
            2 ≤ range.length then
          some (.spaceSeparatedList (range.map CSSParserToken.stringValue)) else none) ∧
      ((∃ value, CSSPropertyAPIQuotes.parseSingleValue helpers fuel range = some (some value)) ↔
        (range.all CSSParserToken.isStringToken = true ∧ range.length % 2 = 0 ∧
          2 ≤ range.length)) := by
  have main : CSSPropertyAPIQuotes.parseSingleValue helpers fuel range =
      some (if range.all CSSParserToken.isStringToken = true ∧ range.length % 2 = 0 ∧
          2 ≤ range.length then
        some (.spaceSeparatedList (range.map CSSParserToken.stringValue)) else none) := by
    unfold CSSPropertyAPIQuotes.parseSingleValue
    rw [if_neg hnone,
      CSSPropertyAPIQuotes.consumeStrings_spec helpers hstr hother range fuel [] hf]
    by_cases hall : range.all CSSParserToken.isStringToken = true
    · rw [if_pos hall]
      simp only [List.nil_append, List.length_map, ne_eq]
      by_cases hlen : range.length % 2 = 0 ∧ 2 ≤ range.length
      · rw [if_pos ⟨by omega, hlen.1⟩, if_pos ⟨hall, hlen⟩]
      · rw [if_neg (by omega), if_neg (fun h => hlen h.2)]
    · rw [if_neg hall, if_neg (fun h => hall h.1)]
  refine ⟨main, ?_⟩
  rw [main]
  by_cases hc : range.all CSSParserToken.isStringToken = true ∧ range.length % 2 = 0 ∧
      2 ≤ range.length
  · rw [if_pos hc]
    exact ⟨fun _ => hc, fun _ => ⟨_, rfl⟩⟩
  · rw [if_neg hc]
    constructor
    · rintro ⟨value, h⟩
      cases h
    · intro h
      exact absurd h hc

/-- Witness of C29: two strings give the list of the two; one string, no token,
three strings and a string followed by a number give null. -/
theorem CSSPropertyAPIQuotes.parseSingleValue_strings_witness :
    CSSPropertyAPIQuotes.parseSingleValue sampleHelpers 3 [.string "a", .string "b"] =
        some (some (.spaceSeparatedList ["a", "b"])) ∧
      CSSPropertyAPIQuotes.parseSingleValue sampleHelpers 2 [.string "a"] = some none ∧
      CSSPropertyAPIQuotes.parseSingleValue sampleHelpers 1 [] = some none ∧
      CSSPropertyAPIQuotes.parseSingleValue sampleHelpers 4
        [.string "a", .string "b", .string "c"] = some none ∧
      CSSPropertyAPIQuotes.parseSingleValue sampleHelpers 3 [.string "a", .other 0] =
        some none :=
  ⟨(CSSPropertyAPIQuotes.parseSingleValue_strings sampleHelpers (fun _ _ => rfl)
      (fun token rest h => by cases token <;> first | rfl | cases h)
      [.string "a", .string "b"] 3 (by decide) (by decide)).1,
    by rfl, by rfl, by rfl, by rfl⟩

/-! ## The presentation attributes of the hr element -/

/-- C30: for the `size` attribute parsed to the integer n (a value of `int`),
`CollectStyleForPresentationAttribute` adds border-bottom-width: 0px when
n <= 1 and otherwise height: (n - 2)px, which is not negative, and it adds
exactly one of the two; for the `width` attribute a value that parses to the
integer 0 adds width: 1px, and every other value is handed to the HTML length
conversion. -/
theorem HTMLHRElement.CollectStyleForPresentationAttribute_size_width
    (fns : AtomicStringFunctions) (element : HTMLHRElement) (value : String)
    (style : List StyleAddition) (hint : IsInt (fns.ToInt value).1) :
    ((fns.ToInt value).1 ≤ 1 →
        HTMLHRElement.CollectStyleForPresentationAttribute fns element .sizeAttr value style =
          style ++ [.pixels .CSSPropertyBorderBottomWidth 0]) ∧
      (1 < (fns.ToInt value).1 →
        HTMLHRElement.CollectStyleForPresentationAttribute fns element .sizeAttr value style =
            style ++ [.pixels .CSSPropertyHeight ((fns.ToInt value).1 - 2)] ∧
          0 ≤ (fns.ToInt value).1 - 2) ∧
      (((fns.ToInt value).2 = true ∧ (fns.ToInt value).1 = 0) →
        HTMLHRElement.CollectStyleForPresentationAttribute fns element .widthAttr value style =
          style ++ [.pixels .CSSPropertyWidth 1]) ∧
      (¬((fns.ToInt value).2 = true ∧ (fns.ToInt value).1 = 0) →
        HTMLHRElement.CollectStyleForPresentationAttribute fns element .widthAttr value style =
          style ++ [.htmlLength .CSSPropertyWidth value]) := by
  refine ⟨?_, ?_, ?_, ?_⟩
  · intro h
    simp [HTMLHRElement.CollectStyleForPresentationAttribute, h]
  · intro h
    have e : wrapInt ((fns.ToInt value).1 - 2) = (fns.ToInt value).1 - 2 := by
      apply wrapInt_of_isInt
      obtain ⟨h1, h2⟩ := hint
      unfold kIntMin at h1
      unfold kIntMax at h2
      constructor
      · unfold kIntMin
        omega
      · unfold kIntMax
        omega
    have hn : ¬ (fns.ToInt value).1 ≤ 1 := by omega
    refine ⟨?_, by omega⟩
    simp [HTMLHRElement.CollectStyleForPresentationAttribute, hn, e]
  · intro h
    simp [HTMLHRElement.CollectStyleForPresentationAttribute, h.1, h.2]
  · intro h
    simp only [HTMLHRElement.CollectStyleForPresentationAttribute]
    rw [if_neg (by decide), if_pos trivial, if_neg h]

/-- Witness of C30: size "5" gives height: 3px, size "1" and size "0" give
border-bottom-width: 0px, width "0" gives width: 1px and width "5" goes to the
HTML length conversion. -/
theorem HTMLHRElement.CollectStyleForPresentationAttribute_size_width_witness :
    HTMLHRElement.CollectStyleForPresentationAttribute sampleStringFunctions ⟨false⟩
        .sizeAttr "5" [] = [.pixels .CSSPropertyHeight 3] ∧
      HTMLHRElement.CollectStyleForPresentationAttribute sampleStringFunctions ⟨false⟩
        .sizeAttr "1" [] = [.pixels .CSSPropertyBorderBottomWidth 0] ∧
      HTMLHRElement.CollectStyleForPresentationAttribute sampleStringFunctions ⟨false⟩
        .sizeAttr "0" [] = [.pixels .CSSPropertyBorderBottomWidth 0] ∧
      HTMLHRElement.CollectStyleForPresentationAttribute sampleStringFunctions ⟨false⟩
        .widthAttr "0" [] = [.pixels .CSSPropertyWidth 1] ∧
      HTMLHRElement.CollectStyleForPresentationAttribute sampleStringFunctions ⟨false⟩
        .widthAttr "5" [] = [.htmlLength .CSSPropertyWidth "5"] :=
  ⟨((HTMLHRElement.CollectStyleForPresentationAttribute_size_width sampleStringFunctions
      ⟨false⟩ "5" [] (by decide)).2.1 (by decide)).1,
    (HTMLHRElement.CollectStyleForPresentationAttribute_size_width sampleStringFunctions
      ⟨false⟩ "1" [] (by decide)).1 (by decide),
    by rfl,
    (HTMLHRElement.CollectStyleForPresentationAttribute_size_width sampleStringFunctions
      ⟨false⟩ "0" [] (by decide)).2.2.1 (by decide),
    (HTMLHRElement.CollectStyleForPresentationAttribute_size_width sampleStringFunctions
      ⟨false⟩ "5" [] (by decide)).2.2.2 (by decide)⟩

end blink
